import Mathlib

/-! # OpenVoronoi: site equations and the vertex solvers

A shallow embedding of `src/site.hpp` and of the three solvers
`src/solvers/solver_ppp.hpp`, `solver_lll.hpp`, `solver_qll.hpp`.

* The scalar type (`double`, `long double`, the `Scalar` template argument) is a
  linearly ordered field `K`; every operation is exact. The section "Replay in
  binary64" evaluates the ordering and the determinant of the point solver and the
  constructor of line sites in the rounded arithmetic of `double`.
* `sqrt` (libm) is passed as an argument wherever the source calls it, so that the
  definitions stay executable; the theorems that need its properties are stated
  over `ℝ` with `Real.sqrt`.
* A failed `assert` and `exit(-1)` are the result `none`.
* `std::vector<Solution>& slns` is passed in and returned:
  a solver returns `some (return value, slns on exit)`.
* `chop`, `quadratic_roots` (`common/numeric.hpp`) and `LLLPARASolver::solve`
  (`solvers/solver_lll_para.hpp`) are not among the sources; the solvers take them
  as arguments.
-/

namespace ovd

/-! ## Point primitive -/

/-- Modelled from the spec: the 2D point primitive `Point` of `common/point.hpp`,
which is not among the sources (spec §2: "2D coordinate arithmetic: subtraction,
dot product, norm, left/right predicate"). A pair of coordinates. -/
structure Point (K : Type) where
  x : K
  y : K

namespace Point

variable {K : Type} [LinearOrderedField K]

/-- Modelled from the spec: `Point::operator-` of `common/point.hpp` (spec §2,
"subtraction"): coordinate-wise difference. -/
def sub (p q : Point K) : Point K := ⟨p.x - q.x, p.y - q.y⟩

/-- Modelled from the spec: `Point::operator+` of `common/point.hpp` (spec §2,
"2D coordinate arithmetic"): coordinate-wise sum. -/
def add (p q : Point K) : Point K := ⟨p.x + q.x, p.y + q.y⟩

/-- Modelled from the spec: scalar multiple `t*p` of `common/point.hpp` (spec §2,
"2D coordinate arithmetic"). -/
def smul (t : K) (p : Point K) : Point K := ⟨t * p.x, t * p.y⟩

/-- Modelled from the spec: `Point::dot` of `common/point.hpp` (spec §2, "dot
product"). -/
def dot (p q : Point K) : K := p.x * q.x + p.y * q.y

/-- Modelled from the spec: `Point::norm` of `common/point.hpp` (spec §2, "norm"):
the Euclidean length, the square root of the sum of the squared coordinates. -/
def norm (sqrt : K → K) (p : Point K) : K := sqrt (p.x * p.x + p.y * p.y)

/-- Modelled from the spec: `Point::is_right` of `common/point.hpp` (spec §2,
"left/right predicate"; §4.3: swapping on `is_right` makes the winding
non-clockwise): `p.is_right p1 p2` holds when `p` lies strictly to the right of the
directed line from `p1` to `p2`. -/
def is_right (p p1 p2 : Point K) : Bool :=
  decide (0 < (p2.y - p1.y) * (p.x - p1.x) - (p2.x - p1.x) * (p.y - p1.y))

/-- Three positions are collinear (coincident positions included): the cross product
of `p2 - p1` and `p3 - p1` vanishes. -/
def collinear (p1 p2 p3 : Point K) : Prop :=
  (p2.x - p1.x) * (p3.y - p1.y) - (p3.x - p1.x) * (p2.y - p1.y) = 0

end Point

/-! ## Offset equations (`site.hpp`, `struct Eq`) -/

/-- The offset equation parameters of a site (`site.hpp`, `struct Eq`):
`q (x*x + y*y - t*t) + a x + b y + c + k t = 0`. -/
structure Eq (K : Type) where
  /-- True for quadratic, false for linear. -/
  q : Bool
  a : K
  b : K
  c : K
  /-- Offset direction parameter. -/
  k : K

namespace Eq

variable {K : Type} [LinearOrderedField K]

/-- The subtraction `Eq::operator-`, through `operator-=`: `a`, `b`, `c`, `k` are
subtracted, `q` is the left operand's. -/
def sub (e other : Eq K) : Eq K :=
  { q := e.q, a := e.a - other.a, b := e.b - other.b, c := e.c - other.c,
    k := e.k - other.k }

/-- The access `Eq::operator[]`: 0 is `a`, 1 is `b`, 2 is `k`; any other index runs
into `assert(0)`. -/
def index (e : Eq K) (idx : Nat) : Option K :=
  match idx with
  | 0 => some e.a
  | 1 => some e.b
  | 2 => some e.k
  | _ => none

/-- The linear part `a x + b y + c + k t` of the offset equation. -/
def lin (e : Eq K) (x y t : K) : K :=
  e.a * x + e.b * y + e.c + e.k * t

/-- The left-hand side of the offset equation of the doc comment of `struct Eq`:
`q (x*x + y*y - t*t) + a x + b y + c + k t`. -/
def lhs (e : Eq K) (x y t : K) : K :=
  (if e.q then x * x + y * y - t * t else 0) + e.a * x + e.b * y + e.c + e.k * t

end Eq

/-! ## Sites (`site.hpp`) -/

/-- A site (`class Site` with its subclasses `PointSite`, `LineSite`, `ArcSite`):
the equation `eq` and the face of the base class, then the members of the subclass.
The graph handles (`HEEdge e`, `HEVertex v`) are left out. -/
inductive Site (K : Type) where
  | point (eq : Eq K) (face : Nat) (_p : Point K)
  | line (eq : Eq K) (face : Nat) (_start _end : Point K)
  | arc (eq : Eq K) (face : Nat) (_start _end _center : Point K) (_dir : Bool)
      (_radius _k : K)

variable {K : Type} [LinearOrderedField K]

/-- The constructor `PointSite::PointSite(p, f)`. -/
def PointSite (p : Point K) (f : Nat) : Site K :=
  Site.point
    { q := true, a := -2 * p.x, b := -2 * p.y, k := 0, c := p.x * p.x + p.y * p.y }
    f p

/-- The constructor `LineSite::LineSite(st, en, koff, f)`; `none` when the closing
assertion `fabs(eq.a*eq.a + eq.b*eq.b - 1.0) < 1e-5` fails. The square root and the
divisions are exact here; `binary64.LineSite` is the same constructor with every
operation rounded as `double` rounds it. -/
def LineSite (sqrt : K → K) (st en : Point K) (koff : K) (f : Nat) : Option (Site K) :=
  let a := en.y - st.y
  let b := st.x - en.x
  let c := en.x * st.y - st.x * en.y
  let d := sqrt (a * a + b * b)
  let a := a / d
  let b := b / d
  let c := c / d
  if |a * a + b * b - 1| < 1 / 10 ^ 5 then
    some (Site.line { q := false, a := a, b := b, k := koff, c := c } f st en)
  else none

/-- The constructor `ArcSite::ArcSite(startpt, endpt, centr, dir)`; the face is the
base class's initial 0. -/
def ArcSite (sqrt : K → K) (startpt endpt centr : Point K) (dir : Bool) : Site K :=
  let _radius := (centr.sub startpt).norm sqrt
  let _k : K := 1
  Site.arc
    { q := true, a := -2 * centr.x, b := -2 * centr.y, k := -2 * _k * _radius,
      c := centr.x * centr.x + centr.y * centr.y - _radius * _radius }
    0 startpt endpt centr dir _radius _k

namespace Site

/-- The member `Site::eq`. -/
def eq : Site K → Eq K
  | point e _ _ => e
  | line e _ _ _ => e
  | arc e _ _ _ _ _ _ _ => e

/-- The method `Site::isPoint`. -/
def isPoint : Site K → Bool
  | point _ _ _ => true
  | _ => false

/-- The method `Site::isLine`. -/
def isLine : Site K → Bool
  | line _ _ _ _ => true
  | _ => false

/-- The method `Site::isArc`. -/
def isArc : Site K → Bool
  | arc _ _ _ _ _ _ _ _ => true
  | _ => false

/-- The method `Site::is_linear`: true for a `LineSite`. -/
def is_linear (s : Site K) : Bool := s.isLine

/-- The method `Site::position`: the position of a `PointSite`, `assert(0)` otherwise. -/
def position : Site K → Option (Point K)
  | point _ _ p => some p
  | _ => none

/-- The method `Site::eqp(kk)`: the equation with `k` multiplied by `kk`. -/
def eqp (s : Site K) (kk : K) : Eq K :=
  { s.eq with k := s.eq.k * kk }

/-- The method `Site::eqp_qd(kk)`: the equation, copied to the wider scalar type, with `k`
multiplied by `kk`. -/
def eqp_qd (s : Site K) (kk : K) : Eq K :=
  { s.eq with k := s.eq.k * kk }

end Site

/-! ## Solutions -/

/-- Modelled from the spec: `Solution` of `solvers/solution.hpp`, which is not among
the sources (spec §3: "position (Point), clearance distance `t`, and the signed
offset direction `k`"), built as `Solution(p, t, k3)`. -/
structure Solution (K : Type) where
  p : Point K
  t : K
  k3 : K

/-- The position and the clearance distance `(x, y, t)` of a solution, without its
`k3`. -/
def Solution.xyt (s : Solution K) : K × K × K := (s.p.x, s.p.y, s.t)

/-! ## Numeric helpers (`common/numeric.hpp`) -/

/-- Modelled from the spec: `sq` of `common/numeric.hpp`, which is not among the
sources: the square of its argument (spec §4.3 writes `dist²`). -/
def sq (x : K) : K := x * x

/-- Modelled from the spec: `determinant` of `common/numeric.hpp`, which is not
among the sources (spec §4.4: "`detA` is the determinant of the coefficient
matrix"): the determinant of the 3×3 matrix with rows `(a b c)`, `(d e f)`,
`(g h i)`. -/
def determinant (a b c d e f g h i : K) : K :=
  a * (e * i - h * f) - b * (d * i - g * f) + c * (d * h - g * e)

namespace numeric

/-- Modelled from the spec: `quadratic_roots` of `common/numeric.hpp`, which is not
among the sources (spec §4.5: "its real roots (0, 1, or 2) are found via the standard
quadratic formula"): the real roots of `a w² + b w + c = 0`, by the quadratic formula
when `a ≠ 0`; when `a = 0` the equation is linear, with the root `-c/b` when
`b ≠ 0`. -/
def quadratic_roots (sqrt : K → K) (a b c : K) : List K :=
  if a = 0 then
    if b = 0 then [] else [-c / b]
  else
    let disc := b * b - 4 * a * c
    if disc > 0 then [(-b + sqrt disc) / (2 * a), (-b - sqrt disc) / (2 * a)]
    else if disc = 0 then [-b / (2 * a)]
    else []

end numeric

/-! ## The point-point-point solver (`solver_ppp.hpp`) -/

namespace PPPSolver

/-- The numerator `J2` of `PPPSolver::solve`. -/
def J2 (spi spj spk : Point K) : K :=
  (spi.y - spk.y) * (sq (spj.x - spk.x) + sq (spj.y - spk.y)) / 2 -
    (spj.y - spk.y) * (sq (spi.x - spk.x) + sq (spi.y - spk.y)) / 2

/-- The numerator `J3` of `PPPSolver::solve`. -/
def J3 (spi spj spk : Point K) : K :=
  (spi.x - spk.x) * (sq (spj.x - spk.x) + sq (spj.y - spk.y)) / 2 -
    (spj.x - spk.x) * (sq (spi.x - spk.x) + sq (spi.y - spk.y)) / 2

/-- The denominator `J4` of `PPPSolver::solve`. -/
def J4 (spi spj spk : Point K) : K :=
  (spi.x - spk.x) * (spj.y - spk.y) - (spj.x - spk.x) * (spi.y - spk.y)

/-- The index `longest_side` of `PPPSolver::solve`, from the side lengths
`l[3] = {(pi-pj).norm(), (pj-pk).norm(), (pk-pi).norm()}`. -/
def longest_side (sqrt : K → K) (pi pj pk : Point K) : Nat :=
  let l0 := (pi.sub pj).norm sqrt
  let l1 := (pj.sub pk).norm sqrt
  let l2 := (pk.sub pi).norm sqrt
  let longest_side : Nat := if l1 > l0 then 1 else 0
  if l2 > (if longest_side = 1 then l1 else l0) then 2 else longest_side

/-- The three points as `PPPSolver::solve` orders them before the `J` formulas:
the swap on `is_right`, then the rotation that makes `pi`-`pj` the longest side.
`none` when one of the assertions on the ordering fails. The orientation test and the
lengths are exact here; `binary64.PPPSolver.ordered` is the same step with every
operation rounded as `double` rounds it. -/
def ordered (sqrt : K → K) (pi pj pk : Point K) : Option (Point K × Point K × Point K) :=
  -- if ( pi.is_right(pj,pk) ) std::swap(pi,pj);
  let (pi, pj) := if pi.is_right pj pk then (pj, pi) else (pi, pj)
  -- assert( !pi.is_right(pj,pk) );
  if pi.is_right pj pk then none else
  let longest_side := longest_side sqrt pi pj pk
  let (pi, pj, pk) :=
    if longest_side = 1 then (pj, pk, pi)      -- swap(pi,pk); swap(pi,pj)
    else if longest_side = 2 then (pk, pi, pj) -- swap(pi,pj); swap(pi,pk)
    else (pi, pj, pk)
  if pi.is_right pj pk then none
  else if ¬ ((pi.sub pj).norm sqrt ≥ (pj.sub pk).norm sqrt) then none
  else if ¬ ((pi.sub pj).norm sqrt ≥ (pk.sub pi).norm sqrt) then none
  else some (pi, pj, pk)

/-- The method `PPPSolver::solve(s1, k1, s2, k2, s3, k3, slns)`. The test `J4 == 0.0`
is on the exact value here; `binary64.PPPSolver.solve` is the same method for
`Scalar = double`, with every operation rounded. -/
def solve (sqrt : K → K) (s1 : Site K) (_k1 : K) (s2 : Site K) (_k2 : K)
    (s3 : Site K) (_k3 : K) (slns : List (Solution K)) :
    Option (Int × List (Solution K)) :=
  -- assert( s1->isPoint() && s2->isPoint() && s3->isPoint() );
  if ¬ (s1.isPoint && s2.isPoint && s3.isPoint) then none else
  match s1.position, s2.position, s3.position with
  | some pi, some pj, some pk =>
    match ordered sqrt pi pj pk with
    | none => none
    | some (pi, pj, pk) =>
      let J2 := J2 pi pj pk
      let J3 := J3 pi pj pk
      let J4 := J4 pi pj pk
      -- assert( J4 != 0.0 ); if (J4==0.0) exit(-1);
      if J4 = 0 then none else
      let sln_pt : Point K := ⟨-J2 / J4 + pk.x, J3 / J4 + pk.y⟩
      let dist := (sln_pt.sub pi).norm sqrt
      some (1, slns ++ [⟨sln_pt, dist, 1⟩])
  | _, _, _ => none

end PPPSolver

/-! ## The line-line-line solver (`solver_lll.hpp`) -/

namespace LLLSolver

/-- The constant `std::numeric_limits<double>::epsilon()`, 2⁻⁵². -/
def double_epsilon : K := 1 / 2 ^ 52

/-- The threshold `det_eps = 1e-6` of `LLLSolver::solve`. -/
def det_eps : K := 1 / 10 ^ 6

/-- The coefficient determinant `detA` of `LLLSolver::solve`, chopped. -/
def detA (chop : K → K) (eq0 eq1 eq2 : Eq K) : K :=
  chop (determinant eq0.a eq0.b eq0.k eq1.a eq1.b eq1.k eq2.a eq2.b eq2.k)

/-- The value `sol_t` of `LLLSolver::solve`: column 3 replaced by `-c`. -/
def sol_t (chop : K → K) (eq0 eq1 eq2 : Eq K) : K :=
  determinant eq0.a eq0.b (-eq0.c) eq1.a eq1.b (-eq1.c) eq2.a eq2.b (-eq2.c) /
    detA chop eq0 eq1 eq2

/-- The value `sol_x` of `LLLSolver::solve`: column 1 replaced by `-c`. -/
def sol_x (chop : K → K) (eq0 eq1 eq2 : Eq K) : K :=
  determinant (-eq0.c) eq0.b eq0.k (-eq1.c) eq1.b eq1.k (-eq2.c) eq2.b eq2.k /
    detA chop eq0 eq1 eq2

/-- The value `sol_y` of `LLLSolver::solve`: column 2 replaced by `-c`. -/
def sol_y (chop : K → K) (eq0 eq1 eq2 : Eq K) : K :=
  determinant eq0.a (-eq0.c) eq0.k eq1.a (-eq1.c) eq1.k eq2.a (-eq2.c) eq2.k /
    detA chop eq0 eq1 eq2

/-- The test of the fallback loop of `LLLSolver::solve` on a pair of equations:
`delta = fabs(eq[i].a*eq[j].b - eq[j].a*eq[i].b)` is at most `1024*epsilon`. -/
def near_parallel (ei ej : Eq K) : Bool :=
  decide (|ei.a * ej.b - ej.a * ei.b| ≤ 1024 * double_epsilon)

/-- Two equations are parallel with the same offset direction: their rows
`(a, b, k)` are proportional (the three 2×2 minors vanish). -/
def parallel_rows (ei ej : Eq K) : Prop :=
  ei.a * ej.b - ej.a * ei.b = 0 ∧ ei.a * ej.k - ej.a * ei.k = 0 ∧
    ei.b * ej.k - ej.b * ei.k = 0

/-- The method `LLLSolver::solve(s1, k1, s2, k2, s3, k3, slns)`. The parallel-line solver
`LLLPARASolver::solve` is the argument `para_solve`; the fallback loop over
`i = 0, 1, 2` is written out. -/
def solve (chop : K → K)
    (para_solve : Site K → K → Site K → K → Site K → K → List (Solution K) →
      Option (Int × List (Solution K)))
    (s1 : Site K) (k1 : K) (s2 : Site K) (k2 : K) (s3 : Site K) (k3 : K)
    (slns : List (Solution K)) : Option (Int × List (Solution K)) :=
  -- assert( s1->isLine() && s2->isLine() && s3->isLine() );
  if ¬ (s1.isLine && s2.isLine && s3.isLine) then none else
  let eq0 := s1.eqp_qd k1
  let eq1 := s2.eqp_qd k2
  let eq2 := s3.eqp_qd k3
  if |detA chop eq0 eq1 eq2| > det_eps then
    if sol_t chop eq0 eq1 eq2 ≥ 0 then
      some (1, slns ++
        [⟨⟨sol_x chop eq0 eq1 eq2, sol_y chop eq0 eq1 eq2⟩, sol_t chop eq0 eq1 eq2, k3⟩])
    else some (0, slns) -- no solution if t-value negative
  else
    -- i = 0, j = 1
    if near_parallel eq0 eq1 then para_solve s1 k1 s2 k2 s3 k3 slns
    -- i = 1, j = 2
    else if near_parallel eq1 eq2 then para_solve s2 k2 s3 k3 s1 k1 slns
    -- i = 2, j = 0
    else if near_parallel eq2 eq0 then para_solve s3 k3 s1 k1 s2 k2 slns
    else some (0, slns) -- no solution if determinant zero

end LLLSolver

/-! ## The quadratic-linear-linear solver (`solver_qll.hpp`) -/

namespace QLLSolver

/-- The method `QLLSolver::qll_solve`: the roots `w` of the quadratic (1) after substituting
(2) `u = a1 w + b1` and (3) `v = a2 w + b2`, each with its triple `(u, v, w)`; the
rows written to `soln`, the return value being their number. `chop` and
`quadratic_roots` (`common/numeric.hpp`) are arguments. -/
def qll_solve (chop : K → K) (quadratic_roots : K → K → K → List K)
    (a0 b0 c0 d0 e0 f0 g0 a1 b1 a2 b2 : K) : List (K × K × K) :=
  let a := chop (a0 * (a1 * a1) + c0 * (a2 * a2) + e0)
  let b := chop (2 * a0 * a1 * b1 + 2 * a2 * b2 * c0 + a1 * b0 + a2 * d0 + f0)
  let c := a0 * (b1 * b1) + c0 * (b2 * b2) + b0 * b1 + b2 * d0 + g0
  let roots := quadratic_roots a b c
  roots.map fun w => (a1 * w + b1, a2 * w + b2, w)

/-- The table `aargs` of `QLLSolver::qll_solver`, row `i`. -/
def aargs (quad : Eq K) (i : Nat) : K × K :=
  match i with
  | 0 => (1, quad.a)
  | 1 => (1, quad.b)
  | 2 => (-1, quad.k)
  | _ => (0, 0)

/-- The assignment `tsolns[i][idx] = v` on one row of `tsolns`. -/
def set_row (row : Nat → K) (idx : Nat) (v : K) : Nat → K :=
  fun j => if j = idx then v else row j

/-- The `Solution` that `QLLSolver::qll_solver` builds from a row `(u, v, w)` of
`isolns`: the three values go to the slots `xi`, `yi`, `ti` of a row of `tsolns`
(a row of zeros here before the writes), read back as `x`, `y`, `t`. -/
def to_solution (xi yi ti : Nat) (k3 : K) (uvw : K × K × K) : Solution K :=
  let row := set_row (set_row (set_row (fun _ => 0) xi uvw.1) yi uvw.2.1) ti uvw.2.2
  ⟨⟨row 0, row 1⟩, row 2, k3⟩

/-- The method `QLLSolver::qll_solver(lins, xi, yi, ti, quad, k3, solns)`. -/
def qll_solver (chop : K → K) (quadratic_roots : K → K → K → List K)
    (lins : List (Eq K)) (xi yi ti : Nat) (quad : Eq K) (k3 : K)
    (solns : List (Solution K)) : Option (Int × List (Solution K)) :=
  match lins with
  | [l0, l1] =>
    match l0.index xi, l0.index yi, l0.index ti, l1.index xi, l1.index yi, l1.index ti with
    | some ai, some bi, some ki, some aj, some bj, some kj =>
      let ci := l0.c
      let cj := l1.c
      let d := chop (ai * bj - aj * bi)
      if d = 0 then some (-1, solns) -- no solution can be found!
      else
        let a0 := (bi * kj - bj * ki) / d
        let a1 := -(ai * kj - aj * ki) / d
        let b0 := (bi * cj - bj * ci) / d
        let b1 := -(ai * cj - aj * ci) / d
        let isolns := qll_solve chop quadratic_roots
          (aargs quad xi).1 (aargs quad xi).2 (aargs quad yi).1 (aargs quad yi).2
          (aargs quad ti).1 (aargs quad ti).2 quad.c a0 b0 a1 b1
        some (isolns.length, solns ++ isolns.map (to_solution xi yi ti k3))
    | _, _, _, _, _, _ => none -- assert(0) in Eq::operator[]
  | _ => none -- assert( lins.size() == 2 )

/-- The Solutions that one call of `qll_solver` appends: what the call leaves in an
output vector that was empty on entry. -/
def appended (chop : K → K) (quadratic_roots : K → K → K → List K)
    (lins : List (Eq K)) (xi yi ti : Nat) (quad : Eq K) (k3 : K) : List (Solution K) :=
  match qll_solver chop quadratic_roots lins xi yi ti quad k3 [] with
  | some (_, solns) => solns
  | none => []

/-- The rows `(u, v, w)` that `qll_solver` computes from the coefficients
`ai, bi, ki, ci` and `aj, bj, kj, cj` it reads from the two linear equations and the
seven arguments it passes to `qll_solve` for the quadratic one; no row when the
determinant `d` is zero. -/
def rows (chop : K → K) (quadratic_roots : K → K → K → List K)
    (ai bi ki ci aj bj kj cj a0 b0 c0 d0 e0 f0 g0 : K) : List (K × K × K) :=
  if chop (ai * bj - aj * bi) = 0 then []
  else qll_solve chop quadratic_roots a0 b0 c0 d0 e0 f0 g0
    ((bi * kj - bj * ki) / chop (ai * bj - aj * bi))
    ((bi * cj - bj * ci) / chop (ai * bj - aj * bi))
    (-(ai * kj - aj * ki) / chop (ai * bj - aj * bi))
    (-(ai * cj - aj * ci) / chop (ai * bj - aj * bi))

/-- The `(x, y, t)` of the Solutions that one call of `qll_solver` appends. -/
def xyt (chop : K → K) (quadratic_roots : K → K → K → List K)
    (lins : List (Eq K)) (xi yi ti : Nat) (quad : Eq K) : List (K × K × K) :=
  (appended chop quadratic_roots lins xi yi ti quad 0).map Solution.xyt

/-- The first part of `QLLSolver::solve`: the two linear equations `lins` and the
quadratic equation `quads[0]` built from the three sites; `none` when an assertion
fails. -/
def equations (s1 : Site K) (k1 : K) (s2 : Site K) (k2 : K) (s3 : Site K) (k3 : K) :
    Option (List (Eq K) × Eq K) :=
  let sites := [(s1, k1), (s2, k2), (s3, k3)]
  let lins := (sites.filter fun sk => sk.1.is_linear).map fun sk => sk.1.eqp_qd sk.2
  let quads := (sites.filter fun sk => !sk.1.is_linear).map fun sk => sk.1.eqp_qd sk.2
  match quads with
  | [] => none -- assert( !quads.empty() )
  | quad0 :: rest =>
    if lins.length = 1 ∨ lins.length = 0 then
      if ¬ (quads.length = 3 ∨ quads.length = 2) then none
      else
        -- quads[i] = quads[i] - quads[0]; lins.push_back(quads[i]);
        let lins := lins ++ rest.map fun q => q.sub quad0
        if lins.length = 2 then some (lins, quad0) else none
    else if lins.length = 2 then some (lins, quad0)
    else none -- assert( lins.size() == 2 )

/-- The method `QLLSolver::solve(s1, k1, s2, k2, s3, k3, slns)`. -/
def solve (chop : K → K) (quadratic_roots : K → K → K → List K)
    (s1 : Site K) (k1 : K) (s2 : Site K) (k2 : K) (s3 : Site K) (k3 : K)
    (slns : List (Solution K)) : Option (Int × List (Solution K)) :=
  match equations s1 k1 s2 k2 s3 k3 with
  | none => none
  | some (lins, quad0) =>
    match qll_solver chop quadratic_roots lins 0 1 2 quad0 k3 slns with
    | none => none
    | some (_, slns) =>
      match qll_solver chop quadratic_roots lins 2 0 1 quad0 k3 slns with
      | none => none
      | some (_, slns) =>
        match qll_solver chop quadratic_roots lins 1 2 0 quad0 k3 slns with
        | none => none
        | some (_, slns) => some (slns.length, slns) -- return slns.size();

/-- The result of `QLLSolver::solve` with each solution reduced to its `(x, y, t)`. -/
def solve_xyt (chop : K → K) (quadratic_roots : K → K → K → List K)
    (s1 : Site K) (k1 : K) (s2 : Site K) (k2 : K) (s3 : Site K) (k3 : K)
    (slns : List (Solution K)) : Option (Int × List (K × K × K)) :=
  (solve chop quadratic_roots s1 k1 s2 k2 s3 k3 slns).map
    fun r => (r.1, r.2.map Solution.xyt)

end QLLSolver

/-! ## Further members of the sites (`site.hpp`) -/

namespace Site

/-- The method `Site::eqp()` without argument: the stored equation. -/
def eqp0 (s : Site K) : Eq K := s.eq

/-- The call `eqp(kk)` with the site after the call: the body copies `eq` into the local
`eq2` and multiplies the copy's `k`; it assigns to no member. -/
def eqp_call (s : Site K) (kk : K) : Eq K × Site K :=
  let eq2 := s.eq
  let eq2 := { eq2 with k := eq2.k * kk }
  (eq2, s)

/-- The call `eqp_qd(kk)` with the site after the call (the method is `const`). -/
def eqp_qd_call (s : Site K) (kk : K) : Eq K × Site K :=
  let eq2 := s.eq
  let eq2 := { eq2 with k := eq2.k * kk }
  (eq2, s)

/-- The method `Site::is_quadratic`, documented "true for PointSite and ArcSite": it
returns `isPoint()`. -/
def is_quadratic (s : Site K) : Bool := s.isPoint

/-- The method `Site::start`: overridden by `LineSite` and `ArcSite`, `assert(0)` in
the base class. -/
def start : Site K → Option (Point K)
  | line _ _ st _ => some st
  | arc _ _ st _ _ _ _ _ => some st
  | point _ _ _ => none

/-- The method `Site::end` (`end` is a keyword here): overridden by `LineSite` and
`ArcSite`, `assert(0)` in the base class. -/
def end_ : Site K → Option (Point K)
  | line _ _ _ en => some en
  | arc _ _ _ en _ _ _ _ => some en
  | point _ _ _ => none

/-- The method `Site::x`: overridden by `PointSite` (position) and `ArcSite` (center),
`assert(0)` in the base class. -/
def x : Site K → Option K
  | point _ _ p => some p.x
  | arc _ _ _ _ cen _ _ _ => some cen.x
  | line _ _ _ _ => none

/-- The method `Site::y`: overridden by `PointSite` (position) and `ArcSite` (center),
`assert(0)` in the base class. -/
def y : Site K → Option K
  | point _ _ p => some p.y
  | arc _ _ _ _ cen _ _ _ => some cen.y
  | line _ _ _ _ => none

/-- The method `Site::r`: 0 for a `PointSite`, the radius for an `ArcSite`, `assert(0)`
in the base class. -/
def r : Site K → Option K
  | point _ _ _ => some 0
  | arc _ _ _ _ _ _ rad _ => some rad
  | line _ _ _ _ => none

/-- The method `Site::a`: overridden by `LineSite` only (`eq.a`), `assert(0)` in the base
class. -/
def a : Site K → Option K
  | line e _ _ _ => some e.a
  | _ => none

/-- The method `Site::b`: overridden by `LineSite` only (`eq.b`), `assert(0)` in the base
class. -/
def b : Site K → Option K
  | line e _ _ _ => some e.b
  | _ => none

/-- The method `Site::c`: overridden by `LineSite` only (`eq.c`), `assert(0)` in the base
class. -/
def c : Site K → Option K
  | line e _ _ _ => some e.c
  | _ => none

end Site

/-! ## Methods of `LineSite` on its members `_start`, `_end` -/

/-- The method `LineSite::in_region_t_raw(p)`. -/
def LineSite.in_region_t_raw (_start _end p : Point K) : K :=
  let s_p := p.sub _start
  let s_e := _end.sub _start
  s_p.dot s_e / s_e.dot s_e

/-- The method `LineSite::in_region_t(p)`: the projection parameter, set to 0 or 1 when
within `eps = 1e-7` of it. The literal `1e-7` is the double nearest to `10⁻⁷`,
`944473296573929 / 2^73`, which is below `10⁻⁷`. The projection parameter `t` is the
exact quotient here. -/
def LineSite.in_region_t (_start _end p : Point K) : K :=
  let s_p := p.sub _start
  let s_e := _end.sub _start
  let t := s_p.dot s_e / s_e.dot s_e
  let eps : K := 944473296573929 / 2 ^ 73 -- double eps = 1e-7;
  if |t| < eps then 0
  else if |t - 1| < eps then 1
  else t

/-- The method `LineSite::in_region(p)`. -/
def LineSite.in_region (_start _end p : Point K) : Bool :=
  let t := LineSite.in_region_t _start _end p
  decide (t ≥ 0) && decide (t ≤ 1)

/-- The method `LineSite::apex_point(p)`. -/
def LineSite.apex_point (_start _end p : Point K) : Point K :=
  let s_p := p.sub _start
  let s_e := _end.sub _start
  let t := s_p.dot s_e / s_e.dot s_e
  if t < 0 then _start
  else if t > 1 then _end
  else _start.add (Point.smul t (_end.sub _start))

/-! ## Point equality -/

/-- Modelled from the spec: `Point::operator==` of `common/point.hpp`, which is not
among the sources (spec §4.1: "a point exactly at the arc center"): the two points
have the same coordinates. -/
def Point.equals (p q : Point K) : Bool := decide (p.x = q.x) && decide (p.y = q.y)

/-! ## Methods of `ArcSite` on its members

`numeric::diangle` (`common/numeric.hpp`) and `Point::normalize` (`common/point.hpp`)
are not among the sources; the methods take them as arguments. -/

/-- The method `ArcSite::in_region_t_raw(pt)`. The local `proj`, the projection onto the
circle, is computed and never read; it is left out, and with it the member `_radius`. -/
def ArcSite.in_region_t_raw (diangle : K → K → K)
    (_start _end _center : Point K) (_dir : Bool) (pt : Point K) : K :=
  let cen_start := _start.sub _center
  let cen_end := _end.sub _center
  let cen_pt := pt.sub _center
  let (diangle_min, diangle_max) :=
    if !_dir then (diangle cen_start.x cen_start.y, diangle cen_end.x cen_end.y)
    else (diangle cen_end.x cen_end.y, diangle cen_start.x cen_start.y)
  let diangle_pt := diangle cen_pt.x cen_pt.y
  (diangle_pt - diangle_min) / (diangle_max - diangle_min)

/-- The method `ArcSite::in_region_t(pt)`: the raw parameter, set to 0 or 1 when within
`eps = 1e-7` of it, the double `944473296573929 / 2^73`. -/
def ArcSite.in_region_t (diangle : K → K → K)
    (_start _end _center : Point K) (_dir : Bool) (pt : Point K) : K :=
  let t := ArcSite.in_region_t_raw diangle _start _end _center _dir pt
  let eps : K := 944473296573929 / 2 ^ 73 -- double eps = 1e-7;
  if |t| < eps then 0
  else if |t - 1| < eps then 1
  else t

/-- The method `ArcSite::in_region(p)`. -/
def ArcSite.in_region (diangle : K → K → K)
    (_start _end _center : Point K) (_dir : Bool) (p : Point K) : Bool :=
  if p.equals _center then true
  else
    let t := ArcSite.in_region_t diangle _start _end _center _dir p
    decide (t ≥ 0) && decide (t ≤ 1)

/-- The method `ArcSite::projection_point(p)`. -/
def ArcSite.projection_point (normalize : Point K → Point K)
    (_start _center : Point K) (_radius : K) (p : Point K) : Point K :=
  if p.equals _center then _start
  else
    let dir := p.sub _center
    let dir := normalize dir
    _center.add (Point.smul _radius dir) -- this point should lie on the arc

/-- The method `ArcSite::closer_endpoint(p)`. -/
def ArcSite.closer_endpoint (sqrt : K → K) (_start _end p : Point K) : Point K :=
  let d_start := (_start.sub p).norm sqrt
  let d_end := (_end.sub p).norm sqrt
  if d_start < d_end then _start else _end

/-- The method `ArcSite::apex_point(p)`. -/
def ArcSite.apex_point (sqrt : K → K) (diangle : K → K → K)
    (normalize : Point K → Point K)
    (_start _end _center : Point K) (_dir : Bool) (_radius : K) (p : Point K) : Point K :=
  if ArcSite.in_region diangle _start _end _center _dir p then
    ArcSite.projection_point normalize _start _center _radius p
  else ArcSite.closer_endpoint sqrt _start _end p

/-! ## The virtual methods `in_region` and `apex_point` -/

/-- The virtual method `Site::in_region(p)`: true for a `PointSite`, the method of the
subclass for a `LineSite` and an `ArcSite`. -/
def Site.in_region (diangle : K → K → K) (s : Site K) (p : Point K) : Bool :=
  match s with
  | Site.point _ _ _ => true
  | Site.line _ _ st en => LineSite.in_region st en p
  | Site.arc _ _ st en cen dir _ _ => ArcSite.in_region diangle st en cen dir p

/-- The virtual method `Site::apex_point(p)`: the position for a `PointSite`, the method
of the subclass for a `LineSite` and an `ArcSite`. -/
def Site.apex_point (sqrt : K → K) (diangle : K → K → K) (normalize : Point K → Point K)
    (s : Site K) (p : Point K) : Point K :=
  match s with
  | Site.point _ _ _p => _p
  | Site.line _ _ st en => LineSite.apex_point st en p
  | Site.arc _ _ st en cen dir rad _ =>
    ArcSite.apex_point sqrt diangle normalize st en cen dir rad p

/-! ## Offset elements (`site.hpp`, `class Ofs`) -/

/-- An offset element (`class Ofs` with its subclasses `LineOfs`, `ArcOfs`): the
members of the subclass. -/
inductive Ofs (K : Type) where
  | line (_start _end : Point K)
  | arc (_start _end c : Point K) (r : K)

/-- The constructor `LineOfs::LineOfs(p1, p2)`. -/
def LineOfs (p1 p2 : Point K) : Ofs K := Ofs.line p1 p2

/-- The constructor `ArcOfs::ArcOfs(p1, p2, cen, rad)`. -/
def ArcOfs (p1 p2 cen : Point K) (rad : K) : Ofs K := Ofs.arc p1 p2 cen rad

namespace Ofs

/-- The method `Ofs::radius`: -1 for a `LineOfs`. -/
def radius : Ofs K → K
  | line _ _ => -1
  | arc _ _ _ r => r

/-- The method `Ofs::center`: `Point(0,0)` for a `LineOfs`. -/
def center : Ofs K → Point K
  | line _ _ => ⟨0, 0⟩
  | arc _ _ c _ => c

/-- The method `Ofs::start`. -/
def start : Ofs K → Point K
  | line st _ => st
  | arc st _ _ _ => st

/-- The method `Ofs::end` (`end` is a keyword here). -/
def end_ : Ofs K → Point K
  | line _ en => en
  | arc _ en _ _ => en

end Ofs

/-- The virtual method `Site::offset(p1, p2)`, as overridden by `PointSite`, `LineSite`
and `ArcSite`. -/
def Site.offset (sqrt : K → K) (s : Site K) (p1 p2 : Point K) : Ofs K :=
  match s with
  | Site.point _ _ _p =>
    let rad := (p1.sub _p).norm sqrt
    ArcOfs p1 p2 _p rad
  | Site.line _ _ _ _ => LineOfs p1 p2
  | Site.arc _ _ _ _ _center _ _ _ => ArcOfs p1 p2 _center (-1) -- FIXME: radius

/-- The call `offset(p1, p2)` with the site after the call: none of the three bodies
assigns to a member. -/
def Site.offset_call (sqrt : K → K) (s : Site K) (p1 p2 : Point K) : Ofs K × Site K :=
  (s.offset sqrt p1 p2, s)

/-! ## The quadratic of one shuffle of `QLLSolver` -/

/-- The coefficients `a`, `b`, `c` that `QLLSolver::qll_solve` passes to
`quadratic_roots`, which solves `a*w^2 + b*w + c = 0`. -/
def QLLSolver.qll_coeffs (chop : K → K) (a0 b0 c0 d0 e0 f0 g0 a1 b1 a2 b2 : K) :
    K × K × K :=
  let a := chop (a0 * (a1 * a1) + c0 * (a2 * a2) + e0)
  let b := chop (2 * a0 * a1 * b1 + 2 * a2 * b2 * c0 + a1 * b0 + a2 * d0 + f0)
  let c := a0 * (b1 * b1) + c0 * (b2 * b2) + b0 * b1 + b2 * d0 + g0
  (a, b, c)

/-- The quadratic of one call `qll_solver(lins, xi, yi, ti, quad, ...)`: the coefficients
`(a, b, c)` that its call of `qll_solve` passes to `quadratic_roots`; `none` when the
call stops before, on an assertion or on `d == 0`. -/
def QLLSolver.poly (chop : K → K) (lins : List (Eq K)) (xi yi ti : Nat) (quad : Eq K) :
    Option (K × K × K) :=
  match lins with
  | [l0, l1] =>
    match l0.index xi, l0.index yi, l0.index ti, l1.index xi, l1.index yi, l1.index ti with
    | some ai, some bi, some ki, some aj, some bj, some kj =>
      let ci := l0.c
      let cj := l1.c
      let d := chop (ai * bj - aj * bi)
      if d = 0 then none
      else
        let a0 := (bi * kj - bj * ki) / d
        let a1 := -(ai * kj - aj * ki) / d
        let b0 := (bi * cj - bj * ci) / d
        let b1 := -(ai * cj - aj * ci) / d
        some (QLLSolver.qll_coeffs chop
          (QLLSolver.aargs quad xi).1 (QLLSolver.aargs quad xi).2
          (QLLSolver.aargs quad yi).1 (QLLSolver.aargs quad yi).2
          (QLLSolver.aargs quad ti).1 (QLLSolver.aargs quad ti).2 quad.c a0 b0 a1 b1)
    | _, _, _, _, _, _ => none
  | _ => none

/-! ## Replay in binary64

The definitions above compute in an exact field. The source computes in `double`, the
binary64 format of IEEE 754: 53 significand bits, exponents from -1022 to 1023,
subnormal numbers below `2^-1022`, every operation rounded to the nearest value, ties
to the even significand. The definitions of this section evaluate the reordering and
the determinant of `PPPSolver::solve` and the constructor of `LineSite` in that
arithmetic. A finite double is the rational it denotes (the sign of zero is left out).
The result `none` stands for a value that is not finite (an infinity or a NaN) as well
as for a failed `assert`; the theorems on these definitions state the finite
intermediate values, so that each `none` is seen to be the failed assertion. -/

namespace binary64

/-- One step of the bisection of `bitlen`: the number of binary digits of `n` lies in
`(lo, hi]`. -/
def bitlen_step : Nat → Nat → Nat → Nat → Nat
  | 0, _, hi, _ => hi
  | fuel + 1, lo, hi, n =>
    let mid := (lo + hi) / 2
    if n < 2 ^ mid then bitlen_step fuel lo mid n else bitlen_step fuel mid hi n

/-- The number of binary digits of `n`, the least `L` with `n < 2^L`, for `n < 2^8192`. -/
def bitlen (n : Nat) : Nat :=
  if n = 0 then 0 else bitlen_step 13 0 8192 n

/-- The exponent of a rational `q ≠ 0`: the integer `e` with `2^e ≤ |q| < 2^(e+1)`. -/
def exponent (q : ℚ) : Int :=
  let k : Int := (bitlen q.num.natAbs : Int) - (bitlen q.den : Int)
  if (2 : ℚ) ^ k ≤ |q| then k else k - 1

/-- Rounding of a real result to binary64: to the nearest multiple of `2^(e-52)`, with
`e` the exponent of `q` and at least -1022, ties to the even multiple; `none` when the
rounded value is beyond the largest double (the result is an infinity). -/
def round (q : ℚ) : Option ℚ :=
  if q = 0 then some 0
  else
    let e : Int := max (exponent q) (-1022)
    let ulp : ℚ := (2 : ℚ) ^ (e - 52)
    let s : ℚ := q / ulp
    let f : Int := Rat.floor s
    let r : ℚ := s - f
    let n : Int :=
      if r < 1 / 2 then f
      else if 1 / 2 < r then f + 1
      else if f % 2 = 0 then f else f + 1
    let v : ℚ := n * ulp
    if |v| < (2 : ℚ) ^ (1024 : Int) then some v else none

/-- The sum `x + y` of two doubles. -/
def add (x y : ℚ) : Option ℚ := round (x + y)

/-- The difference `x - y` of two doubles. -/
def sub (x y : ℚ) : Option ℚ := round (x - y)

/-- The product `x * y` of two doubles. -/
def mul (x y : ℚ) : Option ℚ := round (x * y)

/-- The quotient `x / y` of two doubles; a division by zero gives an infinity or a
NaN. -/
def div (x y : ℚ) : Option ℚ := if y = 0 then none else round (x / y)

/-- Newton's iteration for the integer square root, from a start `x` that is not below
it: the iteration stops when it no longer decreases. -/
def isqrt_step : Nat → Nat → Nat → Nat
  | 0, _, x => x
  | fuel + 1, n, x =>
    let y := (x + n / x) / 2
    if y < x then isqrt_step fuel n y else x

/-- The integer square root of `n`: the `s` with `s*s ≤ n < (s+1)*(s+1)`. -/
def isqrt (n : Nat) : Nat :=
  if n = 0 then 0 else isqrt_step 64 n (2 ^ ((bitlen n + 1) / 2))

/-- The square root `sqrt(x)` of a double, correctly rounded as IEEE 754 requires:
`x = n / (den * 2^64)^2` with `n = num * den * 4^64`; the root `s` of `n` and a last
digit that says whether the root is exact are rounded in place of the real root. The
root of a negative number is a NaN; so is the result here if the iteration has not
reached the root. -/
def sqrt (x : ℚ) : Option ℚ :=
  if x < 0 then none
  else
    let n : Nat := x.num.natAbs * x.den * 4 ^ 64
    let s : Nat := isqrt n
    if ¬ (s * s ≤ n ∧ n < (s + 1) * (s + 1)) then none
    else
      let sticky : Nat := if s * s = n then 0 else 1
      round (((2 * s + sticky : Nat) : ℚ) / ((x.den : ℚ) * 2 ^ 65))

/-- Modelled from the spec: `Point::operator-` of `common/point.hpp` in binary64, the
coordinate-wise difference (see `ovd.Point.sub`). -/
def Point.sub (p q : Point ℚ) : Option (Point ℚ) := do
  let x ← binary64.sub p.x q.x
  let y ← binary64.sub p.y q.y
  pure ⟨x, y⟩

/-- Modelled from the spec: `Point::norm` of `common/point.hpp` in binary64,
`sqrt(x*x + y*y)` (see `ovd.Point.norm`). -/
def Point.norm (p : Point ℚ) : Option ℚ := do
  let xx ← binary64.mul p.x p.x
  let yy ← binary64.mul p.y p.y
  let s ← binary64.add xx yy
  binary64.sqrt s

/-- The length `(p - q).norm()` in binary64. -/
def Point.dist (p q : Point ℚ) : Option ℚ := do
  let d ← Point.sub p q
  Point.norm d

/-- Modelled from the spec: the value that `Point::is_right` of `common/point.hpp`
compares with zero, in binary64 (see `ovd.Point.is_right`):
`(p2.y - p1.y)*(p.x - p1.x) - (p2.x - p1.x)*(p.y - p1.y)`. -/
def Point.cross (p p1 p2 : Point ℚ) : Option ℚ := do
  let a ← binary64.sub p2.y p1.y
  let b ← binary64.sub p.x p1.x
  let c ← binary64.sub p2.x p1.x
  let d ← binary64.sub p.y p1.y
  let ab ← binary64.mul a b
  let cd ← binary64.mul c d
  binary64.sub ab cd

/-- Modelled from the spec: `Point::is_right` of `common/point.hpp` in binary64 (see
`ovd.Point.is_right`). -/
def Point.is_right (p p1 p2 : Point ℚ) : Option Bool := do
  let t ← Point.cross p p1 p2
  pure (decide (0 < t))

namespace PPPSolver

/-- The index `longest_side` of `PPPSolver::solve` in binary64 (see
`ovd.PPPSolver.longest_side`). -/
def longest_side (pi pj pk : Point ℚ) : Option Nat := do
  let l0 ← Point.dist pi pj
  let l1 ← Point.dist pj pk
  let l2 ← Point.dist pk pi
  let longest_side : Nat := if l1 > l0 then 1 else 0
  pure (if l2 > (if longest_side = 1 then l1 else l0) then 2 else longest_side)

/-- The reordering step of `PPPSolver::solve` in binary64 (see `ovd.PPPSolver.ordered`):
`none` when one of its assertions fails. -/
def ordered (pi pj pk : Point ℚ) : Option (Point ℚ × Point ℚ × Point ℚ) := do
  -- if ( pi.is_right(pj,pk) ) std::swap(pi,pj);
  let r ← Point.is_right pi pj pk
  let (pi, pj) := if r then (pj, pi) else (pi, pj)
  -- assert( !pi.is_right(pj,pk) );
  let r ← Point.is_right pi pj pk
  if r then none else
  let longest_side ← longest_side pi pj pk
  let (pi, pj, pk) :=
    if longest_side = 1 then (pj, pk, pi)      -- swap(pi,pk); swap(pi,pj)
    else if longest_side = 2 then (pk, pi, pj) -- swap(pi,pj); swap(pi,pk)
    else (pi, pj, pk)
  let r ← Point.is_right pi pj pk
  let l0 ← Point.dist pi pj
  let l1 ← Point.dist pj pk
  let l2 ← Point.dist pk pi
  if r then none
  else if ¬ (l0 ≥ l1) then none
  else if ¬ (l0 ≥ l2) then none
  else pure (pi, pj, pk)

/-- The half-product `u*( sq(a)+sq(b) )/2.0` of the formulas for `J2` and `J3`. -/
def half_prod (u a b : ℚ) : Option ℚ := do
  let aa ← binary64.mul a a
  let bb ← binary64.mul b b
  let s ← binary64.add aa bb
  let p ← binary64.mul u s
  binary64.div p 2

/-- The numerator `J2` of `PPPSolver::solve` in binary64, for `Scalar = double`. -/
def J2 (spi spj spk : Point ℚ) : Option ℚ := do
  let iy ← binary64.sub spi.y spk.y
  let jx ← binary64.sub spj.x spk.x
  let jy ← binary64.sub spj.y spk.y
  let ix ← binary64.sub spi.x spk.x
  let l ← half_prod iy jx jy
  let r ← half_prod jy ix iy
  binary64.sub l r

/-- The numerator `J3` of `PPPSolver::solve` in binary64, for `Scalar = double`. -/
def J3 (spi spj spk : Point ℚ) : Option ℚ := do
  let ix ← binary64.sub spi.x spk.x
  let jx ← binary64.sub spj.x spk.x
  let jy ← binary64.sub spj.y spk.y
  let iy ← binary64.sub spi.y spk.y
  let l ← half_prod ix jx jy
  let r ← half_prod jx ix iy
  binary64.sub l r

/-- The denominator `J4` of `PPPSolver::solve` in binary64, for `Scalar = double`. -/
def J4 (spi spj spk : Point ℚ) : Option ℚ := do
  let ix ← binary64.sub spi.x spk.x
  let jy ← binary64.sub spj.y spk.y
  let jx ← binary64.sub spj.x spk.x
  let iy ← binary64.sub spi.y spk.y
  let l ← binary64.mul ix jy
  let r ← binary64.mul jx iy
  binary64.sub l r

/-- The method `PPPSolver::solve` in binary64, for `Scalar = double` (see
`ovd.PPPSolver.solve`): `none` when an assertion fails, in the reordering or on `J4`. -/
def solve (s1 : Site ℚ) (_k1 : ℚ) (s2 : Site ℚ) (_k2 : ℚ) (s3 : Site ℚ) (_k3 : ℚ)
    (slns : List (Solution ℚ)) : Option (Int × List (Solution ℚ)) :=
  -- assert( s1->isPoint() && s2->isPoint() && s3->isPoint() );
  if ¬ (s1.isPoint && s2.isPoint && s3.isPoint) then none else
  match s1.position, s2.position, s3.position with
  | some pi, some pj, some pk => do
    let (pi, pj, pk) ← ordered pi pj pk
    let J2 ← J2 pi pj pk
    let J3 ← J3 pi pj pk
    let J4 ← J4 pi pj pk
    -- assert( J4 != 0.0 ); if (J4==0.0) exit(-1);
    if J4 = 0 then none else
    let nx ← binary64.div (-J2) J4
    let x ← binary64.add nx pk.x
    let ny ← binary64.div J3 J4
    let y ← binary64.add ny pk.y
    let dist ← Point.dist ⟨x, y⟩ pi
    pure (1, slns ++ [⟨⟨x, y⟩, dist, 1⟩])
  | _, _, _ => none

end PPPSolver

/-- The values `eq.a`, `eq.b`, `eq.c` of the constructor
`LineSite::LineSite(st, en, koff, f)` in binary64 before they are normalized. -/
def LineSite.coeffs (st en : Point ℚ) : Option (ℚ × ℚ × ℚ) := do
  let a ← binary64.sub en.y st.y
  let b ← binary64.sub st.x en.x
  let c1 ← binary64.mul en.x st.y
  let c2 ← binary64.mul st.x en.y
  let c ← binary64.sub c1 c2
  pure (a, b, c)

/-- The sum `a*a + b*b` in binary64. -/
def sq_sum (a b : ℚ) : Option ℚ := do
  let aa ← binary64.mul a a
  let bb ← binary64.mul b b
  binary64.add aa bb

/-- The values `eq.a`, `eq.b`, `eq.c` at the end of the constructor
`LineSite::LineSite(st, en, koff, f)` in binary64, after the division by
`d = sqrt( eq.a*eq.a + eq.b*eq.b )`, and the value `fabs( eq.a*eq.a + eq.b*eq.b -1.0 )`
of its closing assertion. -/
def LineSite.normalized (st en : Point ℚ) : Option (ℚ × ℚ × ℚ × ℚ) := do
  let (a, b, c) ← LineSite.coeffs st en
  let s ← sq_sum a b
  let d ← binary64.sqrt s
  let a ← binary64.div a d
  let b ← binary64.div b d
  let c ← binary64.div c d
  let s ← sq_sum a b
  let t ← binary64.sub s 1
  pure (a, b, c, |t|)

/-- The constructor `LineSite::LineSite(st, en, koff, f)` in binary64 (see
`ovd.LineSite`); `none` when the closing assertion
`fabs(eq.a*eq.a + eq.b*eq.b - 1.0) < 1e-5` fails. The literal `1e-5` is the double
`5902958103587057 / 2^69`. -/
def LineSite (st en : Point ℚ) (koff : ℚ) (f : Nat) : Option (Site ℚ) := do
  let (a, b, c, t) ← LineSite.normalized st en
  if t < 5902958103587057 / 2 ^ 69 then
    pure (Site.line { q := false, a := a, b := b, k := koff, c := c } f st en)
  else none

end binary64

/-! ## Theorems -/


/-- C10: for a `PointSite` at `(px, py)` and every multiplier `kk`, the equation
`eqp(kk)` is `(q = 1, a = -2 px, b = -2 py, k = 0, c = px² + py²)`, and
`q (x² + y² - t²) + a x + b y + c + k t = 0` holds exactly when
`(x - px)² + (y - py)² = t²`. -/
theorem C10_point_site_equation (px py kk x y t : K) (f : Nat) :
    (PointSite ⟨px, py⟩ f).eqp kk
        = { q := true, a := -2 * px, b := -2 * py, k := 0, c := px * px + py * py } ∧
      (((PointSite ⟨px, py⟩ f).eqp kk).lhs x y t = 0 ↔
        (x - px) ^ 2 + (y - py) ^ 2 = t ^ 2) := by
  constructor
  · simp [PointSite, Site.eqp, Site.eq]
  · simp only [PointSite, Site.eqp, Site.eq, Eq.lhs, if_true, zero_mul]
    constructor
    · intro h
      linear_combination h
    · intro h
      linear_combination h

/-! ### The point-point-point solver -/

/-- After a swap on `is_right` the first point is not to the right any more. -/
theorem Point.is_right_swap (p a b : Point K) (h : p.is_right a b = true) :
    a.is_right p b = false := by
  simp only [Point.is_right, decide_eq_true_eq, decide_eq_false_iff_not, not_lt] at *
  nlinarith

/-- The predicate `is_right` is invariant under rotating its three points. -/
theorem Point.is_right_rot (p a b : Point K) : a.is_right b p = p.is_right a b := by
  simp only [Point.is_right]
  congr 1
  apply propext
  constructor <;> intro h <;> nlinarith

/-- The index `longest_side` points at a side that is at least as long as the two
others. -/
theorem PPPSolver.longest_side_cases (sqrt : K → K) (a b c : Point K) :
    (PPPSolver.longest_side sqrt a b c = 0 ∧
        (a.sub b).norm sqrt ≥ (b.sub c).norm sqrt ∧
        (a.sub b).norm sqrt ≥ (c.sub a).norm sqrt) ∨
    (PPPSolver.longest_side sqrt a b c = 1 ∧
        (b.sub c).norm sqrt ≥ (c.sub a).norm sqrt ∧
        (b.sub c).norm sqrt ≥ (a.sub b).norm sqrt) ∨
    (PPPSolver.longest_side sqrt a b c = 2 ∧
        (c.sub a).norm sqrt ≥ (a.sub b).norm sqrt ∧
        (c.sub a).norm sqrt ≥ (b.sub c).norm sqrt) := by
  unfold PPPSolver.longest_side
  simp only []
  split_ifs <;> simp_all <;> (try constructor) <;> linarith

/-- The rotation step of the ordering passes its three assertions. -/
theorem PPPSolver.rotate_ok (sqrt : K → K) (a b c : Point K)
    (h : a.is_right b c = false) :
    ∃ x y z, (if a.is_right b c then none else
      let longest_side := PPPSolver.longest_side sqrt a b c
      let (pi, pj, pk) :=
        if longest_side = 1 then (b, c, a)
        else if longest_side = 2 then (c, a, b)
        else (a, b, c)
      if pi.is_right pj pk then none
      else if ¬ ((pi.sub pj).norm sqrt ≥ (pj.sub pk).norm sqrt) then none
      else if ¬ ((pi.sub pj).norm sqrt ≥ (pk.sub pi).norm sqrt) then none
      else some (pi, pj, pk)) = some (x, y, z) ∧
      ((x, y, z) = (a, b, c) ∨ (x, y, z) = (b, c, a) ∨ (x, y, z) = (c, a, b)) := by
  rcases PPPSolver.longest_side_cases sqrt a b c with
    ⟨h0, h1, h2⟩ | ⟨h0, h1, h2⟩ | ⟨h0, h1, h2⟩
  · refine ⟨a, b, c, ?_, Or.inl rfl⟩
    simp [h, h0, h1, h2]
  · refine ⟨b, c, a, ?_, Or.inr (Or.inl rfl)⟩
    have h' : b.is_right c a = false := by rw [Point.is_right_rot]; exact h
    simp [h, h0, h1, h2, h']
  · refine ⟨c, a, b, ?_, Or.inr (Or.inr rfl)⟩
    have h' : c.is_right a b = false := by rw [← Point.is_right_rot]; exact h
    simp [h, h0, h1, h2, h']

/-- The ordering never fails, and it returns a rearrangement of its three points. -/
theorem PPPSolver.ordered_perm (sqrt : K → K) (p1 p2 p3 : Point K) :
    ∃ a b c, PPPSolver.ordered sqrt p1 p2 p3 = some (a, b, c) ∧
      ((a, b, c) = (p1, p2, p3) ∨ (a, b, c) = (p2, p3, p1) ∨ (a, b, c) = (p3, p1, p2) ∨
       (a, b, c) = (p2, p1, p3) ∨ (a, b, c) = (p1, p3, p2) ∨ (a, b, c) = (p3, p2, p1)) := by
  unfold PPPSolver.ordered
  by_cases h : p1.is_right p2 p3 = true
  · have h2 := Point.is_right_swap _ _ _ h
    obtain ⟨x, y, z, e, hp⟩ := PPPSolver.rotate_ok sqrt p2 p1 p3 h2
    refine ⟨x, y, z, ?_, ?_⟩
    · simp only [h, if_true]
      exact e
    · rcases hp with hp | hp | hp <;> simp [hp]
  · have h2 : p1.is_right p2 p3 = false := by simpa using h
    obtain ⟨x, y, z, e, hp⟩ := PPPSolver.rotate_ok sqrt p1 p2 p3 h2
    refine ⟨x, y, z, ?_, ?_⟩
    · simp only [h2]
      exact e
    · rcases hp with hp | hp | hp <;> simp [hp]

/-- The denominator `J4` of a rearrangement vanishes exactly for collinear points. -/
theorem PPPSolver.J4_eq_zero_iff (p1 p2 p3 a b c : Point K)
    (hp : (a, b, c) = (p1, p2, p3) ∨ (a, b, c) = (p2, p3, p1) ∨ (a, b, c) = (p3, p1, p2) ∨
       (a, b, c) = (p2, p1, p3) ∨ (a, b, c) = (p1, p3, p2) ∨ (a, b, c) = (p3, p2, p1)) :
    PPPSolver.J4 a b c = 0 ↔ Point.collinear p1 p2 p3 := by
  simp only [Prod.mk.injEq] at hp
  rcases hp with hp | hp | hp | hp | hp | hp
  all_goals obtain ⟨rfl, rfl, rfl⟩ := hp
  all_goals simp only [PPPSolver.J4, Point.collinear]
  all_goals constructor
  all_goals intro h
  all_goals first | linear_combination h | linear_combination (-1 : K) * h

/-- A site that has a position is a point site. -/
theorem Site.isPoint_of_position {F : Type} (s : Site F) (p : Point F)
    (h : s.position = some p) :
    s.isPoint = true := by
  cases s <;> simp_all [Site.position, Site.isPoint]

/-- What `PPPSolver::solve` returns for three point sites, from the ordered points. -/
theorem PPPSolver.solve_of_ordered (sqrt : K → K) (s1 s2 s3 : Site K)
    (k1 k2 k3 : K) (slns : List (Solution K)) (p1 p2 p3 a b c : Point K)
    (h1 : s1.position = some p1) (h2 : s2.position = some p2)
    (h3 : s3.position = some p3)
    (ho : PPPSolver.ordered sqrt p1 p2 p3 = some (a, b, c)) :
    PPPSolver.solve sqrt s1 k1 s2 k2 s3 k3 slns =
      if PPPSolver.J4 a b c = 0 then none
      else some (1, slns ++ [⟨⟨-PPPSolver.J2 a b c / PPPSolver.J4 a b c + c.x,
        PPPSolver.J3 a b c / PPPSolver.J4 a b c + c.y⟩,
        (Point.sub ⟨-PPPSolver.J2 a b c / PPPSolver.J4 a b c + c.x,
          PPPSolver.J3 a b c / PPPSolver.J4 a b c + c.y⟩ a).norm sqrt, 1⟩]) := by
  simp only [PPPSolver.solve, Site.isPoint_of_position _ _ h1,
    Site.isPoint_of_position _ _ h2, Site.isPoint_of_position _ _ h3, h1, h2, h3, ho]
  simp

/-- The point of the `J` formulas is at the same squared distance from the three
points. -/
theorem PPPSolver.center_equidistant (a b c : Point K) (h : PPPSolver.J4 a b c ≠ 0) :
    let x := -PPPSolver.J2 a b c / PPPSolver.J4 a b c + c.x
    let y := PPPSolver.J3 a b c / PPPSolver.J4 a b c + c.y
    (x - a.x) * (x - a.x) + (y - a.y) * (y - a.y)
        = (x - c.x) * (x - c.x) + (y - c.y) * (y - c.y) ∧
      (x - b.x) * (x - b.x) + (y - b.y) * (y - b.y)
        = (x - c.x) * (x - c.x) + (y - c.y) * (y - c.y) := by
  intro x y
  have hx : x - c.x = -PPPSolver.J2 a b c / PPPSolver.J4 a b c := by simp [x]
  have hy : y - c.y = PPPSolver.J3 a b c / PPPSolver.J4 a b c := by simp [y]
  have e1 : x - a.x = (x - c.x) - (a.x - c.x) := by ring
  have e2 : y - a.y = (y - c.y) - (a.y - c.y) := by ring
  have e3 : x - b.x = (x - c.x) - (b.x - c.x) := by ring
  have e4 : y - b.y = (y - c.y) - (b.y - c.y) := by ring
  rw [e1, e2, e3, e4, hx, hy]
  simp only [PPPSolver.J2, PPPSolver.J3, PPPSolver.J4, sq] at *
  constructor <;> field_simp <;> ring

/-- C1: for three point sites whose positions are not collinear, and every
`k1, k2, k3`, `PPPSolver::solve` appends exactly one `Solution` and returns 1; the
solution's position is at the same distance from each of the three input positions,
its `t` is that distance and is non-negative, and its `k` is `+1`. -/
theorem C1_ppp_circumcenter (s1 s2 s3 : Site ℝ) (k1 k2 k3 : ℝ)
    (slns : List (Solution ℝ)) (p1 p2 p3 : Point ℝ)
    (h1 : s1.position = some p1) (h2 : s2.position = some p2)
    (h3 : s3.position = some p3) (hnc : ¬ Point.collinear p1 p2 p3) :
    ∃ sol : Solution ℝ,
      PPPSolver.solve Real.sqrt s1 k1 s2 k2 s3 k3 slns = some (1, slns ++ [sol]) ∧
      sol.k3 = 1 ∧ 0 ≤ sol.t ∧
      sol.t = (sol.p.sub p1).norm Real.sqrt ∧
      sol.t = (sol.p.sub p2).norm Real.sqrt ∧
      sol.t = (sol.p.sub p3).norm Real.sqrt := by
  obtain ⟨a, b, c, ho, hp⟩ := PPPSolver.ordered_perm Real.sqrt p1 p2 p3
  have hJ : PPPSolver.J4 a b c ≠ 0 := fun h =>
    hnc ((PPPSolver.J4_eq_zero_iff p1 p2 p3 a b c hp).1 h)
  obtain ⟨ea, eb⟩ := PPPSolver.center_equidistant a b c hJ
  rw [PPPSolver.solve_of_ordered Real.sqrt s1 s2 s3 k1 k2 k3 slns p1 p2 p3 a b c h1 h2 h3 ho,
    if_neg hJ]
  refine ⟨_, rfl, rfl, Real.sqrt_nonneg _, ?_⟩
  simp only [Point.norm, Point.sub]
  simp only [Prod.mk.injEq] at hp
  rcases hp with hp | hp | hp | hp | hp | hp
  all_goals obtain ⟨rfl, rfl, rfl⟩ := hp
  all_goals simp only [ea, eb, and_self, true_and, and_true]

/-- The hypotheses of C1 hold at the sites `(0,0)`, `(1,0)`, `(0,1)`, where the solver
returns one solution, equidistant from the three. -/
theorem C1_ppp_circumcenter_witness :
    ¬ Point.collinear (⟨0, 0⟩ : Point ℝ) ⟨1, 0⟩ ⟨0, 1⟩ ∧
    ∃ sol : Solution ℝ,
      PPPSolver.solve Real.sqrt (PointSite ⟨0, 0⟩ 0) 1 (PointSite ⟨1, 0⟩ 0) 1
        (PointSite ⟨0, 1⟩ 0) 1 [] = some (1, [] ++ [sol]) ∧
      sol.k3 = 1 ∧ 0 ≤ sol.t ∧
      sol.t = (sol.p.sub ⟨0, 0⟩).norm Real.sqrt ∧
      sol.t = (sol.p.sub ⟨1, 0⟩).norm Real.sqrt ∧
      sol.t = (sol.p.sub ⟨0, 1⟩).norm Real.sqrt :=
  ⟨by simp [Point.collinear],
   C1_ppp_circumcenter (PointSite ⟨0, 0⟩ 0) (PointSite ⟨1, 0⟩ 0) (PointSite ⟨0, 1⟩ 0)
     1 1 1 [] ⟨0, 0⟩ ⟨1, 0⟩ ⟨0, 1⟩ rfl rfl rfl (by simp [Point.collinear])⟩

/-- C4, as amended: in exact arithmetic, for three point sites, `PPPSolver::solve` fails
(no result, nothing appended) if and only if the `J4` it computes from the ordered
points is 0; that `J4` is 0 exactly when the three positions are collinear; for every
other input the solver returns 1 with one solution appended. -/
theorem C4_ppp_fails_iff_collinear (sqrt : K → K) (s1 s2 s3 : Site K) (k1 k2 k3 : K)
    (slns : List (Solution K)) (p1 p2 p3 : Point K)
    (h1 : s1.position = some p1) (h2 : s2.position = some p2)
    (h3 : s3.position = some p3) :
    ∃ a b c, PPPSolver.ordered sqrt p1 p2 p3 = some (a, b, c) ∧
      (PPPSolver.solve sqrt s1 k1 s2 k2 s3 k3 slns = none ↔ PPPSolver.J4 a b c = 0) ∧
      (PPPSolver.J4 a b c = 0 ↔ Point.collinear p1 p2 p3) ∧
      (¬ Point.collinear p1 p2 p3 →
        ∃ sol, PPPSolver.solve sqrt s1 k1 s2 k2 s3 k3 slns = some (1, slns ++ [sol])) := by
  obtain ⟨a, b, c, ho, hp⟩ := PPPSolver.ordered_perm sqrt p1 p2 p3
  have hJ := PPPSolver.J4_eq_zero_iff p1 p2 p3 a b c hp
  have hs := PPPSolver.solve_of_ordered sqrt s1 s2 s3 k1 k2 k3 slns p1 p2 p3 a b c
    h1 h2 h3 ho
  refine ⟨a, b, c, ho, ?_, hJ, ?_⟩
  · rw [hs]
    by_cases h : PPPSolver.J4 a b c = 0 <;> simp [h]
  · intro hnc
    have h : PPPSolver.J4 a b c ≠ 0 := fun h => hnc (hJ.1 h)
    rw [hs, if_neg h]
    exact ⟨_, rfl⟩

/-! ### The line-line-line solver -/

/-- C8: in `LLLSolver::solve`, when `|detA| > 1e-6` and the Cramer's-rule value of `t`
is negative, no `Solution` is produced: the output sequence is left as it was on
entry and the return value is 0. -/
theorem C8_lll_negative_t (chop : K → K)
    (para_solve : Site K → K → Site K → K → Site K → K → List (Solution K) →
      Option (Int × List (Solution K)))
    (s1 s2 s3 : Site K) (k1 k2 k3 : K) (slns : List (Solution K))
    (h1 : s1.isLine = true) (h2 : s2.isLine = true) (h3 : s3.isLine = true)
    (hdet : |LLLSolver.detA chop (s1.eqp_qd k1) (s2.eqp_qd k2) (s3.eqp_qd k3)| > 1 / 10 ^ 6)
    (ht : LLLSolver.sol_t chop (s1.eqp_qd k1) (s2.eqp_qd k2) (s3.eqp_qd k3) < 0) :
    LLLSolver.solve chop para_solve s1 k1 s2 k2 s3 k3 slns = some (0, slns) := by
  have hdet' : |LLLSolver.detA chop (s1.eqp_qd k1) (s2.eqp_qd k2) (s3.eqp_qd k3)|
      > LLLSolver.det_eps := hdet
  simp only [LLLSolver.solve, h1, h2, h3, Bool.and_self, not_true_eq_false, if_false,
    hdet', if_true, ge_iff_le, not_le.mpr ht]

/-- The hypotheses of C8 hold for the lines `y = 0`, `y = 1`, `x = 0` with the
multipliers `-1, 1, -1`, where `detA = -2` and `t = -1/2`. -/
theorem C8_lll_negative_t_witness :
    |LLLSolver.detA (fun x : ℚ => x)
        ((Site.line ⟨false, 0, -1, 0, 1⟩ 0 ⟨0, 0⟩ ⟨1, 0⟩).eqp_qd (-1))
        ((Site.line ⟨false, 0, -1, 1, 1⟩ 0 ⟨0, 1⟩ ⟨1, 1⟩).eqp_qd 1)
        ((Site.line ⟨false, 1, 0, 0, 1⟩ 0 ⟨0, 0⟩ ⟨0, 1⟩).eqp_qd (-1))| > 1 / 10 ^ 6 ∧
    LLLSolver.solve (fun x : ℚ => x) (fun _ _ _ _ _ _ _ => none)
        (Site.line ⟨false, 0, -1, 0, 1⟩ 0 ⟨0, 0⟩ ⟨1, 0⟩) (-1)
        (Site.line ⟨false, 0, -1, 1, 1⟩ 0 ⟨0, 1⟩ ⟨1, 1⟩) 1
        (Site.line ⟨false, 1, 0, 0, 1⟩ 0 ⟨0, 0⟩ ⟨0, 1⟩) (-1) [] = some (0, []) :=
  ⟨by norm_num [LLLSolver.detA, determinant, Site.eqp_qd, Site.eq],
   C8_lll_negative_t _ _ _ _ _ _ _ _ _ rfl rfl rfl
     (by norm_num [LLLSolver.detA, determinant, Site.eqp_qd, Site.eq])
     (by norm_num [LLLSolver.sol_t, LLLSolver.detA, determinant, Site.eqp_qd, Site.eq])⟩

/-- Cramer's rule: when the chopped determinant is the determinant and is not zero,
`(sol_x, sol_y, sol_t)` solves each of the three equations. -/
theorem LLLSolver.cramer (chop : K → K) (e0 e1 e2 : Eq K)
    (hc : LLLSolver.detA chop e0 e1 e2
      = determinant e0.a e0.b e0.k e1.a e1.b e1.k e2.a e2.b e2.k)
    (hd : LLLSolver.detA chop e0 e1 e2 ≠ 0) :
    e0.a * LLLSolver.sol_x chop e0 e1 e2 + e0.b * LLLSolver.sol_y chop e0 e1 e2 + e0.c
        + e0.k * LLLSolver.sol_t chop e0 e1 e2 = 0 ∧
    e1.a * LLLSolver.sol_x chop e0 e1 e2 + e1.b * LLLSolver.sol_y chop e0 e1 e2 + e1.c
        + e1.k * LLLSolver.sol_t chop e0 e1 e2 = 0 ∧
    e2.a * LLLSolver.sol_x chop e0 e1 e2 + e2.b * LLLSolver.sol_y chop e0 e1 e2 + e2.c
        + e2.k * LLLSolver.sol_t chop e0 e1 e2 = 0 := by
  simp only [LLLSolver.sol_x, LLLSolver.sol_y, LLLSolver.sol_t]
  rw [hc] at hd ⊢
  simp only [determinant] at hd ⊢
  refine ⟨?_, ?_, ?_⟩ <;> field_simp <;> ring

/-- Outside the delegation to the parallel-line solver `LLLSolver::solve` appends at most
one solution, a solution of the three equations: for three line sites whose `|detA|`
exceeds `1e-6`, or none of whose cyclic pairs passes the solver's own near-parallel
test (`|a_i b_j - a_j b_i| ≤ 1024 ε`), and every `k1, k2, k3`, it either returns 0 and
appends nothing, or returns 1 and appends one `Solution` with `t ≥ 0` whose `(x, y, t)`
satisfies `a_i x + b_i y + c_i + (k_i kmult_i) t = 0` for each of the three
equations. Here `chop` returns its argument or 0. -/
theorem LLLSolver.solve_general_position (chop : K → K)
    (para_solve : Site K → K → Site K → K → Site K → K → List (Solution K) →
      Option (Int × List (Solution K)))
    (s1 s2 s3 : Site K) (k1 k2 k3 : K) (slns : List (Solution K))
    (hchop : ∀ x, chop x = x ∨ chop x = 0)
    (h1 : s1.isLine = true) (h2 : s2.isLine = true) (h3 : s3.isLine = true)
    (hgen : |LLLSolver.detA chop (s1.eqp_qd k1) (s2.eqp_qd k2) (s3.eqp_qd k3)| > 1 / 10 ^ 6 ∨
      (LLLSolver.near_parallel (s1.eqp_qd k1) (s2.eqp_qd k2) = false ∧
       LLLSolver.near_parallel (s2.eqp_qd k2) (s3.eqp_qd k3) = false ∧
       LLLSolver.near_parallel (s3.eqp_qd k3) (s1.eqp_qd k1) = false)) :
    LLLSolver.solve chop para_solve s1 k1 s2 k2 s3 k3 slns = some (0, slns) ∨
    ∃ sol : Solution K,
      LLLSolver.solve chop para_solve s1 k1 s2 k2 s3 k3 slns = some (1, slns ++ [sol]) ∧
      0 ≤ sol.t ∧
      (s1.eqp_qd k1).a * sol.p.x + (s1.eqp_qd k1).b * sol.p.y + (s1.eqp_qd k1).c
        + (s1.eqp_qd k1).k * sol.t = 0 ∧
      (s2.eqp_qd k2).a * sol.p.x + (s2.eqp_qd k2).b * sol.p.y + (s2.eqp_qd k2).c
        + (s2.eqp_qd k2).k * sol.t = 0 ∧
      (s3.eqp_qd k3).a * sol.p.x + (s3.eqp_qd k3).b * sol.p.y + (s3.eqp_qd k3).c
        + (s3.eqp_qd k3).k * sol.t = 0 := by
  by_cases hdet : |LLLSolver.detA chop (s1.eqp_qd k1) (s2.eqp_qd k2) (s3.eqp_qd k3)|
      > LLLSolver.det_eps
  · by_cases ht : LLLSolver.sol_t chop (s1.eqp_qd k1) (s2.eqp_qd k2) (s3.eqp_qd k3) ≥ 0
    · right
      have hpos : (0 : K) < LLLSolver.det_eps := by norm_num [LLLSolver.det_eps]
      have hne : LLLSolver.detA chop (s1.eqp_qd k1) (s2.eqp_qd k2) (s3.eqp_qd k3) ≠ 0 := by
        intro h0
        rw [h0, abs_zero] at hdet
        exact absurd hdet (not_lt.mpr hpos.le)
      have hc : LLLSolver.detA chop (s1.eqp_qd k1) (s2.eqp_qd k2) (s3.eqp_qd k3)
          = determinant (s1.eqp_qd k1).a (s1.eqp_qd k1).b (s1.eqp_qd k1).k
              (s2.eqp_qd k2).a (s2.eqp_qd k2).b (s2.eqp_qd k2).k
              (s3.eqp_qd k3).a (s3.eqp_qd k3).b (s3.eqp_qd k3).k := by
        rcases hchop (determinant (s1.eqp_qd k1).a (s1.eqp_qd k1).b (s1.eqp_qd k1).k
              (s2.eqp_qd k2).a (s2.eqp_qd k2).b (s2.eqp_qd k2).k
              (s3.eqp_qd k3).a (s3.eqp_qd k3).b (s3.eqp_qd k3).k) with h | h
        · exact h
        · exact absurd h hne
      refine ⟨⟨⟨LLLSolver.sol_x chop (s1.eqp_qd k1) (s2.eqp_qd k2) (s3.eqp_qd k3),
        LLLSolver.sol_y chop (s1.eqp_qd k1) (s2.eqp_qd k2) (s3.eqp_qd k3)⟩,
        LLLSolver.sol_t chop (s1.eqp_qd k1) (s2.eqp_qd k2) (s3.eqp_qd k3), k3⟩,
        ?_, ht, LLLSolver.cramer chop _ _ _ hc hne⟩
      simp only [LLLSolver.solve, h1, h2, h3, Bool.and_self, not_true_eq_false, if_false,
        hdet, if_true, ht]
    · left
      simp only [LLLSolver.solve, h1, h2, h3, Bool.and_self, not_true_eq_false, if_false,
        hdet, if_true, ht]
  · left
    rcases hgen with hgen | ⟨g1, g2, g3⟩
    · exact absurd hgen hdet
    · simp [LLLSolver.solve, h1, h2, h3, hdet, g1, g2, g3]

/-- The `LineSite` constructor over the reals, for a segment of length `d > 0`. -/
theorem LineSite_of_length (st en : Point ℝ) (koff : ℝ) (f : Nat) (d : ℝ) (hd : 0 < d)
    (hdd : d * d = (en.y - st.y) * (en.y - st.y) + (st.x - en.x) * (st.x - en.x)) :
    LineSite Real.sqrt st en koff f =
      some (Site.line ⟨false, (en.y - st.y) / d, (st.x - en.x) / d,
        (en.x * st.y - st.x * en.y) / d, koff⟩ f st en) := by
  have hs : Real.sqrt ((en.y - st.y) * (en.y - st.y) + (st.x - en.x) * (st.x - en.x)) = d := by
    rw [← hdd]
    exact Real.sqrt_mul_self hd.le
  have hz : (en.y - st.y) / d * ((en.y - st.y) / d) + (st.x - en.x) / d * ((st.x - en.x) / d) - 1
      = 0 := by
    have hd0 : d ≠ 0 := hd.ne'
    field_simp
    linear_combination -hdd
  simp only [LineSite, hs, hz, abs_zero]
  norm_num

/-- Lines that are pairwise non-parallel can reach the delegation: the lines through the
origin towards `(1, 0)`, `(1 - m², 2m)` with `m = 2⁻⁵⁰`, and `(0, 1)`, each with
multiplier 1, are pairwise non-parallel, yet `|detA| ≤ 1e-6` and the first pair
passes the near-parallel test, so the result of `LLLSolver::solve` is the result of
the parallel-line solver `LLLPARASolver::solve`, whatever that solver is. -/
theorem LLLSolver.solve_delegates_nonparallel :
    ∃ s1 s2 s3 : Site ℝ,
      LineSite Real.sqrt ⟨0, 0⟩ ⟨1, 0⟩ 1 0 = some s1 ∧
      LineSite Real.sqrt ⟨0, 0⟩ ⟨1 - (1 / 2 ^ 50) ^ 2, 2 * (1 / 2 ^ 50)⟩ 1 0 = some s2 ∧
      LineSite Real.sqrt ⟨0, 0⟩ ⟨0, 1⟩ 1 0 = some s3 ∧
      s1.eq.a * s2.eq.b - s2.eq.a * s1.eq.b ≠ 0 ∧
      s2.eq.a * s3.eq.b - s3.eq.a * s2.eq.b ≠ 0 ∧
      s3.eq.a * s1.eq.b - s1.eq.a * s3.eq.b ≠ 0 ∧
      (fun para => LLLSolver.solve (fun x => x) para s1 1 s2 1 s3 1 [])
        = (fun para => para s1 1 s2 1 s3 1 []) := by
  have e1 := LineSite_of_length ⟨0, 0⟩ ⟨1, 0⟩ 1 0 1 (by norm_num) (by norm_num)
  have e2 := LineSite_of_length ⟨0, 0⟩ ⟨1 - (1 / 2 ^ 50) ^ 2, 2 * (1 / 2 ^ 50)⟩ 1 0
    (1 + (1 / 2 ^ 50) ^ 2) (by norm_num) (by norm_num)
  have e3 := LineSite_of_length ⟨0, 0⟩ ⟨0, 1⟩ 1 0 1 (by norm_num) (by norm_num)
  have key : ∀ para : Site ℝ → ℝ → Site ℝ → ℝ → Site ℝ → ℝ → List (Solution ℝ) →
      Option (Int × List (Solution ℝ)),
      LLLSolver.solve (fun x : ℝ => x) para
        (Site.line ⟨false, (0 - 0) / 1, (0 - 1) / 1, (1 * 0 - 0 * 0) / 1, 1⟩ 0
          (⟨0, 0⟩ : Point ℝ) ⟨1, 0⟩) 1
        (Site.line ⟨false, (2 * (1 / 2 ^ 50) - 0) / (1 + (1 / 2 ^ 50) ^ 2),
          (0 - (1 - (1 / 2 ^ 50) ^ 2)) / (1 + (1 / 2 ^ 50) ^ 2),
          ((1 - (1 / 2 ^ 50) ^ 2) * 0 - 0 * (2 * (1 / 2 ^ 50))) / (1 + (1 / 2 ^ 50) ^ 2), 1⟩ 0
          (⟨0, 0⟩ : Point ℝ) ⟨1 - (1 / 2 ^ 50) ^ 2, 2 * (1 / 2 ^ 50)⟩) 1
        (Site.line ⟨false, (1 - 0) / 1, (0 - 0) / 1, (0 * 0 - 0 * 1) / 1, 1⟩ 0
          (⟨0, 0⟩ : Point ℝ) ⟨0, 1⟩) 1 []
      = para
        (Site.line ⟨false, (0 - 0) / 1, (0 - 1) / 1, (1 * 0 - 0 * 0) / 1, 1⟩ 0
          (⟨0, 0⟩ : Point ℝ) ⟨1, 0⟩) 1
        (Site.line ⟨false, (2 * (1 / 2 ^ 50) - 0) / (1 + (1 / 2 ^ 50) ^ 2),
          (0 - (1 - (1 / 2 ^ 50) ^ 2)) / (1 + (1 / 2 ^ 50) ^ 2),
          ((1 - (1 / 2 ^ 50) ^ 2) * 0 - 0 * (2 * (1 / 2 ^ 50))) / (1 + (1 / 2 ^ 50) ^ 2), 1⟩ 0
          (⟨0, 0⟩ : Point ℝ) ⟨1 - (1 / 2 ^ 50) ^ 2, 2 * (1 / 2 ^ 50)⟩) 1
        (Site.line ⟨false, (1 - 0) / 1, (0 - 0) / 1, (0 * 0 - 0 * 1) / 1, 1⟩ 0
          (⟨0, 0⟩ : Point ℝ) ⟨0, 1⟩) 1 [] := by
    intro para
    have hd : ¬ (|LLLSolver.detA (fun x : ℝ => x)
        ((Site.line ⟨false, (0 - 0) / 1, (0 - 1) / 1, (1 * 0 - 0 * 0) / 1, 1⟩ 0
          (⟨0, 0⟩ : Point ℝ) ⟨1, 0⟩).eqp_qd 1)
        ((Site.line ⟨false, (2 * (1 / 2 ^ 50) - 0) / (1 + (1 / 2 ^ 50) ^ 2),
          (0 - (1 - (1 / 2 ^ 50) ^ 2)) / (1 + (1 / 2 ^ 50) ^ 2),
          ((1 - (1 / 2 ^ 50) ^ 2) * 0 - 0 * (2 * (1 / 2 ^ 50))) / (1 + (1 / 2 ^ 50) ^ 2), 1⟩ 0
          (⟨0, 0⟩ : Point ℝ) ⟨1 - (1 / 2 ^ 50) ^ 2, 2 * (1 / 2 ^ 50)⟩).eqp_qd 1)
        ((Site.line ⟨false, (1 - 0) / 1, (0 - 0) / 1, (0 * 0 - 0 * 1) / 1, 1⟩ 0
          (⟨0, 0⟩ : Point ℝ) ⟨0, 1⟩).eqp_qd 1)| > LLLSolver.det_eps) := by
      norm_num [LLLSolver.detA, LLLSolver.det_eps, determinant, Site.eqp_qd, Site.eq, abs_le]
    have hn : LLLSolver.near_parallel
        ((Site.line ⟨false, (0 - 0) / 1, (0 - 1) / 1, (1 * 0 - 0 * 0) / 1, 1⟩ 0
          (⟨0, 0⟩ : Point ℝ) ⟨1, 0⟩).eqp_qd 1)
        ((Site.line ⟨false, (2 * (1 / 2 ^ 50) - 0) / (1 + (1 / 2 ^ 50) ^ 2),
          (0 - (1 - (1 / 2 ^ 50) ^ 2)) / (1 + (1 / 2 ^ 50) ^ 2),
          ((1 - (1 / 2 ^ 50) ^ 2) * 0 - 0 * (2 * (1 / 2 ^ 50))) / (1 + (1 / 2 ^ 50) ^ 2), 1⟩ 0
          (⟨0, 0⟩ : Point ℝ) ⟨1 - (1 / 2 ^ 50) ^ 2, 2 * (1 / 2 ^ 50)⟩).eqp_qd 1) = true := by
      norm_num [LLLSolver.near_parallel, LLLSolver.double_epsilon, Site.eqp_qd, Site.eq, abs_le]
    simp only [LLLSolver.solve, Site.isLine, Bool.and_self, not_true_eq_false, if_false, hd, hn,
      if_true]
  refine ⟨_, _, _, e1, e2, e3, ?_, ?_, ?_, funext key⟩
  · norm_num [Site.eq]
  · norm_num [Site.eq]
  · norm_num [Site.eq]

/-- The hypotheses of `solve_general_position` hold for the lines `(0,0)-(1,0)`,
`(1,0)-(1,1)` and `(0,3)-(4,0)` with the multipliers `1, 1, -1`, where `detA = -6/5`. -/
theorem LLLSolver.solve_general_position_at_lines :
    |LLLSolver.detA (fun x : ℚ => x)
        ((Site.line ⟨false, 0, -1, 0, 1⟩ 0 ⟨0, 0⟩ ⟨1, 0⟩).eqp_qd 1)
        ((Site.line ⟨false, 1, 0, -1, 1⟩ 0 ⟨1, 0⟩ ⟨1, 1⟩).eqp_qd 1)
        ((Site.line ⟨false, -3 / 5, -4 / 5, 12 / 5, 1⟩ 0 ⟨0, 3⟩ ⟨4, 0⟩).eqp_qd (-1))|
      > 1 / 10 ^ 6 ∧
    (LLLSolver.solve (fun x : ℚ => x) (fun _ _ _ _ _ _ _ => none)
        (Site.line ⟨false, 0, -1, 0, 1⟩ 0 ⟨0, 0⟩ ⟨1, 0⟩) 1
        (Site.line ⟨false, 1, 0, -1, 1⟩ 0 ⟨1, 0⟩ ⟨1, 1⟩) 1
        (Site.line ⟨false, -3 / 5, -4 / 5, 12 / 5, 1⟩ 0 ⟨0, 3⟩ ⟨4, 0⟩) (-1) [] = some (0, []) ∨
      ∃ sol : Solution ℚ,
        LLLSolver.solve (fun x : ℚ => x) (fun _ _ _ _ _ _ _ => none)
          (Site.line ⟨false, 0, -1, 0, 1⟩ 0 ⟨0, 0⟩ ⟨1, 0⟩) 1
          (Site.line ⟨false, 1, 0, -1, 1⟩ 0 ⟨1, 0⟩ ⟨1, 1⟩) 1
          (Site.line ⟨false, -3 / 5, -4 / 5, 12 / 5, 1⟩ 0 ⟨0, 3⟩ ⟨4, 0⟩) (-1) []
            = some (1, [] ++ [sol]) ∧
        0 ≤ sol.t ∧
        ((Site.line ⟨false, 0, -1, 0, 1⟩ 0 ⟨0, 0⟩ ⟨1, 0⟩).eqp_qd 1).a * sol.p.x
          + ((Site.line ⟨false, 0, -1, 0, 1⟩ 0 ⟨0, 0⟩ ⟨1, 0⟩).eqp_qd 1).b * sol.p.y
          + ((Site.line ⟨false, 0, -1, 0, 1⟩ 0 ⟨0, 0⟩ ⟨1, 0⟩).eqp_qd 1).c
          + ((Site.line ⟨false, 0, -1, 0, 1⟩ 0 ⟨0, 0⟩ ⟨1, 0⟩).eqp_qd 1).k * sol.t = 0 ∧
        ((Site.line ⟨false, 1, 0, -1, 1⟩ 0 ⟨1, 0⟩ ⟨1, 1⟩).eqp_qd 1).a * sol.p.x
          + ((Site.line ⟨false, 1, 0, -1, 1⟩ 0 ⟨1, 0⟩ ⟨1, 1⟩).eqp_qd 1).b * sol.p.y
          + ((Site.line ⟨false, 1, 0, -1, 1⟩ 0 ⟨1, 0⟩ ⟨1, 1⟩).eqp_qd 1).c
          + ((Site.line ⟨false, 1, 0, -1, 1⟩ 0 ⟨1, 0⟩ ⟨1, 1⟩).eqp_qd 1).k * sol.t = 0 ∧
        ((Site.line ⟨false, -3 / 5, -4 / 5, 12 / 5, 1⟩ 0 ⟨0, 3⟩ ⟨4, 0⟩).eqp_qd (-1)).a * sol.p.x
          + ((Site.line ⟨false, -3 / 5, -4 / 5, 12 / 5, 1⟩ 0 ⟨0, 3⟩ ⟨4, 0⟩).eqp_qd (-1)).b * sol.p.y
          + ((Site.line ⟨false, -3 / 5, -4 / 5, 12 / 5, 1⟩ 0 ⟨0, 3⟩ ⟨4, 0⟩).eqp_qd (-1)).c
          + ((Site.line ⟨false, -3 / 5, -4 / 5, 12 / 5, 1⟩ 0 ⟨0, 3⟩ ⟨4, 0⟩).eqp_qd (-1)).k * sol.t
            = 0) :=
  ⟨by norm_num [LLLSolver.detA, determinant, Site.eqp_qd, Site.eq, lt_abs],
   LLLSolver.solve_general_position _ _ _ _ _ _ _ _ _ (fun _ => Or.inl rfl) rfl rfl rfl
     (Or.inl (by norm_num [LLLSolver.detA, determinant, Site.eqp_qd, Site.eq, lt_abs]))⟩

/-- C6 fails as stated: the lines `(0,0)-(1,0)` and `(0,1)-(1,1)` are parallel, yet with
the multipliers `1, -1, 1` and the third line `(0,0)-(0,1)` the determinant `detA` is 2,
and `LLLSolver::solve` takes the Cramer's-rule branch: it returns 1 and appends the
solution `(-1/2, 1/2)` with `t = 1/2`, whatever the parallel-line solver is. -/
theorem C6_lll_parallel_counterexample :
    ∃ s1 s2 s3 : Site ℝ,
      LineSite Real.sqrt ⟨0, 0⟩ ⟨1, 0⟩ 1 0 = some s1 ∧
      LineSite Real.sqrt ⟨0, 1⟩ ⟨1, 1⟩ 1 0 = some s2 ∧
      LineSite Real.sqrt ⟨0, 0⟩ ⟨0, 1⟩ 1 0 = some s3 ∧
      s1.eq.a * s2.eq.b - s2.eq.a * s1.eq.b = 0 ∧
      LLLSolver.detA (fun x => x) (s1.eqp_qd 1) (s2.eqp_qd (-1)) (s3.eqp_qd 1) = 2 ∧
      (fun para => LLLSolver.solve (fun x => x) para s1 1 s2 (-1) s3 1 [])
        = (fun _ => some (1, [⟨⟨-1 / 2, 1 / 2⟩, 1 / 2, 1⟩])) := by
  have e1 := LineSite_of_length ⟨0, 0⟩ ⟨1, 0⟩ 1 0 1 (by norm_num) (by norm_num)
  have e2 := LineSite_of_length ⟨0, 1⟩ ⟨1, 1⟩ 1 0 1 (by norm_num) (by norm_num)
  have e3 := LineSite_of_length ⟨0, 0⟩ ⟨0, 1⟩ 1 0 1 (by norm_num) (by norm_num)
  refine ⟨_, _, _, e1, e2, e3, ?_, ?_, ?_⟩
  · norm_num [Site.eq]
  · norm_num [LLLSolver.detA, determinant, Site.eqp_qd, Site.eq]
  · funext para
    norm_num [LLLSolver.solve, LLLSolver.detA, LLLSolver.det_eps, LLLSolver.sol_t,
      LLLSolver.sol_x, LLLSolver.sol_y, determinant, Site.eqp_qd, Site.eq, Site.isLine]

/-- The determinant vanishes when two of its rows are proportional. -/
theorem LLLSolver.det_zero_of_parallel_rows (e0 e1 e2 : Eq K)
    (h : LLLSolver.parallel_rows e0 e1 ∨ LLLSolver.parallel_rows e1 e2 ∨
      LLLSolver.parallel_rows e2 e0) :
    determinant e0.a e0.b e0.k e1.a e1.b e1.k e2.a e2.b e2.k = 0 := by
  simp only [LLLSolver.parallel_rows, determinant] at *
  rcases h with ⟨m1, m2, m3⟩ | ⟨m1, m2, m3⟩ | ⟨m1, m2, m3⟩
  · linear_combination e2.k * m1 - e2.b * m2 + e2.a * m3
  · linear_combination e0.k * m1 - e0.b * m2 + e0.a * m3
  · linear_combination e1.k * m1 - e1.b * m2 + e1.a * m3

/-- C6, as amended: for three line sites of which two are parallel and offset in the
same direction (the rows `(a, b, k)` of their scaled equations are proportional), the
determinant `detA` is zero, so `|detA| ≤ 1e-6` and the solver takes the fallback
branch: its result is the parallel-line solver's, called with the first cyclic pair
that passes the near-parallel test in front. Here `chop 0 = 0`. -/
theorem C6_lll_parallel_fallback (chop : K → K)
    (para_solve : Site K → K → Site K → K → Site K → K → List (Solution K) →
      Option (Int × List (Solution K)))
    (s1 s2 s3 : Site K) (k1 k2 k3 : K) (slns : List (Solution K))
    (hchop : chop 0 = 0)
    (h1 : s1.isLine = true) (h2 : s2.isLine = true) (h3 : s3.isLine = true)
    (hpar : LLLSolver.parallel_rows (s1.eqp_qd k1) (s2.eqp_qd k2) ∨
      LLLSolver.parallel_rows (s2.eqp_qd k2) (s3.eqp_qd k3) ∨
      LLLSolver.parallel_rows (s3.eqp_qd k3) (s1.eqp_qd k1)) :
    LLLSolver.detA chop (s1.eqp_qd k1) (s2.eqp_qd k2) (s3.eqp_qd k3) = 0 ∧
    |LLLSolver.detA chop (s1.eqp_qd k1) (s2.eqp_qd k2) (s3.eqp_qd k3)| ≤ 1 / 10 ^ 6 ∧
    LLLSolver.solve chop para_solve s1 k1 s2 k2 s3 k3 slns =
      (if LLLSolver.near_parallel (s1.eqp_qd k1) (s2.eqp_qd k2) then
        para_solve s1 k1 s2 k2 s3 k3 slns
      else if LLLSolver.near_parallel (s2.eqp_qd k2) (s3.eqp_qd k3) then
        para_solve s2 k2 s3 k3 s1 k1 slns
      else para_solve s3 k3 s1 k1 s2 k2 slns) := by
  have hz : LLLSolver.detA chop (s1.eqp_qd k1) (s2.eqp_qd k2) (s3.eqp_qd k3) = 0 := by
    simp only [LLLSolver.detA, LLLSolver.det_zero_of_parallel_rows _ _ _ hpar, hchop]
  have hnot : ¬ (|LLLSolver.detA chop (s1.eqp_qd k1) (s2.eqp_qd k2) (s3.eqp_qd k3)|
      > LLLSolver.det_eps) := by
    rw [hz]
    norm_num [LLLSolver.det_eps]
  have hnp : ∀ e e' : Eq K, LLLSolver.parallel_rows e e' →
      LLLSolver.near_parallel e e' = true := by
    intro e e' h
    simp only [LLLSolver.near_parallel, h.1, abs_zero, decide_eq_true_eq]
    norm_num [LLLSolver.double_epsilon]
  refine ⟨hz, ?_, ?_⟩
  · rw [hz]
    norm_num
  · simp only [LLLSolver.solve, h1, h2, h3, Bool.and_self, not_true_eq_false, if_false, hnot]
    by_cases g1 : LLLSolver.near_parallel (s1.eqp_qd k1) (s2.eqp_qd k2) = true
    · simp [g1]
    · by_cases g2 : LLLSolver.near_parallel (s2.eqp_qd k2) (s3.eqp_qd k3) = true
      · simp [g1, g2]
      · by_cases g3 : LLLSolver.near_parallel (s3.eqp_qd k3) (s1.eqp_qd k1) = true
        · simp [g1, g2, g3]
        · rcases hpar with h | h | h
          · exact absurd (hnp _ _ h) g1
          · exact absurd (hnp _ _ h) g2
          · exact absurd (hnp _ _ h) g3

/-- The hypotheses of the amended C6 hold for the parallel lines `(0,0)-(1,0)` and
`(0,1)-(1,1)` with equal multipliers and the third line `(0,0)-(0,1)`. -/
theorem C6_lll_parallel_fallback_witness :
    LLLSolver.parallel_rows
        ((Site.line ⟨false, 0, -1, 0, 1⟩ 0 ⟨0, 0⟩ ⟨1, 0⟩ : Site ℚ).eqp_qd 1)
        ((Site.line ⟨false, 0, -1, 1, 1⟩ 0 ⟨0, 1⟩ ⟨1, 1⟩ : Site ℚ).eqp_qd 1) ∧
    LLLSolver.detA (fun x : ℚ => x)
        ((Site.line ⟨false, 0, -1, 0, 1⟩ 0 ⟨0, 0⟩ ⟨1, 0⟩).eqp_qd 1)
        ((Site.line ⟨false, 0, -1, 1, 1⟩ 0 ⟨0, 1⟩ ⟨1, 1⟩).eqp_qd 1)
        ((Site.line ⟨false, 1, 0, 0, 1⟩ 0 ⟨0, 0⟩ ⟨0, 1⟩).eqp_qd 1) = 0 :=
  ⟨by norm_num [LLLSolver.parallel_rows, Site.eqp_qd, Site.eq],
   (C6_lll_parallel_fallback (fun x : ℚ => x) (fun _ _ _ _ _ _ _ => none)
     (Site.line ⟨false, 0, -1, 0, 1⟩ 0 ⟨0, 0⟩ ⟨1, 0⟩) (Site.line ⟨false, 0, -1, 1, 1⟩ 0 ⟨0, 1⟩ ⟨1, 1⟩)
     (Site.line ⟨false, 1, 0, 0, 1⟩ 0 ⟨0, 0⟩ ⟨0, 1⟩) 1 1 1 [] rfl rfl rfl rfl
     (Or.inl (by norm_num [LLLSolver.parallel_rows, Site.eqp_qd, Site.eq]))).1⟩

/-! ### The quadratic-linear-linear solver -/

/-- The solution of a row under the shuffle (0,1,2): `(x, y, t) = (u, v, w)`. -/
theorem QLLSolver.to_solution_012 (k3 u v w : K) :
    QLLSolver.to_solution 0 1 2 k3 (u, v, w) = ⟨⟨u, v⟩, w, k3⟩ := by
  simp [QLLSolver.to_solution, QLLSolver.set_row]

/-- The solution of a row under the shuffle (2,0,1): `(x, y, t) = (v, w, u)`. -/
theorem QLLSolver.to_solution_201 (k3 u v w : K) :
    QLLSolver.to_solution 2 0 1 k3 (u, v, w) = ⟨⟨v, w⟩, u, k3⟩ := by
  simp [QLLSolver.to_solution, QLLSolver.set_row]

/-- The solution of a row under the shuffle (1,2,0): `(x, y, t) = (w, u, v)`. -/
theorem QLLSolver.to_solution_120 (k3 u v w : K) :
    QLLSolver.to_solution 1 2 0 k3 (u, v, w) = ⟨⟨w, u⟩, v, k3⟩ := by
  simp [QLLSolver.to_solution, QLLSolver.set_row]

/-- A call of `qll_solver` keeps the solutions it finds on entry and appends to
them. -/
theorem QLLSolver.qll_solver_prefix (chop : K → K) (qr : K → K → K → List K)
    (lins : List (Eq K)) (xi yi ti : Nat) (quad : Eq K) (k3 : K)
    (solns : List (Solution K)) :
    QLLSolver.qll_solver chop qr lins xi yi ti quad k3 solns =
      (QLLSolver.qll_solver chop qr lins xi yi ti quad k3 []).map
        fun r => (r.1, solns ++ r.2) := by
  unfold QLLSolver.qll_solver
  split
  · split
    · dsimp only
      split_ifs <;> simp
    · simp
  · simp

/-- The three shuffles of `QLLSolver::solve` never fail. -/
theorem QLLSolver.qll_solver_shuffle (chop : K → K) (qr : K → K → K → List K)
    (l0 l1 : Eq K) (xi yi ti : Nat) (quad : Eq K) (k3 : K)
    (h : (xi, yi, ti) = (0, 1, 2) ∨ (xi, yi, ti) = (2, 0, 1) ∨ (xi, yi, ti) = (1, 2, 0)) :
    ∃ n, QLLSolver.qll_solver chop qr [l0, l1] xi yi ti quad k3 []
      = some (n, QLLSolver.appended chop qr [l0, l1] xi yi ti quad k3) := by
  simp only [Prod.mk.injEq] at h
  rcases h with h | h | h
  all_goals obtain ⟨rfl, rfl, rfl⟩ := h
  all_goals simp only [QLLSolver.appended, QLLSolver.qll_solver, Eq.index]
  all_goals split_ifs <;> simp

/-- What `QLLSolver::solve` returns, from the equations: the solutions on entry, then
what the three shuffles append, in the order (0,1,2), (2,0,1), (1,2,0). -/
theorem QLLSolver.solve_of_equations (chop : K → K) (qr : K → K → K → List K)
    (s1 s2 s3 : Site K) (k1 k2 k3 : K) (slns : List (Solution K)) (l0 l1 quad0 : Eq K)
    (he : QLLSolver.equations s1 k1 s2 k2 s3 k3 = some ([l0, l1], quad0)) :
    QLLSolver.solve chop qr s1 k1 s2 k2 s3 k3 slns =
      some (((slns ++ QLLSolver.appended chop qr [l0, l1] 0 1 2 quad0 k3
          ++ QLLSolver.appended chop qr [l0, l1] 2 0 1 quad0 k3
          ++ QLLSolver.appended chop qr [l0, l1] 1 2 0 quad0 k3).length : Int),
        slns ++ QLLSolver.appended chop qr [l0, l1] 0 1 2 quad0 k3
          ++ QLLSolver.appended chop qr [l0, l1] 2 0 1 quad0 k3
          ++ QLLSolver.appended chop qr [l0, l1] 1 2 0 quad0 k3) := by
  obtain ⟨n1, e1⟩ := QLLSolver.qll_solver_shuffle chop qr l0 l1 0 1 2 quad0 k3 (Or.inl rfl)
  obtain ⟨n2, e2⟩ := QLLSolver.qll_solver_shuffle chop qr l0 l1 2 0 1 quad0 k3
    (Or.inr (Or.inl rfl))
  obtain ⟨n3, e3⟩ := QLLSolver.qll_solver_shuffle chop qr l0 l1 1 2 0 quad0 k3
    (Or.inr (Or.inr rfl))
  simp only [QLLSolver.solve, he]
  rw [QLLSolver.qll_solver_prefix chop qr [l0, l1] 0 1 2 quad0 k3 slns, e1]
  simp only [Option.map_some']
  rw [QLLSolver.qll_solver_prefix chop qr [l0, l1] 2 0 1 quad0 k3, e2]
  simp only [Option.map_some']
  rw [QLLSolver.qll_solver_prefix chop qr [l0, l1] 1 2 0 quad0 k3, e3]
  simp only [Option.map_some']

/-- The equations that `QLLSolver::solve` builds when not all three sites are lines:
two linear equations and one quadratic, by the kinds of the sites. -/
theorem QLLSolver.equations_cases (s1 s2 s3 : Site K) (k1 k2 k3 : K)
    (hq : ¬ (s1.isLine = true ∧ s2.isLine = true ∧ s3.isLine = true)) :
    (s1.isLine = false ∧ s2.isLine = false ∧ s3.isLine = false ∧
      QLLSolver.equations s1 k1 s2 k2 s3 k3 = some ([(s2.eqp_qd k2).sub (s1.eqp_qd k1),
        (s3.eqp_qd k3).sub (s1.eqp_qd k1)], s1.eqp_qd k1)) ∨
    (s1.isLine = false ∧ s2.isLine = false ∧ s3.isLine = true ∧
      QLLSolver.equations s1 k1 s2 k2 s3 k3 = some ([s3.eqp_qd k3,
        (s2.eqp_qd k2).sub (s1.eqp_qd k1)], s1.eqp_qd k1)) ∨
    (s1.isLine = false ∧ s2.isLine = true ∧ s3.isLine = false ∧
      QLLSolver.equations s1 k1 s2 k2 s3 k3 = some ([s2.eqp_qd k2,
        (s3.eqp_qd k3).sub (s1.eqp_qd k1)], s1.eqp_qd k1)) ∨
    (s1.isLine = true ∧ s2.isLine = false ∧ s3.isLine = false ∧
      QLLSolver.equations s1 k1 s2 k2 s3 k3 = some ([s1.eqp_qd k1,
        (s3.eqp_qd k3).sub (s2.eqp_qd k2)], s2.eqp_qd k2)) ∨
    (s1.isLine = false ∧ s2.isLine = true ∧ s3.isLine = true ∧
      QLLSolver.equations s1 k1 s2 k2 s3 k3 = some ([s2.eqp_qd k2, s3.eqp_qd k3],
        s1.eqp_qd k1)) ∨
    (s1.isLine = true ∧ s2.isLine = false ∧ s3.isLine = true ∧
      QLLSolver.equations s1 k1 s2 k2 s3 k3 = some ([s1.eqp_qd k1, s3.eqp_qd k3],
        s2.eqp_qd k2)) ∨
    (s1.isLine = true ∧ s2.isLine = true ∧ s3.isLine = false ∧
      QLLSolver.equations s1 k1 s2 k2 s3 k3 = some ([s1.eqp_qd k1, s2.eqp_qd k2],
        s3.eqp_qd k3)) := by
  cases h1 : s1.isLine <;> cases h2 : s2.isLine <;> cases h3 : s3.isLine <;>
    simp_all [QLLSolver.equations, Site.is_linear]

/-- Each solution that a shuffle appends solves the two linear equations and the
quadratic one, when `chop` is the identity and the roots are roots. -/
theorem QLLSolver.appended_sound (chop : K → K) (qr : K → K → K → List K)
    (hchop : ∀ x, chop x = x)
    (hqr : ∀ a b c w, w ∈ qr a b c → a * w ^ 2 + b * w + c = 0)
    (l0 l1 quad : Eq K) (k3 : K) (xi yi ti : Nat)
    (h : (xi, yi, ti) = (0, 1, 2) ∨ (xi, yi, ti) = (2, 0, 1) ∨ (xi, yi, ti) = (1, 2, 0))
    (sol : Solution K) (hs : sol ∈ QLLSolver.appended chop qr [l0, l1] xi yi ti quad k3) :
    l0.lin sol.p.x sol.p.y sol.t = 0 ∧ l1.lin sol.p.x sol.p.y sol.t = 0 ∧
      (sol.p.x * sol.p.x + sol.p.y * sol.p.y - sol.t * sol.t)
        + quad.lin sol.p.x sol.p.y sol.t = 0 := by
  simp only [Prod.mk.injEq] at h
  rcases h with h | h | h
  all_goals obtain ⟨rfl, rfl, rfl⟩ := h
  · simp only [QLLSolver.appended, QLLSolver.qll_solver, Eq.index, hchop, QLLSolver.aargs,
      QLLSolver.qll_solve] at hs
    by_cases hd : l0.a * l1.b - l1.a * l0.b = 0
    · simp [hd] at hs
    · simp only [hd, if_false, List.nil_append, List.map_map, List.mem_map,
        Function.comp_apply, QLLSolver.to_solution_012] at hs
      obtain ⟨w, hw, rfl⟩ := hs
      have hr := hqr _ _ _ w hw
      simp only [Eq.lin]
      refine ⟨?_, ?_, ?_⟩
      · field_simp
        ring
      · field_simp
        ring
      · linear_combination hr
  · simp only [QLLSolver.appended, QLLSolver.qll_solver, Eq.index, hchop, QLLSolver.aargs,
      QLLSolver.qll_solve] at hs
    by_cases hd : l0.k * l1.a - l1.k * l0.a = 0
    · simp [hd] at hs
    · simp only [hd, if_false, List.nil_append, List.map_map, List.mem_map,
        Function.comp_apply, QLLSolver.to_solution_201] at hs
      obtain ⟨w, hw, rfl⟩ := hs
      have hr := hqr _ _ _ w hw
      simp only [Eq.lin]
      refine ⟨?_, ?_, ?_⟩
      · field_simp
        ring
      · field_simp
        ring
      · linear_combination hr
  · simp only [QLLSolver.appended, QLLSolver.qll_solver, Eq.index, hchop, QLLSolver.aargs,
      QLLSolver.qll_solve] at hs
    by_cases hd : l0.b * l1.k - l1.b * l0.k = 0
    · simp [hd] at hs
    · simp only [hd, if_false, List.nil_append, List.map_map, List.mem_map,
        Function.comp_apply, QLLSolver.to_solution_120] at hs
      obtain ⟨w, hw, rfl⟩ := hs
      have hr := hqr _ _ _ w hw
      simp only [Eq.lin]
      refine ⟨?_, ?_, ?_⟩
      · field_simp
        ring
      · field_simp
        ring
      · linear_combination hr

/-- A point that solves the two linear equations and the quadratic equation built by
`QLLSolver::solve` solves the offset equation of each of the three sites, when the flag
`q` of each site's equation says whether the site is a line. -/
theorem QLLSolver.equations_sound (s1 s2 s3 : Site K) (k1 k2 k3 : K)
    (hq : ¬ (s1.isLine = true ∧ s2.isLine = true ∧ s3.isLine = true))
    (hw1 : s1.eq.q = !s1.isLine) (hw2 : s2.eq.q = !s2.isLine) (hw3 : s3.eq.q = !s3.isLine)
    (l0 l1 quad0 : Eq K)
    (he : QLLSolver.equations s1 k1 s2 k2 s3 k3 = some ([l0, l1], quad0))
    (x y t : K) (h0 : l0.lin x y t = 0) (h1 : l1.lin x y t = 0)
    (h2 : (x * x + y * y - t * t) + quad0.lin x y t = 0) :
    (s1.eqp_qd k1).lhs x y t = 0 ∧ (s2.eqp_qd k2).lhs x y t = 0 ∧
      (s3.eqp_qd k3).lhs x y t = 0 := by
  rcases QLLSolver.equations_cases s1 s2 s3 k1 k2 k3 hq with
    ⟨g1, g2, g3, e⟩ | ⟨g1, g2, g3, e⟩ | ⟨g1, g2, g3, e⟩ | ⟨g1, g2, g3, e⟩ |
    ⟨g1, g2, g3, e⟩ | ⟨g1, g2, g3, e⟩ | ⟨g1, g2, g3, e⟩
  all_goals
    rw [e] at he
    simp only [Option.some.injEq, Prod.mk.injEq, List.cons.injEq, and_true] at he
    obtain ⟨⟨rfl, rfl⟩, rfl⟩ := he
    simp only [Eq.lin, Eq.sub, Site.eqp_qd] at h0 h1 h2
    simp only [Eq.lhs, Site.eqp_qd, hw1, hw2, hw3, g1, g2, g3, Bool.not_false, Bool.not_true,
      if_true, if_false, Bool.false_eq_true]
    refine ⟨?_, ?_, ?_⟩ <;> linarith

/-- Every solution that `QLLSolver::solve` appends carries the `k3` of the call. -/
theorem QLLSolver.appended_k3 (chop : K → K) (qr : K → K → K → List K)
    (l0 l1 quad : Eq K) (k3 : K) (xi yi ti : Nat)
    (sol : Solution K) (hs : sol ∈ QLLSolver.appended chop qr [l0, l1] xi yi ti quad k3) :
    sol.k3 = k3 := by
  simp only [QLLSolver.appended, QLLSolver.qll_solver] at hs
  split at hs
  · rename_i n solns heq
    split at heq
    · split_ifs at heq
      · simp only [Option.some.injEq, Prod.mk.injEq] at heq
        rw [← heq.2] at hs
        simp at hs
      · simp only [Option.some.injEq, Prod.mk.injEq, List.nil_append] at heq
        rw [← heq.2] at hs
        simp only [List.mem_map] at hs
        obtain ⟨uvw, _, rfl⟩ := hs
        rfl
    · simp at heq
  · simp at hs

/-- The flag `q` of the equation of a constructed `PointSite` says it is no line. -/
theorem PointSite_flag (p : Point K) (f : Nat) :
    (PointSite p f).eq.q = !(PointSite p f).isLine := by
  simp [PointSite, Site.eq, Site.isLine]

/-- The flag `q` of the equation of a constructed `LineSite` says it is a line. -/
theorem LineSite_flag (sqrt : K → K) (st en : Point K) (koff : K) (f : Nat) (s : Site K)
    (h : LineSite sqrt st en koff f = some s) : s.eq.q = !s.isLine := by
  simp only [LineSite] at h
  split_ifs at h
  simp only [Option.some.injEq] at h
  subst h
  simp [Site.eq, Site.isLine]

/-- The flag `q` of the equation of a constructed `ArcSite` says it is no line. -/
theorem ArcSite_flag (sqrt : K → K) (startpt endpt centr : Point K) (dir : Bool) :
    (ArcSite sqrt startpt endpt centr dir).eq.q
      = !(ArcSite sqrt startpt endpt centr dir).isLine := by
  simp [ArcSite, Site.eq, Site.isLine]

/-- C3: for a site triple with at least one non-line site and every `k1, k2, k3`,
every `Solution` `(x, y, t)` appended by `QLLSolver::solve` satisfies the offset
equation `q (x² + y² - t²) + a x + b y + c + (k kmult_i) t = 0` of each of the three
sites, with `chop` acting as the identity and `quadratic_roots` returning only roots
of `a w² + b w + c = 0`; the solutions of all three index shuffles are covered. -/
theorem C3_qll_solutions_satisfy_equations (chop : K → K) (qr : K → K → K → List K)
    (hchop : ∀ x, chop x = x)
    (hqr : ∀ a b c w, w ∈ qr a b c → a * w ^ 2 + b * w + c = 0)
    (s1 s2 s3 : Site K) (k1 k2 k3 : K) (slns : List (Solution K))
    (hq : ¬ (s1.isLine = true ∧ s2.isLine = true ∧ s3.isLine = true))
    (hw1 : s1.eq.q = !s1.isLine) (hw2 : s2.eq.q = !s2.isLine) (hw3 : s3.eq.q = !s3.isLine) :
    ∃ app : List (Solution K),
      QLLSolver.solve chop qr s1 k1 s2 k2 s3 k3 slns
        = some (((slns ++ app).length : Int), slns ++ app) ∧
      ∀ sol ∈ app, (s1.eqp_qd k1).lhs sol.p.x sol.p.y sol.t = 0 ∧
        (s2.eqp_qd k2).lhs sol.p.x sol.p.y sol.t = 0 ∧
        (s3.eqp_qd k3).lhs sol.p.x sol.p.y sol.t = 0 := by
  have hex : ∃ l0 l1 quad0, QLLSolver.equations s1 k1 s2 k2 s3 k3 = some ([l0, l1], quad0) := by
    rcases QLLSolver.equations_cases s1 s2 s3 k1 k2 k3 hq with
      ⟨_, _, _, e⟩ | ⟨_, _, _, e⟩ | ⟨_, _, _, e⟩ | ⟨_, _, _, e⟩ |
      ⟨_, _, _, e⟩ | ⟨_, _, _, e⟩ | ⟨_, _, _, e⟩ <;> exact ⟨_, _, _, e⟩
  obtain ⟨l0, l1, quad0, he⟩ := hex
  refine ⟨QLLSolver.appended chop qr [l0, l1] 0 1 2 quad0 k3
      ++ QLLSolver.appended chop qr [l0, l1] 2 0 1 quad0 k3
      ++ QLLSolver.appended chop qr [l0, l1] 1 2 0 quad0 k3, ?_, ?_⟩
  · rw [QLLSolver.solve_of_equations chop qr s1 s2 s3 k1 k2 k3 slns l0 l1 quad0 he]
    simp only [List.append_assoc]
  · intro sol hs
    simp only [List.mem_append] at hs
    have key : l0.lin sol.p.x sol.p.y sol.t = 0 ∧ l1.lin sol.p.x sol.p.y sol.t = 0 ∧
        (sol.p.x * sol.p.x + sol.p.y * sol.p.y - sol.t * sol.t)
          + quad0.lin sol.p.x sol.p.y sol.t = 0 := by
      rcases hs with (hs | hs) | hs
      · exact QLLSolver.appended_sound chop qr hchop hqr l0 l1 quad0 k3 0 1 2 (Or.inl rfl) sol hs
      · exact QLLSolver.appended_sound chop qr hchop hqr l0 l1 quad0 k3 2 0 1
          (Or.inr (Or.inl rfl)) sol hs
      · exact QLLSolver.appended_sound chop qr hchop hqr l0 l1 quad0 k3 1 2 0
          (Or.inr (Or.inr rfl)) sol hs
    exact QLLSolver.equations_sound s1 s2 s3 k1 k2 k3 hq hw1 hw2 hw3 l0 l1 quad0 he
      sol.p.x sol.p.y sol.t key.1 key.2.1 key.2.2

/-- The modelled `quadratic_roots` over the reals returns only roots. -/
theorem numeric.quadratic_roots_sound (a b c w : ℝ)
    (h : w ∈ numeric.quadratic_roots Real.sqrt a b c) : a * w ^ 2 + b * w + c = 0 := by
  unfold numeric.quadratic_roots at h
  by_cases ha : a = 0
  · by_cases hb : b = 0
    · simp [ha, hb] at h
    · simp only [ha, hb, if_true, if_false, List.mem_singleton] at h
      subst h ha
      field_simp
      ring
  · rw [if_neg ha] at h
    have key : ∀ s : ℝ, s ^ 2 = b * b - 4 * a * c → 2 * a * w = -b + s →
        a * w ^ 2 + b * w + c = 0 := by
      intro s hs hw
      have h4 : 4 * a * (a * w ^ 2 + b * w + c) = 0 := by
        linear_combination (2 * a * w + b + s) * hw + hs
      rcases mul_eq_zero.1 h4 with h0 | h0
      · exact absurd (by linarith) ha
      · exact h0
    by_cases hpos : b * b - 4 * a * c > 0
    · have hs : Real.sqrt (b * b - 4 * a * c) ^ 2 = b * b - 4 * a * c := Real.sq_sqrt hpos.le
      rw [if_pos hpos] at h
      simp only [List.mem_cons, List.mem_singleton, List.not_mem_nil, or_false] at h
      rcases h with rfl | rfl
      · exact key (Real.sqrt (b * b - 4 * a * c)) hs (by field_simp)
      · exact key (-Real.sqrt (b * b - 4 * a * c)) (by rw [neg_sq]; exact hs)
          (by field_simp; ring)
    · rw [if_neg hpos] at h
      by_cases hzero : b * b - 4 * a * c = 0
      · rw [if_pos hzero] at h
        simp only [List.mem_singleton] at h
        subst h
        exact key 0 (by rw [hzero]; ring) (by field_simp; ring)
      · rw [if_neg hzero] at h
        simp at h

/-- The hypotheses of C3 hold for the point site at the origin with the lines
`(0,1)-(1,1)` and `(-2,0)-(-2,1)`, the identity as `chop` and the quadratic formula
as `quadratic_roots`. -/
theorem C3_qll_solutions_satisfy_equations_witness :
    (∀ a b c w : ℝ, w ∈ numeric.quadratic_roots Real.sqrt a b c → a * w ^ 2 + b * w + c = 0) ∧
    ∃ app : List (Solution ℝ),
      QLLSolver.solve (fun x => x) (numeric.quadratic_roots Real.sqrt)
          (PointSite ⟨0, 0⟩ 0) 1 (Site.line ⟨false, 0, -1, 1, 1⟩ 0 ⟨0, 1⟩ ⟨1, 1⟩) 1
          (Site.line ⟨false, 1, 0, 2, 1⟩ 0 ⟨-2, 0⟩ ⟨-2, 1⟩) 1 []
        = some ((([] ++ app).length : Int), [] ++ app) ∧
      ∀ sol ∈ app,
        ((PointSite ⟨0, 0⟩ 0).eqp_qd 1).lhs sol.p.x sol.p.y sol.t = 0 ∧
        ((Site.line ⟨false, 0, -1, 1, 1⟩ 0 ⟨0, 1⟩ ⟨1, 1⟩).eqp_qd 1).lhs sol.p.x sol.p.y sol.t = 0 ∧
        ((Site.line ⟨false, 1, 0, 2, 1⟩ 0 ⟨-2, 0⟩ ⟨-2, 1⟩).eqp_qd 1).lhs sol.p.x sol.p.y sol.t
          = 0 :=
  ⟨numeric.quadratic_roots_sound,
   C3_qll_solutions_satisfy_equations (fun x => x) (numeric.quadratic_roots Real.sqrt)
     (fun _ => rfl) numeric.quadratic_roots_sound
     (PointSite ⟨0, 0⟩ 0) (Site.line ⟨false, 0, -1, 1, 1⟩ 0 ⟨0, 1⟩ ⟨1, 1⟩)
     (Site.line ⟨false, 1, 0, 2, 1⟩ 0 ⟨-2, 0⟩ ⟨-2, 1⟩) 1 1 1 []
     (by simp [PointSite, Site.isLine]) rfl rfl rfl⟩

/-- C9: in `QLLSolver::solve` on a site triple with a non-line site, a shuffle whose
determinant `d = ai*bj - aj*bi` (after `chop`) is zero returns -1 without appending
a `Solution` and without aborting, and the overall result is the solutions on entry
followed by what the shuffles with `d ≠ 0` append, in the order (0,1,2), (2,0,1),
(1,2,0); the return value is the size of that sequence. -/
theorem C9_qll_zero_determinant (chop : K → K) (qr : K → K → K → List K)
    (s1 s2 s3 : Site K) (k1 k2 k3 : K) (slns : List (Solution K))
    (hq : ¬ (s1.isLine = true ∧ s2.isLine = true ∧ s3.isLine = true)) :
    ∃ l0 l1 quad0 out,
      QLLSolver.equations s1 k1 s2 k2 s3 k3 = some ([l0, l1], quad0) ∧
      (∀ solns, chop (l0.a * l1.b - l1.a * l0.b) = 0 →
        QLLSolver.qll_solver chop qr [l0, l1] 0 1 2 quad0 k3 solns = some (-1, solns)) ∧
      (∀ solns, chop (l0.k * l1.a - l1.k * l0.a) = 0 →
        QLLSolver.qll_solver chop qr [l0, l1] 2 0 1 quad0 k3 solns = some (-1, solns)) ∧
      (∀ solns, chop (l0.b * l1.k - l1.b * l0.k) = 0 →
        QLLSolver.qll_solver chop qr [l0, l1] 1 2 0 quad0 k3 solns = some (-1, solns)) ∧
      out = slns
        ++ (if chop (l0.a * l1.b - l1.a * l0.b) = 0 then []
            else QLLSolver.appended chop qr [l0, l1] 0 1 2 quad0 k3)
        ++ (if chop (l0.k * l1.a - l1.k * l0.a) = 0 then []
            else QLLSolver.appended chop qr [l0, l1] 2 0 1 quad0 k3)
        ++ (if chop (l0.b * l1.k - l1.b * l0.k) = 0 then []
            else QLLSolver.appended chop qr [l0, l1] 1 2 0 quad0 k3) ∧
      QLLSolver.solve chop qr s1 k1 s2 k2 s3 k3 slns = some ((out.length : Int), out) := by
  have hex : ∃ l0 l1 quad0, QLLSolver.equations s1 k1 s2 k2 s3 k3 = some ([l0, l1], quad0) := by
    rcases QLLSolver.equations_cases s1 s2 s3 k1 k2 k3 hq with
      ⟨_, _, _, e⟩ | ⟨_, _, _, e⟩ | ⟨_, _, _, e⟩ | ⟨_, _, _, e⟩ |
      ⟨_, _, _, e⟩ | ⟨_, _, _, e⟩ | ⟨_, _, _, e⟩ <;> exact ⟨_, _, _, e⟩
  obtain ⟨l0, l1, quad0, he⟩ := hex
  have z1 : chop (l0.a * l1.b - l1.a * l0.b) = 0 →
      QLLSolver.appended chop qr [l0, l1] 0 1 2 quad0 k3 = [] := by
    intro h
    simp [QLLSolver.appended, QLLSolver.qll_solver, Eq.index, h]
  have z2 : chop (l0.k * l1.a - l1.k * l0.a) = 0 →
      QLLSolver.appended chop qr [l0, l1] 2 0 1 quad0 k3 = [] := by
    intro h
    simp [QLLSolver.appended, QLLSolver.qll_solver, Eq.index, h]
  have z3 : chop (l0.b * l1.k - l1.b * l0.k) = 0 →
      QLLSolver.appended chop qr [l0, l1] 1 2 0 quad0 k3 = [] := by
    intro h
    simp [QLLSolver.appended, QLLSolver.qll_solver, Eq.index, h]
  refine ⟨l0, l1, quad0, _, he, ?_, ?_, ?_, rfl, ?_⟩
  · intro solns h
    simp [QLLSolver.qll_solver, Eq.index, h]
  · intro solns h
    simp [QLLSolver.qll_solver, Eq.index, h]
  · intro solns h
    simp [QLLSolver.qll_solver, Eq.index, h]
  · rw [QLLSolver.solve_of_equations chop qr s1 s2 s3 k1 k2 k3 slns l0 l1 quad0 he]
    by_cases h1 : chop (l0.a * l1.b - l1.a * l0.b) = 0 <;>
    by_cases h2 : chop (l0.k * l1.a - l1.k * l0.a) = 0 <;>
    by_cases h3 : chop (l0.b * l1.k - l1.b * l0.k) = 0 <;>
    simp [h1, h2, h3, z1, z2, z3]

/-- The hypothesis of C9 holds for the point site at the origin with the parallel lines
`(0,1)-(1,1)` and `(0,2)-(1,2)`, for which the shuffle (0,1,2) has `d = 0`. -/
theorem C9_qll_zero_determinant_witness :
    ∃ l0 l1 quad0 out,
      QLLSolver.equations (PointSite (⟨0, 0⟩ : Point ℝ) 0) 1
        (Site.line ⟨false, 0, -1, 1, 1⟩ 0 ⟨0, 1⟩ ⟨1, 1⟩) 1
        (Site.line ⟨false, 0, -1, 2, 1⟩ 0 ⟨0, 2⟩ ⟨1, 2⟩) 1 = some ([l0, l1], quad0) ∧
      (∀ solns, (fun x : ℝ => x) (l0.a * l1.b - l1.a * l0.b) = 0 →
        QLLSolver.qll_solver (fun x : ℝ => x) (numeric.quadratic_roots Real.sqrt) [l0, l1] 0 1 2 quad0 1 solns
          = some (-1, solns)) ∧
      (∀ solns, (fun x : ℝ => x) (l0.k * l1.a - l1.k * l0.a) = 0 →
        QLLSolver.qll_solver (fun x : ℝ => x) (numeric.quadratic_roots Real.sqrt) [l0, l1] 2 0 1 quad0 1 solns
          = some (-1, solns)) ∧
      (∀ solns, (fun x : ℝ => x) (l0.b * l1.k - l1.b * l0.k) = 0 →
        QLLSolver.qll_solver (fun x : ℝ => x) (numeric.quadratic_roots Real.sqrt) [l0, l1] 1 2 0 quad0 1 solns
          = some (-1, solns)) ∧
      out = []
        ++ (if (fun x : ℝ => x) (l0.a * l1.b - l1.a * l0.b) = 0 then []
            else QLLSolver.appended (fun x : ℝ => x) (numeric.quadratic_roots Real.sqrt) [l0, l1] 0 1 2 quad0 1)
        ++ (if (fun x : ℝ => x) (l0.k * l1.a - l1.k * l0.a) = 0 then []
            else QLLSolver.appended (fun x : ℝ => x) (numeric.quadratic_roots Real.sqrt) [l0, l1] 2 0 1 quad0 1)
        ++ (if (fun x : ℝ => x) (l0.b * l1.k - l1.b * l0.k) = 0 then []
            else QLLSolver.appended (fun x : ℝ => x) (numeric.quadratic_roots Real.sqrt) [l0, l1] 1 2 0 quad0 1) ∧
      QLLSolver.solve (fun x : ℝ => x) (numeric.quadratic_roots Real.sqrt) (PointSite (⟨0, 0⟩ : Point ℝ) 0) 1
        (Site.line ⟨false, 0, -1, 1, 1⟩ 0 ⟨0, 1⟩ ⟨1, 1⟩) 1
        (Site.line ⟨false, 0, -1, 2, 1⟩ 0 ⟨0, 2⟩ ⟨1, 2⟩) 1 [] = some ((out.length : Int), out) :=
  C9_qll_zero_determinant (fun x : ℝ => x) (numeric.quadratic_roots Real.sqrt) (PointSite (⟨0, 0⟩ : Point ℝ) 0)
    (Site.line ⟨false, 0, -1, 1, 1⟩ 0 ⟨0, 1⟩ ⟨1, 1⟩)
    (Site.line ⟨false, 0, -1, 2, 1⟩ 0 ⟨0, 2⟩ ⟨1, 2⟩) 1 1 1 []
    (by simp [PointSite, Site.isLine])

/-- The hypotheses of the amended C4 hold for the point sites `(0,0)`, `(1,1)`, `(2,2)`,
which are collinear. -/
theorem C4_ppp_fails_iff_collinear_witness :
    Point.collinear (⟨0, 0⟩ : Point ℝ) ⟨1, 1⟩ ⟨2, 2⟩ ∧
    ∃ a b c, PPPSolver.ordered Real.sqrt (⟨0, 0⟩ : Point ℝ) ⟨1, 1⟩ ⟨2, 2⟩ = some (a, b, c) ∧
      (PPPSolver.solve Real.sqrt (PointSite ⟨0, 0⟩ 0) 1 (PointSite ⟨1, 1⟩ 0) 1
          (PointSite ⟨2, 2⟩ 0) 1 [] = none ↔ PPPSolver.J4 a b c = 0) ∧
      (PPPSolver.J4 a b c = 0 ↔ Point.collinear (⟨0, 0⟩ : Point ℝ) ⟨1, 1⟩ ⟨2, 2⟩) ∧
      (¬ Point.collinear (⟨0, 0⟩ : Point ℝ) ⟨1, 1⟩ ⟨2, 2⟩ →
        ∃ sol, PPPSolver.solve Real.sqrt (PointSite ⟨0, 0⟩ 0) 1 (PointSite ⟨1, 1⟩ 0) 1
          (PointSite ⟨2, 2⟩ 0) 1 [] = some (1, [] ++ [sol])) :=
  ⟨by norm_num [Point.collinear],
   C4_ppp_fails_iff_collinear Real.sqrt (PointSite ⟨0, 0⟩ 0) (PointSite ⟨1, 1⟩ 0)
     (PointSite ⟨2, 2⟩ 0) 1 1 1 [] ⟨0, 0⟩ ⟨1, 1⟩ ⟨2, 2⟩ rfl rfl rfl⟩

/-- What the shuffle (0,1,2) appends when its determinant `d` is not zero: one
solution for each row `(u, v, w)` that `qll_solve` returns, as `(x, y, t)`. -/
theorem QLLSolver.appended_012 (chop : K → K) (qr : K → K → K → List K)
    (l0 l1 quad : Eq K) (k3 : K) (hd : chop (l0.a * l1.b - l1.a * l0.b) ≠ 0) :
    QLLSolver.appended chop qr [l0, l1] 0 1 2 quad k3 =
      (QLLSolver.qll_solve chop qr 1 quad.a 1 quad.b (-1) quad.k quad.c
        ((l0.b * l1.k - l1.b * l0.k) / chop (l0.a * l1.b - l1.a * l0.b))
        ((l0.b * l1.c - l1.b * l0.c) / chop (l0.a * l1.b - l1.a * l0.b))
        (-(l0.a * l1.k - l1.a * l0.k) / chop (l0.a * l1.b - l1.a * l0.b))
        (-(l0.a * l1.c - l1.a * l0.c) / chop (l0.a * l1.b - l1.a * l0.b))).map
        fun uvw => ⟨⟨uvw.1, uvw.2.1⟩, uvw.2.2, k3⟩ := by
  simp only [QLLSolver.appended, QLLSolver.qll_solver, Eq.index, QLLSolver.aargs, hd, if_false,
    List.nil_append]
  apply List.map_congr_left
  intro uvw _
  exact QLLSolver.to_solution_012 k3 uvw.1 uvw.2.1 uvw.2.2

/-- C5 fails as stated: for the point site at the origin and the lines `(0,1)-(1,1)`
and `(-2,0)-(-2,1)`, each with multiplier 1, `QLLSolver::solve` appends the solution
`(-1, 0)` with `t = -1`. -/
theorem C5_qll_nonnegative_t_counterexample :
    ∃ (s2 s3 : Site ℝ) (n : Int) (out : List (Solution ℝ)),
      LineSite Real.sqrt ⟨0, 1⟩ ⟨1, 1⟩ 1 0 = some s2 ∧
      LineSite Real.sqrt ⟨-2, 0⟩ ⟨-2, 1⟩ 1 0 = some s3 ∧
      QLLSolver.solve (fun x => x) (numeric.quadratic_roots Real.sqrt)
        (PointSite ⟨0, 0⟩ 0) 1 s2 1 s3 1 [] = some (n, out) ∧
      (∃ sol ∈ out, sol.p.x = -1 ∧ sol.p.y = 0 ∧ sol.t = -1 ∧ sol.t < 0) := by
  have e2 := LineSite_of_length ⟨0, 1⟩ ⟨1, 1⟩ 1 0 1 (by norm_num) (by norm_num)
  have e3 := LineSite_of_length ⟨-2, 0⟩ ⟨-2, 1⟩ 1 0 1 (by norm_num) (by norm_num)
  have he : QLLSolver.equations (PointSite (⟨0, 0⟩ : Point ℝ) 0) 1
      (Site.line ⟨false, (1 - 1) / 1, (0 - 1) / 1, (1 * 1 - 0 * 1) / 1, 1⟩ 0 ⟨0, 1⟩ ⟨1, 1⟩) 1
      (Site.line ⟨false, (1 - 0) / 1, (-2 - -2) / 1, (-2 * 0 - -2 * 1) / 1, 1⟩ 0 ⟨-2, 0⟩ ⟨-2, 1⟩) 1
      = some ([⟨false, 0, -1, 1, 1⟩, ⟨false, 1, 0, 2, 1⟩], ⟨true, 0, 0, 0, 0⟩) := by
    norm_num [QLLSolver.equations, PointSite, Site.is_linear, Site.isLine, Site.eqp_qd, Site.eq]
  have hs : Real.sqrt 16 = 4 := by
    rw [show (16 : ℝ) = 4 * 4 by norm_num]
    exact Real.sqrt_mul_self (by norm_num)
  have ha : QLLSolver.appended (fun x : ℝ => x) (numeric.quadratic_roots Real.sqrt)
      [⟨false, 0, -1, 1, 1⟩, ⟨false, 1, 0, 2, 1⟩] 0 1 2 ⟨true, 0, 0, 0, 0⟩ 1
      = [⟨⟨-1, 0⟩, -1, 1⟩, ⟨⟨3, -4⟩, -5, 1⟩] := by
    rw [QLLSolver.appended_012 _ _ _ _ _ _ (by norm_num)]
    norm_num [QLLSolver.qll_solve, numeric.quadratic_roots, hs]
  refine ⟨_, _, _, _, e2, e3,
    QLLSolver.solve_of_equations _ _ _ _ _ 1 1 1 [] _ _ _ he, ⟨⟨-1, 0⟩, -1, 1⟩, ?_, ?_⟩
  · rw [ha]
    simp
  · norm_num

/-- What each of the three shuffles appends, from the rows that `qll_solve` returns: one
solution for each row `(u, v, w)`, read as `(x, y, t) = (u, v, w)` in the shuffle
(0,1,2), as `(v, w, u)` in (2,0,1) and as `(w, u, v)` in (1,2,0), each with `k3`. -/
theorem QLLSolver.appended_rows (chop : K → K) (qr : K → K → K → List K)
    (l0 l1 quad : Eq K) (k3 : K) :
    (QLLSolver.appended chop qr [l0, l1] 0 1 2 quad k3 =
      (QLLSolver.rows chop qr l0.a l0.b l0.k l0.c l1.a l1.b l1.k l1.c
        1 quad.a 1 quad.b (-1) quad.k quad.c).map fun r => ⟨⟨r.1, r.2.1⟩, r.2.2, k3⟩) ∧
    (QLLSolver.appended chop qr [l0, l1] 2 0 1 quad k3 =
      (QLLSolver.rows chop qr l0.k l0.a l0.b l0.c l1.k l1.a l1.b l1.c
        (-1) quad.k 1 quad.a 1 quad.b quad.c).map fun r => ⟨⟨r.2.1, r.2.2⟩, r.1, k3⟩) ∧
    (QLLSolver.appended chop qr [l0, l1] 1 2 0 quad k3 =
      (QLLSolver.rows chop qr l0.b l0.k l0.a l0.c l1.b l1.k l1.a l1.c
        1 quad.b (-1) quad.k 1 quad.a quad.c).map fun r => ⟨⟨r.2.2, r.1⟩, r.2.1, k3⟩) := by
  refine ⟨?_, ?_, ?_⟩
  · simp only [QLLSolver.appended, QLLSolver.qll_solver, QLLSolver.rows, Eq.index,
      QLLSolver.aargs]
    split_ifs
    · simp
    · simp only [List.nil_append]
      apply List.map_congr_left
      intro r _
      simp [QLLSolver.to_solution, QLLSolver.set_row]
  · simp only [QLLSolver.appended, QLLSolver.qll_solver, QLLSolver.rows, Eq.index,
      QLLSolver.aargs]
    split_ifs
    · simp
    · simp only [List.nil_append]
      apply List.map_congr_left
      intro r _
      simp [QLLSolver.to_solution, QLLSolver.set_row]
  · simp only [QLLSolver.appended, QLLSolver.qll_solver, QLLSolver.rows, Eq.index,
      QLLSolver.aargs]
    split_ifs
    · simp
    · simp only [List.nil_append]
      apply List.map_congr_left
      intro r _
      simp [QLLSolver.to_solution, QLLSolver.set_row]

/-- C5, as amended: `QLLSolver::solve` does not test the sign of `t`. On a site triple
with a non-line site it returns the number of solutions on exit, and these are the
solutions on entry followed by what the three shuffles append, in the order (0,1,2),
(2,0,1), (1,2,0): a shuffle whose determinant `d` is zero appends nothing, and a
shuffle whose `d` is not zero appends one Solution, with the caller's `k3`, for every
row `(u, v, w)` that `qll_solve` returns (one row for each root `w` that
`quadratic_roots` returns), read as `(x, y, t) = (u, v, w)` in the first shuffle,
`(v, w, u)` in the second and `(w, u, v)` in the third, whatever the sign of `t`. -/
theorem C5_qll_no_sign_filter (chop : K → K) (qr : K → K → K → List K)
    (s1 s2 s3 : Site K) (k1 k2 k3 : K) (slns : List (Solution K))
    (hq : ¬ (s1.isLine = true ∧ s2.isLine = true ∧ s3.isLine = true)) :
    ∃ l0 l1 quad0 out,
      QLLSolver.equations s1 k1 s2 k2 s3 k3 = some ([l0, l1], quad0) ∧
      QLLSolver.solve chop qr s1 k1 s2 k2 s3 k3 slns = some ((out.length : Int), out) ∧
      out = slns
        ++ (QLLSolver.rows chop qr l0.a l0.b l0.k l0.c l1.a l1.b l1.k l1.c
            1 quad0.a 1 quad0.b (-1) quad0.k quad0.c).map
              (fun r => (⟨⟨r.1, r.2.1⟩, r.2.2, k3⟩ : Solution K))
        ++ (QLLSolver.rows chop qr l0.k l0.a l0.b l0.c l1.k l1.a l1.b l1.c
            (-1) quad0.k 1 quad0.a 1 quad0.b quad0.c).map
              (fun r => (⟨⟨r.2.1, r.2.2⟩, r.1, k3⟩ : Solution K))
        ++ (QLLSolver.rows chop qr l0.b l0.k l0.a l0.c l1.b l1.k l1.a l1.c
            1 quad0.b (-1) quad0.k 1 quad0.a quad0.c).map
              (fun r => (⟨⟨r.2.2, r.1⟩, r.2.1, k3⟩ : Solution K)) ∧
      (∀ ai bi ki ci aj bj kj cj a0 b0 c0 d0 e0 f0 g0 : K, chop (ai * bj - aj * bi) ≠ 0 →
        QLLSolver.rows chop qr ai bi ki ci aj bj kj cj a0 b0 c0 d0 e0 f0 g0
          = (qr
              (chop (a0 * ((bi * kj - bj * ki) / chop (ai * bj - aj * bi)
                  * ((bi * kj - bj * ki) / chop (ai * bj - aj * bi)))
                + c0 * (-(ai * kj - aj * ki) / chop (ai * bj - aj * bi)
                  * (-(ai * kj - aj * ki) / chop (ai * bj - aj * bi))) + e0))
              (chop (2 * a0 * ((bi * kj - bj * ki) / chop (ai * bj - aj * bi))
                  * ((bi * cj - bj * ci) / chop (ai * bj - aj * bi))
                + 2 * (-(ai * kj - aj * ki) / chop (ai * bj - aj * bi))
                  * (-(ai * cj - aj * ci) / chop (ai * bj - aj * bi)) * c0
                + (bi * kj - bj * ki) / chop (ai * bj - aj * bi) * b0
                + -(ai * kj - aj * ki) / chop (ai * bj - aj * bi) * d0 + f0))
              (a0 * ((bi * cj - bj * ci) / chop (ai * bj - aj * bi)
                  * ((bi * cj - bj * ci) / chop (ai * bj - aj * bi)))
                + c0 * (-(ai * cj - aj * ci) / chop (ai * bj - aj * bi)
                  * (-(ai * cj - aj * ci) / chop (ai * bj - aj * bi)))
                + b0 * ((bi * cj - bj * ci) / chop (ai * bj - aj * bi))
                + -(ai * cj - aj * ci) / chop (ai * bj - aj * bi) * d0 + g0)).map
            fun w => ((bi * kj - bj * ki) / chop (ai * bj - aj * bi) * w
                + (bi * cj - bj * ci) / chop (ai * bj - aj * bi),
              -(ai * kj - aj * ki) / chop (ai * bj - aj * bi) * w
                + -(ai * cj - aj * ci) / chop (ai * bj - aj * bi), w)) := by
  have hex : ∃ l0 l1 quad0, QLLSolver.equations s1 k1 s2 k2 s3 k3 = some ([l0, l1], quad0) := by
    rcases QLLSolver.equations_cases s1 s2 s3 k1 k2 k3 hq with
      ⟨_, _, _, e⟩ | ⟨_, _, _, e⟩ | ⟨_, _, _, e⟩ | ⟨_, _, _, e⟩ |
      ⟨_, _, _, e⟩ | ⟨_, _, _, e⟩ | ⟨_, _, _, e⟩ <;> exact ⟨_, _, _, e⟩
  obtain ⟨l0, l1, quad0, he⟩ := hex
  obtain ⟨r1, r2, r3⟩ := QLLSolver.appended_rows chop qr l0 l1 quad0 k3
  refine ⟨l0, l1, quad0, _, he, ?_, rfl, ?_⟩
  · rw [QLLSolver.solve_of_equations chop qr s1 s2 s3 k1 k2 k3 slns l0 l1 quad0 he, r1, r2, r3]
  · intro ai bi ki ci aj bj kj cj a0 b0 c0 d0 e0 f0 g0 hd
    simp only [QLLSolver.rows, hd, if_false, QLLSolver.qll_solve]

/-- The hypothesis of the amended C5 holds for the point site at the origin with the
lines `(0,1)-(1,1)` and `(-2,0)-(-2,1)`, where the first shuffle appends the solutions
`(-1, 0)` with `t = -1` and `(3, -4)` with `t = -5`. -/
theorem C5_qll_no_sign_filter_witness :
    ¬ ((PointSite (⟨0, 0⟩ : Point ℝ) 0).isLine = true ∧
      (Site.line (⟨false, 0, -1, 1, 1⟩ : Eq ℝ) 0 ⟨0, 1⟩ ⟨1, 1⟩).isLine = true ∧
      (Site.line (⟨false, 1, 0, 2, 1⟩ : Eq ℝ) 0 ⟨-2, 0⟩ ⟨-2, 1⟩).isLine = true) ∧
    ∃ out, QLLSolver.solve (fun x => x) (numeric.quadratic_roots Real.sqrt)
        (PointSite (⟨0, 0⟩ : Point ℝ) 0) 1
        (Site.line ⟨false, 0, -1, 1, 1⟩ 0 ⟨0, 1⟩ ⟨1, 1⟩) 1
        (Site.line ⟨false, 1, 0, 2, 1⟩ 0 ⟨-2, 0⟩ ⟨-2, 1⟩) 1 [] = some ((out.length : Int), out) := by
  refine ⟨by simp [PointSite, Site.isLine], ?_⟩
  obtain ⟨_, _, _, out, _, h, _⟩ := C5_qll_no_sign_filter (fun x : ℝ => x)
    (numeric.quadratic_roots Real.sqrt)
    (PointSite (⟨0, 0⟩ : Point ℝ) 0) (Site.line ⟨false, 0, -1, 1, 1⟩ 0 ⟨0, 1⟩ ⟨1, 1⟩)
    (Site.line ⟨false, 1, 0, 2, 1⟩ 0 ⟨-2, 0⟩ ⟨-2, 1⟩) 1 1 1 []
    (by simp [PointSite, Site.isLine])
  exact ⟨out, h⟩

/-! ### Relabelling the sites of the quadratic-linear-linear solver -/

/-- The rows of a shuffle do not change when the two linear equations are replaced by
two independent combinations of them and a combination of them is added to the
quadratic equation, two combinations of determinant 1 or -1. Here `chop` returns its
argument or zero and commutes with the change of sign. -/
theorem QLLSolver.rows_invariant (chop : K → K) (qr : K → K → K → List K)
    (hc1 : ∀ x, chop x = x ∨ chop x = 0) (hc2 : ∀ x, chop (-x) = -chop x)
    (ai bi ki ci aj bj kj cj a0 b0 c0 d0 e0 f0 g0 : K)
    (ai' bi' ki' ci' aj' bj' kj' cj' b0' d0' f0' g0' : K)
    (m11 m12 m21 m22 al be : K) (hm : m11 * m22 - m12 * m21 = 1 ∨ m11 * m22 - m12 * m21 = -1)
    (hai : ai' = m11 * ai + m12 * aj) (hbi : bi' = m11 * bi + m12 * bj)
    (hki : ki' = m11 * ki + m12 * kj) (hci : ci' = m11 * ci + m12 * cj)
    (haj : aj' = m21 * ai + m22 * aj) (hbj : bj' = m21 * bi + m22 * bj)
    (hkj : kj' = m21 * ki + m22 * kj) (hcj : cj' = m21 * ci + m22 * cj)
    (hb0 : b0' = b0 + al * ai + be * aj) (hd0 : d0' = d0 + al * bi + be * bj)
    (hf0 : f0' = f0 + al * ki + be * kj) (hg0 : g0' = g0 + al * ci + be * cj) :
    QLLSolver.rows chop qr ai' bi' ki' ci' aj' bj' kj' cj' a0 b0' c0 d0' e0 f0' g0' =
      QLLSolver.rows chop qr ai bi ki ci aj bj kj cj a0 b0 c0 d0 e0 f0 g0 := by
  have hdet : ai' * bj' - aj' * bi' = (m11 * m22 - m12 * m21) * (ai * bj - aj * bi) := by
    subst hai hbi haj hbj
    ring
  have hm0 : m11 * m22 - m12 * m21 ≠ 0 := by
    rcases hm with h | h <;> rw [h] <;> norm_num
  have hch : chop (ai' * bj' - aj' * bi')
      = (m11 * m22 - m12 * m21) * chop (ai * bj - aj * bi) := by
    rw [hdet]
    rcases hm with h | h <;> rw [h]
    · rw [one_mul, one_mul]
    · rw [neg_one_mul, neg_one_mul, hc2]
  simp only [QLLSolver.rows]
  by_cases hc : chop (ai * bj - aj * bi) = 0
  · have hc' : chop (ai' * bj' - aj' * bi') = 0 := by rw [hch, hc, mul_zero]
    simp only [hc, hc', if_true]
  · have hc' : chop (ai' * bj' - aj' * bi') ≠ 0 := by
      rw [hch]
      exact mul_ne_zero hm0 hc
    have hD : chop (ai * bj - aj * bi) = ai * bj - aj * bi := (hc1 _).resolve_right hc
    have hD' : chop (ai' * bj' - aj' * bi') = ai' * bj' - aj' * bi' :=
      (hc1 _).resolve_right hc'
    simp only [hc, hc', if_false]
    rw [hD, hD']
    have hd : ai * bj - aj * bi ≠ 0 := by
      rw [← hD]
      exact hc
    have hd' : ai' * bj' - aj' * bi' ≠ 0 := by
      rw [← hD']
      exact hc'
    have e1 : (bi' * kj' - bj' * ki') / (ai' * bj' - aj' * bi')
        = (bi * kj - bj * ki) / (ai * bj - aj * bi) := by
      rw [div_eq_div_iff hd' hd, hdet]
      subst hbi hki hbj hkj
      ring
    have e2 : (bi' * cj' - bj' * ci') / (ai' * bj' - aj' * bi')
        = (bi * cj - bj * ci) / (ai * bj - aj * bi) := by
      rw [div_eq_div_iff hd' hd, hdet]
      subst hbi hci hbj hcj
      ring
    have e3 : -(ai' * kj' - aj' * ki') / (ai' * bj' - aj' * bi')
        = -(ai * kj - aj * ki) / (ai * bj - aj * bi) := by
      rw [div_eq_div_iff hd' hd, hdet]
      subst hai hki haj hkj
      ring
    have e4 : -(ai' * cj' - aj' * ci') / (ai' * bj' - aj' * bi')
        = -(ai * cj - aj * ci) / (ai * bj - aj * bi) := by
      rw [div_eq_div_iff hd' hd, hdet]
      subst hai hci haj hcj
      ring
    rw [e1, e2, e3, e4]
    simp only [QLLSolver.qll_solve]
    have eb : 2 * a0 * ((bi * kj - bj * ki) / (ai * bj - aj * bi))
          * ((bi * cj - bj * ci) / (ai * bj - aj * bi))
        + 2 * (-(ai * kj - aj * ki) / (ai * bj - aj * bi))
          * (-(ai * cj - aj * ci) / (ai * bj - aj * bi)) * c0
        + (bi * kj - bj * ki) / (ai * bj - aj * bi) * b0'
        + -(ai * kj - aj * ki) / (ai * bj - aj * bi) * d0' + f0'
        = 2 * a0 * ((bi * kj - bj * ki) / (ai * bj - aj * bi))
          * ((bi * cj - bj * ci) / (ai * bj - aj * bi))
        + 2 * (-(ai * kj - aj * ki) / (ai * bj - aj * bi))
          * (-(ai * cj - aj * ci) / (ai * bj - aj * bi)) * c0
        + (bi * kj - bj * ki) / (ai * bj - aj * bi) * b0
        + -(ai * kj - aj * ki) / (ai * bj - aj * bi) * d0 + f0 := by
      subst hb0 hd0 hf0
      field_simp
      ring
    have ec : a0 * ((bi * cj - bj * ci) / (ai * bj - aj * bi)
          * ((bi * cj - bj * ci) / (ai * bj - aj * bi)))
        + c0 * (-(ai * cj - aj * ci) / (ai * bj - aj * bi)
          * (-(ai * cj - aj * ci) / (ai * bj - aj * bi)))
        + b0' * ((bi * cj - bj * ci) / (ai * bj - aj * bi))
        + -(ai * cj - aj * ci) / (ai * bj - aj * bi) * d0' + g0'
        = a0 * ((bi * cj - bj * ci) / (ai * bj - aj * bi)
          * ((bi * cj - bj * ci) / (ai * bj - aj * bi)))
        + c0 * (-(ai * cj - aj * ci) / (ai * bj - aj * bi)
          * (-(ai * cj - aj * ci) / (ai * bj - aj * bi)))
        + b0 * ((bi * cj - bj * ci) / (ai * bj - aj * bi))
        + -(ai * cj - aj * ci) / (ai * bj - aj * bi) * d0 + g0 := by
      subst hb0 hd0 hg0
      field_simp
      ring
    rw [eb, ec]

/-- The `(x, y, t)` that each of the three shuffles appends, from the rows. -/
theorem QLLSolver.xyt_rows (chop : K → K) (qr : K → K → K → List K)
    (l0 l1 quad : Eq K) (k3 : K) :
    ((QLLSolver.appended chop qr [l0, l1] 0 1 2 quad k3).map Solution.xyt =
      (QLLSolver.rows chop qr l0.a l0.b l0.k l0.c l1.a l1.b l1.k l1.c
        1 quad.a 1 quad.b (-1) quad.k quad.c).map fun r => (r.1, r.2.1, r.2.2)) ∧
    ((QLLSolver.appended chop qr [l0, l1] 2 0 1 quad k3).map Solution.xyt =
      (QLLSolver.rows chop qr l0.k l0.a l0.b l0.c l1.k l1.a l1.b l1.c
        (-1) quad.k 1 quad.a 1 quad.b quad.c).map fun r => (r.2.1, r.2.2, r.1)) ∧
    ((QLLSolver.appended chop qr [l0, l1] 1 2 0 quad k3).map Solution.xyt =
      (QLLSolver.rows chop qr l0.b l0.k l0.a l0.c l1.b l1.k l1.a l1.c
        1 quad.b (-1) quad.k 1 quad.a quad.c).map fun r => (r.2.2, r.1, r.2.1)) := by
  refine ⟨?_, ?_, ?_⟩
  · simp only [QLLSolver.appended, QLLSolver.qll_solver, QLLSolver.rows, Eq.index,
      QLLSolver.aargs]
    split_ifs
    · simp
    · simp only [List.nil_append, List.map_map]
      apply List.map_congr_left
      intro r _
      simp [QLLSolver.to_solution, QLLSolver.set_row, Solution.xyt]
  · simp only [QLLSolver.appended, QLLSolver.qll_solver, QLLSolver.rows, Eq.index,
      QLLSolver.aargs]
    split_ifs
    · simp
    · simp only [List.nil_append, List.map_map]
      apply List.map_congr_left
      intro r _
      simp [QLLSolver.to_solution, QLLSolver.set_row, Solution.xyt]
  · simp only [QLLSolver.appended, QLLSolver.qll_solver, QLLSolver.rows, Eq.index,
      QLLSolver.aargs]
    split_ifs
    · simp
    · simp only [List.nil_append, List.map_map]
      apply List.map_congr_left
      intro r _
      simp [QLLSolver.to_solution, QLLSolver.set_row, Solution.xyt]

/-- The `(x, y, t)` that a shuffle appends do not depend on `k3`. -/
theorem QLLSolver.appended_xyt (chop : K → K) (qr : K → K → K → List K)
    (l0 l1 quad : Eq K) (k3 : K) (xi yi ti : Nat)
    (h : (xi, yi, ti) = (0, 1, 2) ∨ (xi, yi, ti) = (2, 0, 1) ∨ (xi, yi, ti) = (1, 2, 0)) :
    (QLLSolver.appended chop qr [l0, l1] xi yi ti quad k3).map Solution.xyt
      = QLLSolver.xyt chop qr [l0, l1] xi yi ti quad := by
  have h1 := QLLSolver.xyt_rows chop qr l0 l1 quad k3
  have h2 := QLLSolver.xyt_rows chop qr l0 l1 quad 0
  simp only [Prod.mk.injEq] at h
  rcases h with h | h | h
  all_goals obtain ⟨rfl, rfl, rfl⟩ := h
  · rw [QLLSolver.xyt, h1.1, h2.1]
  · rw [QLLSolver.xyt, h1.2.1, h2.2.1]
  · rw [QLLSolver.xyt, h1.2.2, h2.2.2]

/-- The `(x, y, t)` of each shuffle do not change when the two linear equations are
replaced by two independent combinations of them and a combination of them is added
to the quadratic equation, as in `rows_invariant`. -/
theorem QLLSolver.xyt_invariant (chop : K → K) (qr : K → K → K → List K)
    (hc1 : ∀ x, chop x = x ∨ chop x = 0) (hc2 : ∀ x, chop (-x) = -chop x)
    (l0 l1 quad l0' l1' quad' : Eq K)
    (m11 m12 m21 m22 al be : K)
    (hm : m11 * m22 - m12 * m21 = 1 ∨ m11 * m22 - m12 * m21 = -1)
    (h0a : l0'.a = m11 * l0.a + m12 * l1.a) (h0b : l0'.b = m11 * l0.b + m12 * l1.b)
    (h0k : l0'.k = m11 * l0.k + m12 * l1.k) (h0c : l0'.c = m11 * l0.c + m12 * l1.c)
    (h1a : l1'.a = m21 * l0.a + m22 * l1.a) (h1b : l1'.b = m21 * l0.b + m22 * l1.b)
    (h1k : l1'.k = m21 * l0.k + m22 * l1.k) (h1c : l1'.c = m21 * l0.c + m22 * l1.c)
    (hqa : quad'.a = quad.a + al * l0.a + be * l1.a)
    (hqb : quad'.b = quad.b + al * l0.b + be * l1.b)
    (hqk : quad'.k = quad.k + al * l0.k + be * l1.k)
    (hqc : quad'.c = quad.c + al * l0.c + be * l1.c) :
    QLLSolver.xyt chop qr [l0', l1'] 0 1 2 quad' = QLLSolver.xyt chop qr [l0, l1] 0 1 2 quad ∧
    QLLSolver.xyt chop qr [l0', l1'] 2 0 1 quad' = QLLSolver.xyt chop qr [l0, l1] 2 0 1 quad ∧
    QLLSolver.xyt chop qr [l0', l1'] 1 2 0 quad' = QLLSolver.xyt chop qr [l0, l1] 1 2 0 quad := by
  have h := QLLSolver.xyt_rows chop qr l0 l1 quad 0
  have h' := QLLSolver.xyt_rows chop qr l0' l1' quad' 0
  refine ⟨?_, ?_, ?_⟩
  · rw [QLLSolver.xyt, QLLSolver.xyt, h.1, h'.1]
    rw [QLLSolver.rows_invariant chop qr hc1 hc2 l0.a l0.b l0.k l0.c l1.a l1.b l1.k l1.c
      1 quad.a 1 quad.b (-1) quad.k quad.c l0'.a l0'.b l0'.k l0'.c l1'.a l1'.b l1'.k l1'.c
      quad'.a quad'.b quad'.k quad'.c m11 m12 m21 m22 al be hm
      h0a h0b h0k h0c h1a h1b h1k h1c hqa hqb hqk hqc]
  · rw [QLLSolver.xyt, QLLSolver.xyt, h.2.1, h'.2.1]
    rw [QLLSolver.rows_invariant chop qr hc1 hc2 l0.k l0.a l0.b l0.c l1.k l1.a l1.b l1.c
      (-1) quad.k 1 quad.a 1 quad.b quad.c l0'.k l0'.a l0'.b l0'.c l1'.k l1'.a l1'.b l1'.c
      quad'.k quad'.a quad'.b quad'.c m11 m12 m21 m22 al be hm
      h0k h0a h0b h0c h1k h1a h1b h1c hqk hqa hqb hqc]
  · rw [QLLSolver.xyt, QLLSolver.xyt, h.2.2, h'.2.2]
    rw [QLLSolver.rows_invariant chop qr hc1 hc2 l0.b l0.k l0.a l0.c l1.b l1.k l1.a l1.c
      1 quad.b (-1) quad.k 1 quad.a quad.c l0'.b l0'.k l0'.a l0'.c l1'.b l1'.k l1'.a l1'.c
      quad'.b quad'.k quad'.a quad'.c m11 m12 m21 m22 al be hm
      h0b h0k h0a h0c h1b h1k h1a h1c hqb hqk hqa hqc]

/-- The `(x, y, t)` that `QLLSolver::solve` returns, from the equations. -/
theorem QLLSolver.solve_xyt_of_equations (chop : K → K) (qr : K → K → K → List K)
    (s1 s2 s3 : Site K) (k1 k2 k3 : K) (slns : List (Solution K)) (l0 l1 quad0 : Eq K)
    (he : QLLSolver.equations s1 k1 s2 k2 s3 k3 = some ([l0, l1], quad0)) :
    QLLSolver.solve_xyt chop qr s1 k1 s2 k2 s3 k3 slns =
      some (((slns.map Solution.xyt ++ QLLSolver.xyt chop qr [l0, l1] 0 1 2 quad0
          ++ QLLSolver.xyt chop qr [l0, l1] 2 0 1 quad0
          ++ QLLSolver.xyt chop qr [l0, l1] 1 2 0 quad0).length : Int),
        slns.map Solution.xyt ++ QLLSolver.xyt chop qr [l0, l1] 0 1 2 quad0
          ++ QLLSolver.xyt chop qr [l0, l1] 2 0 1 quad0
          ++ QLLSolver.xyt chop qr [l0, l1] 1 2 0 quad0) := by
  have hl : (slns ++ QLLSolver.appended chop qr [l0, l1] 0 1 2 quad0 k3
      ++ QLLSolver.appended chop qr [l0, l1] 2 0 1 quad0 k3
      ++ QLLSolver.appended chop qr [l0, l1] 1 2 0 quad0 k3).map Solution.xyt
      = slns.map Solution.xyt ++ QLLSolver.xyt chop qr [l0, l1] 0 1 2 quad0
        ++ QLLSolver.xyt chop qr [l0, l1] 2 0 1 quad0
        ++ QLLSolver.xyt chop qr [l0, l1] 1 2 0 quad0 := by
    simp only [List.map_append,
      QLLSolver.appended_xyt chop qr l0 l1 quad0 k3 0 1 2 (Or.inl rfl),
      QLLSolver.appended_xyt chop qr l0 l1 quad0 k3 2 0 1 (Or.inr (Or.inl rfl)),
      QLLSolver.appended_xyt chop qr l0 l1 quad0 k3 1 2 0 (Or.inr (Or.inr rfl))]
  rw [QLLSolver.solve_xyt,
    QLLSolver.solve_of_equations chop qr s1 s2 s3 k1 k2 k3 slns l0 l1 quad0 he, ← hl]
  simp only [Option.map_some', List.length_map]

/-- On three line sites `QLLSolver::solve` fails its assertion `!quads.empty()`. -/
theorem QLLSolver.solve_xyt_all_lines (chop : K → K) (qr : K → K → K → List K)
    (s1 s2 s3 : Site K) (k1 k2 k3 : K) (slns : List (Solution K))
    (h1 : s1.isLine = true) (h2 : s2.isLine = true) (h3 : s3.isLine = true) :
    QLLSolver.solve_xyt chop qr s1 k1 s2 k2 s3 k3 slns = none := by
  simp [QLLSolver.solve_xyt, QLLSolver.solve, QLLSolver.equations, Site.is_linear, h1, h2, h3]

/-- Two calls whose equations are related as in `xyt_invariant` return the same
`(x, y, t)`. -/
theorem QLLSolver.solve_xyt_congr (chop : K → K) (qr : K → K → K → List K)
    (hc1 : ∀ x, chop x = x ∨ chop x = 0) (hc2 : ∀ x, chop (-x) = -chop x)
    (s1 s2 s3 t1 t2 t3 : Site K) (k1 k2 k3 j1 j2 j3 : K) (slns : List (Solution K))
    (l0 l1 quad l0' l1' quad' : Eq K)
    (he : QLLSolver.equations s1 k1 s2 k2 s3 k3 = some ([l0, l1], quad))
    (he' : QLLSolver.equations t1 j1 t2 j2 t3 j3 = some ([l0', l1'], quad'))
    (m11 m12 m21 m22 al be : K)
    (hm : m11 * m22 - m12 * m21 = 1 ∨ m11 * m22 - m12 * m21 = -1)
    (h0a : l0'.a = m11 * l0.a + m12 * l1.a) (h0b : l0'.b = m11 * l0.b + m12 * l1.b)
    (h0k : l0'.k = m11 * l0.k + m12 * l1.k) (h0c : l0'.c = m11 * l0.c + m12 * l1.c)
    (h1a : l1'.a = m21 * l0.a + m22 * l1.a) (h1b : l1'.b = m21 * l0.b + m22 * l1.b)
    (h1k : l1'.k = m21 * l0.k + m22 * l1.k) (h1c : l1'.c = m21 * l0.c + m22 * l1.c)
    (hqa : quad'.a = quad.a + al * l0.a + be * l1.a)
    (hqb : quad'.b = quad.b + al * l0.b + be * l1.b)
    (hqk : quad'.k = quad.k + al * l0.k + be * l1.k)
    (hqc : quad'.c = quad.c + al * l0.c + be * l1.c) :
    QLLSolver.solve_xyt chop qr t1 j1 t2 j2 t3 j3 slns
      = QLLSolver.solve_xyt chop qr s1 k1 s2 k2 s3 k3 slns := by
  obtain ⟨x1, x2, x3⟩ := QLLSolver.xyt_invariant chop qr hc1 hc2 l0 l1 quad l0' l1' quad'
    m11 m12 m21 m22 al be hm h0a h0b h0k h0c h1a h1b h1k h1c hqa hqb hqk hqc
  rw [QLLSolver.solve_xyt_of_equations chop qr s1 s2 s3 k1 k2 k3 slns l0 l1 quad he,
    QLLSolver.solve_xyt_of_equations chop qr t1 t2 t3 j1 j2 j3 slns l0' l1' quad' he',
    x1, x2, x3]

/-- Exchanging the first two (site, k) pairs leaves the `(x, y, t)` unchanged. -/
theorem QLLSolver.solve_xyt_swap12 (chop : K → K) (qr : K → K → K → List K)
    (hc1 : ∀ x, chop x = x ∨ chop x = 0) (hc2 : ∀ x, chop (-x) = -chop x)
    (s1 s2 s3 : Site K) (k1 k2 k3 : K)
    (slns : List (Solution K)) :
    QLLSolver.solve_xyt chop qr s2 k2 s1 k1 s3 k3 slns
      = QLLSolver.solve_xyt chop qr s1 k1 s2 k2 s3 k3 slns := by
  by_cases hq : s1.isLine = true ∧ s2.isLine = true ∧ s3.isLine = true
  · rw [QLLSolver.solve_xyt_all_lines chop qr s1 s2 s3 k1 k2 k3 slns hq.1 hq.2.1 hq.2.2,
      QLLSolver.solve_xyt_all_lines chop qr s2 s1 s3 k2 k1 k3 slns hq.2.1 hq.1 hq.2.2]
  · have hq' : ¬ (s2.isLine = true ∧ s1.isLine = true ∧ s3.isLine = true) :=
      fun h => hq ⟨h.2.1, h.1, h.2.2⟩
    rcases QLLSolver.equations_cases s1 s2 s3 k1 k2 k3 hq with
      ⟨g1, g2, g3, e⟩ | ⟨g1, g2, g3, e⟩ | ⟨g1, g2, g3, e⟩ | ⟨g1, g2, g3, e⟩ |
      ⟨g1, g2, g3, e⟩ | ⟨g1, g2, g3, e⟩ | ⟨g1, g2, g3, e⟩ <;>
    rcases QLLSolver.equations_cases s2 s1 s3 k2 k1 k3 hq' with
      ⟨f1, f2, f3, e'⟩ | ⟨f1, f2, f3, e'⟩ | ⟨f1, f2, f3, e'⟩ | ⟨f1, f2, f3, e'⟩ |
      ⟨f1, f2, f3, e'⟩ | ⟨f1, f2, f3, e'⟩ | ⟨f1, f2, f3, e'⟩ <;>
    first
    | (exfalso; simp_all; done)
    | (refine QLLSolver.solve_xyt_congr chop qr hc1 hc2 _ _ _ _ _ _ _ _ _ _ _ _ slns
        _ _ _ _ _ _ e e' 1 0 0 1 0 0 (by norm_num) ?_ ?_ ?_ ?_ ?_ ?_ ?_ ?_ ?_ ?_ ?_ ?_ <;>
        (try simp only [Eq.sub]) <;> ring1)
    | (refine QLLSolver.solve_xyt_congr chop qr hc1 hc2 _ _ _ _ _ _ _ _ _ _ _ _ slns
        _ _ _ _ _ _ e e' 0 1 1 0 0 0 (by norm_num) ?_ ?_ ?_ ?_ ?_ ?_ ?_ ?_ ?_ ?_ ?_ ?_ <;>
        (try simp only [Eq.sub]) <;> ring1)
    | (refine QLLSolver.solve_xyt_congr chop qr hc1 hc2 _ _ _ _ _ _ _ _ _ _ _ _ slns
        _ _ _ _ _ _ e e' 1 0 0 (-1) 0 1 (by norm_num) ?_ ?_ ?_ ?_ ?_ ?_ ?_ ?_ ?_ ?_ ?_ ?_ <;>
        (try simp only [Eq.sub]) <;> ring1)
    | (refine QLLSolver.solve_xyt_congr chop qr hc1 hc2 _ _ _ _ _ _ _ _ _ _ _ _ slns
        _ _ _ _ _ _ e e' (-1) 0 (-1) 1 1 0 (by norm_num) ?_ ?_ ?_ ?_ ?_ ?_ ?_ ?_ ?_ ?_ ?_ ?_ <;>
        (try simp only [Eq.sub]) <;> ring1)

/-- Exchanging the last two (site, k) pairs leaves the `(x, y, t)` unchanged. -/
theorem QLLSolver.solve_xyt_swap23 (chop : K → K) (qr : K → K → K → List K)
    (hc1 : ∀ x, chop x = x ∨ chop x = 0) (hc2 : ∀ x, chop (-x) = -chop x)
    (s1 s2 s3 : Site K) (k1 k2 k3 : K)
    (slns : List (Solution K)) :
    QLLSolver.solve_xyt chop qr s1 k1 s3 k3 s2 k2 slns
      = QLLSolver.solve_xyt chop qr s1 k1 s2 k2 s3 k3 slns := by
  by_cases hq : s1.isLine = true ∧ s2.isLine = true ∧ s3.isLine = true
  · rw [QLLSolver.solve_xyt_all_lines chop qr s1 s2 s3 k1 k2 k3 slns hq.1 hq.2.1 hq.2.2,
      QLLSolver.solve_xyt_all_lines chop qr s1 s3 s2 k1 k3 k2 slns hq.1 hq.2.2 hq.2.1]
  · have hq' : ¬ (s1.isLine = true ∧ s3.isLine = true ∧ s2.isLine = true) :=
      fun h => hq ⟨h.1, h.2.2, h.2.1⟩
    rcases QLLSolver.equations_cases s1 s2 s3 k1 k2 k3 hq with
      ⟨g1, g2, g3, e⟩ | ⟨g1, g2, g3, e⟩ | ⟨g1, g2, g3, e⟩ | ⟨g1, g2, g3, e⟩ |
      ⟨g1, g2, g3, e⟩ | ⟨g1, g2, g3, e⟩ | ⟨g1, g2, g3, e⟩ <;>
    rcases QLLSolver.equations_cases s1 s3 s2 k1 k3 k2 hq' with
      ⟨f1, f2, f3, e'⟩ | ⟨f1, f2, f3, e'⟩ | ⟨f1, f2, f3, e'⟩ | ⟨f1, f2, f3, e'⟩ |
      ⟨f1, f2, f3, e'⟩ | ⟨f1, f2, f3, e'⟩ | ⟨f1, f2, f3, e'⟩ <;>
    first
    | (exfalso; simp_all; done)
    | (refine QLLSolver.solve_xyt_congr chop qr hc1 hc2 _ _ _ _ _ _ _ _ _ _ _ _ slns
        _ _ _ _ _ _ e e' 1 0 0 1 0 0 (by norm_num) ?_ ?_ ?_ ?_ ?_ ?_ ?_ ?_ ?_ ?_ ?_ ?_ <;>
        (try simp only [Eq.sub]) <;> ring1)
    | (refine QLLSolver.solve_xyt_congr chop qr hc1 hc2 _ _ _ _ _ _ _ _ _ _ _ _ slns
        _ _ _ _ _ _ e e' 0 1 1 0 0 0 (by norm_num) ?_ ?_ ?_ ?_ ?_ ?_ ?_ ?_ ?_ ?_ ?_ ?_ <;>
        (try simp only [Eq.sub]) <;> ring1)
    | (refine QLLSolver.solve_xyt_congr chop qr hc1 hc2 _ _ _ _ _ _ _ _ _ _ _ _ slns
        _ _ _ _ _ _ e e' 1 0 0 (-1) 0 1 (by norm_num) ?_ ?_ ?_ ?_ ?_ ?_ ?_ ?_ ?_ ?_ ?_ ?_ <;>
        (try simp only [Eq.sub]) <;> ring1)
/-- A call of `QLLSolver::solve` that returns keeps the solutions on entry and appends
solutions that all carry its `k3`. -/
theorem QLLSolver.solve_k3 (chop : K → K) (qr : K → K → K → List K)
    (s1 s2 s3 : Site K) (k1 k2 k3 : K) (slns : List (Solution K)) (n : Int)
    (out : List (Solution K))
    (h : QLLSolver.solve chop qr s1 k1 s2 k2 s3 k3 slns = some (n, out)) :
    ∃ app, out = slns ++ app ∧ ∀ sol ∈ app, sol.k3 = k3 := by
  by_cases hq : s1.isLine = true ∧ s2.isLine = true ∧ s3.isLine = true
  · simp [QLLSolver.solve, QLLSolver.equations, Site.is_linear, hq.1, hq.2.1, hq.2.2] at h
  · have hex : ∃ l0 l1 quad0,
        QLLSolver.equations s1 k1 s2 k2 s3 k3 = some ([l0, l1], quad0) := by
      rcases QLLSolver.equations_cases s1 s2 s3 k1 k2 k3 hq with
        ⟨_, _, _, e⟩ | ⟨_, _, _, e⟩ | ⟨_, _, _, e⟩ | ⟨_, _, _, e⟩ |
        ⟨_, _, _, e⟩ | ⟨_, _, _, e⟩ | ⟨_, _, _, e⟩ <;> exact ⟨_, _, _, e⟩
    obtain ⟨l0, l1, quad0, he⟩ := hex
    rw [QLLSolver.solve_of_equations chop qr s1 s2 s3 k1 k2 k3 slns l0 l1 quad0 he] at h
    simp only [Option.some.injEq, Prod.mk.injEq] at h
    refine ⟨QLLSolver.appended chop qr [l0, l1] 0 1 2 quad0 k3
      ++ QLLSolver.appended chop qr [l0, l1] 2 0 1 quad0 k3
      ++ QLLSolver.appended chop qr [l0, l1] 1 2 0 quad0 k3, ?_, ?_⟩
    · rw [← h.2]
      simp only [List.append_assoc]
    · intro sol hs
      simp only [List.mem_append] at hs
      rcases hs with (hs | hs) | hs <;>
        exact QLLSolver.appended_k3 chop qr l0 l1 quad0 k3 _ _ _ sol hs

/-- Two lists of solutions with the same `(x, y, t)` in the same order, all with the
same `k3`, are equal. -/
theorem Solution.list_ext {F : Type} (k : F) (l l' : List (Solution F))
    (h : l.map Solution.xyt = l'.map Solution.xyt)
    (hk : ∀ sol ∈ l, sol.k3 = k) (hk' : ∀ sol ∈ l', sol.k3 = k) : l = l' := by
  induction l generalizing l' with
  | nil =>
    cases l' with
    | nil => rfl
    | cons b t => simp at h
  | cons a t ih =>
    cases l' with
    | nil => simp at h
    | cons b t' =>
      simp only [List.map_cons, List.cons.injEq, Solution.xyt, Prod.mk.injEq] at h
      obtain ⟨⟨hx, hy, ht⟩, hrest⟩ := h
      have ha := hk a (List.mem_cons_self _ _)
      have hb := hk' b (List.mem_cons_self _ _)
      have hab : a = b := by
        cases a with
        | mk pa ta ka =>
          cases b with
          | mk pb tb kb =>
            cases pa
            cases pb
            simp only at hx hy ht ha hb
            subst hx hy ht ha hb
            rfl
      rw [hab, ih t' hrest (fun sol hs => hk sol (List.mem_cons_of_mem _ hs))
        (fun sol hs => hk' sol (List.mem_cons_of_mem _ hs))]

/-- Two calls of `QLLSolver::solve` with the same `k3` and the same solutions on entry
that return the same `(x, y, t)` return the same solutions. -/
theorem QLLSolver.solve_of_xyt (chop : K → K) (qr : K → K → K → List K)
    (s1 s2 s3 t1 t2 t3 : Site K) (k1 k2 k3 j1 j2 : K) (slns : List (Solution K))
    (h : QLLSolver.solve_xyt chop qr t1 j1 t2 j2 t3 k3 slns
      = QLLSolver.solve_xyt chop qr s1 k1 s2 k2 s3 k3 slns) :
    QLLSolver.solve chop qr t1 j1 t2 j2 t3 k3 slns
      = QLLSolver.solve chop qr s1 k1 s2 k2 s3 k3 slns := by
  cases e : QLLSolver.solve chop qr s1 k1 s2 k2 s3 k3 slns with
  | none =>
    cases e' : QLLSolver.solve chop qr t1 j1 t2 j2 t3 k3 slns with
    | none => rfl
    | some r' => simp [QLLSolver.solve_xyt, e, e'] at h
  | some r =>
    cases e' : QLLSolver.solve chop qr t1 j1 t2 j2 t3 k3 slns with
    | none => simp [QLLSolver.solve_xyt, e, e'] at h
    | some r' =>
      obtain ⟨n, out⟩ := r
      obtain ⟨n', out'⟩ := r'
      simp only [QLLSolver.solve_xyt, e, e', Option.map_some', Option.some.injEq,
        Prod.mk.injEq] at h
      obtain ⟨app, ha, hk⟩ := QLLSolver.solve_k3 chop qr s1 s2 s3 k1 k2 k3 slns n out e
      obtain ⟨app', ha', hk'⟩ := QLLSolver.solve_k3 chop qr t1 t2 t3 j1 j2 k3 slns n' out' e'
      have hl := h.2
      rw [ha, ha', List.map_append, List.map_append] at hl
      have happ := Solution.list_ext k3 app' app (List.append_cancel_left hl) hk' hk
      rw [h.1, ha, ha', happ]

/-- C7, as amended: applying any permutation to the three (site, k) argument pairs of
`QLLSolver::solve` leaves the return value and the sequence of the `(x, y, t)` of the
solutions on exit unchanged; every appended Solution carries the `k` passed in third
place; so the solutions on exit themselves are unchanged by a permutation that leaves
the value of the third `k` the same. Arithmetic is exact, and `chop` returns its
argument or zero and commutes with the change of sign. -/
theorem C7_qll_relabelling (chop : K → K) (qr : K → K → K → List K)
    (hc1 : ∀ x, chop x = x ∨ chop x = 0) (hc2 : ∀ x, chop (-x) = -chop x)
    (s1 s2 s3 : Site K) (k1 k2 k3 : K) (slns : List (Solution K)) :
    (QLLSolver.solve_xyt chop qr s1 k1 s3 k3 s2 k2 slns
        = QLLSolver.solve_xyt chop qr s1 k1 s2 k2 s3 k3 slns ∧
      QLLSolver.solve_xyt chop qr s2 k2 s1 k1 s3 k3 slns
        = QLLSolver.solve_xyt chop qr s1 k1 s2 k2 s3 k3 slns ∧
      QLLSolver.solve_xyt chop qr s2 k2 s3 k3 s1 k1 slns
        = QLLSolver.solve_xyt chop qr s1 k1 s2 k2 s3 k3 slns ∧
      QLLSolver.solve_xyt chop qr s3 k3 s1 k1 s2 k2 slns
        = QLLSolver.solve_xyt chop qr s1 k1 s2 k2 s3 k3 slns ∧
      QLLSolver.solve_xyt chop qr s3 k3 s2 k2 s1 k1 slns
        = QLLSolver.solve_xyt chop qr s1 k1 s2 k2 s3 k3 slns) ∧
    (∀ n out, QLLSolver.solve chop qr s1 k1 s2 k2 s3 k3 slns = some (n, out) →
      ∃ app, out = slns ++ app ∧ ∀ sol ∈ app, sol.k3 = k3) ∧
    (QLLSolver.solve chop qr s2 k2 s1 k1 s3 k3 slns
        = QLLSolver.solve chop qr s1 k1 s2 k2 s3 k3 slns ∧
      (k2 = k3 → QLLSolver.solve chop qr s1 k1 s3 k3 s2 k2 slns
        = QLLSolver.solve chop qr s1 k1 s2 k2 s3 k3 slns) ∧
      (k1 = k3 → QLLSolver.solve chop qr s2 k2 s3 k3 s1 k1 slns
        = QLLSolver.solve chop qr s1 k1 s2 k2 s3 k3 slns) ∧
      (k2 = k3 → QLLSolver.solve chop qr s3 k3 s1 k1 s2 k2 slns
        = QLLSolver.solve chop qr s1 k1 s2 k2 s3 k3 slns) ∧
      (k1 = k3 → QLLSolver.solve chop qr s3 k3 s2 k2 s1 k1 slns
        = QLLSolver.solve chop qr s1 k1 s2 k2 s3 k3 slns)) := by
  have a12 := QLLSolver.solve_xyt_swap12 chop qr hc1 hc2
  have a23 := QLLSolver.solve_xyt_swap23 chop qr hc1 hc2
  have x1 : QLLSolver.solve_xyt chop qr s1 k1 s3 k3 s2 k2 slns
      = QLLSolver.solve_xyt chop qr s1 k1 s2 k2 s3 k3 slns := a23 s1 s2 s3 k1 k2 k3 slns
  have x2 : QLLSolver.solve_xyt chop qr s2 k2 s1 k1 s3 k3 slns
      = QLLSolver.solve_xyt chop qr s1 k1 s2 k2 s3 k3 slns := a12 s1 s2 s3 k1 k2 k3 slns
  have x3 : QLLSolver.solve_xyt chop qr s2 k2 s3 k3 s1 k1 slns
      = QLLSolver.solve_xyt chop qr s1 k1 s2 k2 s3 k3 slns := by
    rw [a23 s2 s1 s3 k2 k1 k3 slns, a12 s1 s2 s3 k1 k2 k3 slns]
  have x4 : QLLSolver.solve_xyt chop qr s3 k3 s1 k1 s2 k2 slns
      = QLLSolver.solve_xyt chop qr s1 k1 s2 k2 s3 k3 slns := by
    rw [a12 s1 s3 s2 k1 k3 k2 slns, a23 s1 s2 s3 k1 k2 k3 slns]
  have x5 : QLLSolver.solve_xyt chop qr s3 k3 s2 k2 s1 k1 slns
      = QLLSolver.solve_xyt chop qr s1 k1 s2 k2 s3 k3 slns := by
    rw [a12 s2 s3 s1 k2 k3 k1 slns, a23 s2 s1 s3 k2 k1 k3 slns, a12 s1 s2 s3 k1 k2 k3 slns]
  refine ⟨⟨x1, x2, x3, x4, x5⟩,
    fun n out h => QLLSolver.solve_k3 chop qr s1 s2 s3 k1 k2 k3 slns n out h,
    QLLSolver.solve_of_xyt chop qr s1 s2 s3 s2 s1 s3 k1 k2 k3 k2 k1 slns x2, ?_, ?_, ?_, ?_⟩
  · intro hk
    subst hk
    exact QLLSolver.solve_of_xyt chop qr s1 s2 s3 s1 s3 s2 k1 k2 k2 k1 k2 slns x1
  · intro hk
    subst hk
    exact QLLSolver.solve_of_xyt chop qr s1 s2 s3 s2 s3 s1 k1 k2 k1 k2 k1 slns x3
  · intro hk
    subst hk
    exact QLLSolver.solve_of_xyt chop qr s1 s2 s3 s3 s1 s2 k1 k2 k2 k2 k1 slns x4
  · intro hk
    subst hk
    exact QLLSolver.solve_of_xyt chop qr s1 s2 s3 s3 s2 s1 k1 k2 k1 k1 k2 slns x5

/-- The hypotheses of the amended C7 hold for the `chop` that returns zero below the
magnitude `1e-10` and its argument otherwise; the sites are the point site at the
origin and the lines `(0,1)-(1,1)` and `(-2,0)-(-2,1)`. -/
theorem C7_qll_relabelling_witness :
    (∀ x : ℝ, (fun x : ℝ => if |x| < 1 / 10 ^ 10 then 0 else x) x = x ∨
      (fun x : ℝ => if |x| < 1 / 10 ^ 10 then 0 else x) x = 0) ∧
    (∀ x : ℝ, (fun x : ℝ => if |x| < 1 / 10 ^ 10 then 0 else x) (-x)
      = -(fun x : ℝ => if |x| < 1 / 10 ^ 10 then 0 else x) x) ∧
    QLLSolver.solve_xyt (fun x : ℝ => if |x| < 1 / 10 ^ 10 then 0 else x)
        (numeric.quadratic_roots Real.sqrt)
        (Site.line ⟨false, 0, -1, 1, 1⟩ 0 ⟨0, 1⟩ ⟨1, 1⟩) (-1)
        (Site.line ⟨false, 1, 0, 2, 1⟩ 0 ⟨-2, 0⟩ ⟨-2, 1⟩) (-1)
        (PointSite (⟨0, 0⟩ : Point ℝ) 0) 1 []
      = QLLSolver.solve_xyt (fun x : ℝ => if |x| < 1 / 10 ^ 10 then 0 else x)
        (numeric.quadratic_roots Real.sqrt)
        (PointSite (⟨0, 0⟩ : Point ℝ) 0) 1
        (Site.line ⟨false, 0, -1, 1, 1⟩ 0 ⟨0, 1⟩ ⟨1, 1⟩) (-1)
        (Site.line ⟨false, 1, 0, 2, 1⟩ 0 ⟨-2, 0⟩ ⟨-2, 1⟩) (-1) [] :=
  ⟨fun x => by
      by_cases h : |x| < 1 / 10 ^ 10
      · exact Or.inr (if_pos h)
      · exact Or.inl (if_neg h),
   fun x => by
      simp only [abs_neg]
      split_ifs <;> simp,
   (C7_qll_relabelling (fun x : ℝ => if |x| < 1 / 10 ^ 10 then 0 else x)
     (numeric.quadratic_roots Real.sqrt)
     (fun x => by
      by_cases h : |x| < 1 / 10 ^ 10
      · exact Or.inr (if_pos h)
      · exact Or.inl (if_neg h))
     (fun x => by
      simp only [abs_neg]
      split_ifs <;> simp)
     (PointSite (⟨0, 0⟩ : Point ℝ) 0) (Site.line ⟨false, 0, -1, 1, 1⟩ 0 ⟨0, 1⟩ ⟨1, 1⟩)
     (Site.line ⟨false, 1, 0, 2, 1⟩ 0 ⟨-2, 0⟩ ⟨-2, 1⟩) 1 (-1) (-1) []).1.2.2.1⟩

/-- C7 fails as stated: for the point site at the origin with multiplier 1 and the lines
`(0,1)-(1,1)` and `(-2,0)-(-2,1)` with multiplier -1, `QLLSolver::solve` returns the
solution `(-1, 0)`, `t = 1`, `k = -1`; with the point site passed last, every returned
solution has `k = 1`, so that solution is not among them. -/
theorem C7_qll_relabelling_counterexample :
    ∃ (s2 s3 : Site ℝ) (n n' : Int) (out out' : List (Solution ℝ)),
      LineSite Real.sqrt ⟨0, 1⟩ ⟨1, 1⟩ 1 0 = some s2 ∧
      LineSite Real.sqrt ⟨-2, 0⟩ ⟨-2, 1⟩ 1 0 = some s3 ∧
      QLLSolver.solve (fun x => x) (numeric.quadratic_roots Real.sqrt)
        (PointSite ⟨0, 0⟩ 0) 1 s2 (-1) s3 (-1) [] = some (n, out) ∧
      QLLSolver.solve (fun x => x) (numeric.quadratic_roots Real.sqrt)
        s2 (-1) s3 (-1) (PointSite ⟨0, 0⟩ 0) 1 [] = some (n', out') ∧
      (⟨⟨-1, 0⟩, 1, -1⟩ : Solution ℝ) ∈ out ∧ (⟨⟨-1, 0⟩, 1, -1⟩ : Solution ℝ) ∉ out' := by
  have e2 := LineSite_of_length ⟨0, 1⟩ ⟨1, 1⟩ 1 0 1 (by norm_num) (by norm_num)
  have e3 := LineSite_of_length ⟨-2, 0⟩ ⟨-2, 1⟩ 1 0 1 (by norm_num) (by norm_num)
  have he : QLLSolver.equations (PointSite (⟨0, 0⟩ : Point ℝ) 0) 1
      (Site.line ⟨false, (1 - 1) / 1, (0 - 1) / 1, (1 * 1 - 0 * 1) / 1, 1⟩ 0 ⟨0, 1⟩ ⟨1, 1⟩) (-1)
      (Site.line ⟨false, (1 - 0) / 1, (-2 - -2) / 1, (-2 * 0 - -2 * 1) / 1, 1⟩ 0 ⟨-2, 0⟩ ⟨-2, 1⟩)
      (-1)
      = some ([⟨false, 0, -1, 1, -1⟩, ⟨false, 1, 0, 2, -1⟩], ⟨true, 0, 0, 0, 0⟩) := by
    norm_num [QLLSolver.equations, PointSite, Site.is_linear, Site.isLine, Site.eqp_qd, Site.eq]
  have he' : QLLSolver.equations
      (Site.line ⟨false, (1 - 1) / 1, (0 - 1) / 1, (1 * 1 - 0 * 1) / 1, 1⟩ 0 ⟨0, 1⟩ ⟨1, 1⟩) (-1)
      (Site.line ⟨false, (1 - 0) / 1, (-2 - -2) / 1, (-2 * 0 - -2 * 1) / 1, 1⟩ 0 ⟨-2, 0⟩ ⟨-2, 1⟩)
      (-1) (PointSite (⟨0, 0⟩ : Point ℝ) 0) 1
      = some ([⟨false, 0, -1, 1, -1⟩, ⟨false, 1, 0, 2, -1⟩], ⟨true, 0, 0, 0, 0⟩) := by
    norm_num [QLLSolver.equations, PointSite, Site.is_linear, Site.isLine, Site.eqp_qd, Site.eq]
  have hs : Real.sqrt 16 = 4 := by
    rw [show (16 : ℝ) = 4 * 4 by norm_num]
    exact Real.sqrt_mul_self (by norm_num)
  have ha : QLLSolver.appended (fun x : ℝ => x) (numeric.quadratic_roots Real.sqrt)
      [⟨false, 0, -1, 1, -1⟩, ⟨false, 1, 0, 2, -1⟩] 0 1 2 ⟨true, 0, 0, 0, 0⟩ (-1)
      = [⟨⟨3, -4⟩, 5, -1⟩, ⟨⟨-1, 0⟩, 1, -1⟩] := by
    rw [QLLSolver.appended_012 _ _ _ _ _ _ (by norm_num)]
    norm_num [QLLSolver.qll_solve, numeric.quadratic_roots, hs]
  have h1 := QLLSolver.solve_of_equations (fun x : ℝ => x) (numeric.quadratic_roots Real.sqrt)
    _ _ _ 1 (-1) (-1) [] _ _ _ he
  have h2 := QLLSolver.solve_of_equations (fun x : ℝ => x) (numeric.quadratic_roots Real.sqrt)
    _ _ _ (-1) (-1) 1 [] _ _ _ he'
  refine ⟨_, _, _, _, _, _, e2, e3, h1, h2, ?_, ?_⟩
  · rw [ha]
    simp
  · intro hmem
    obtain ⟨app, happ, hk⟩ := QLLSolver.solve_k3 _ _ _ _ _ _ _ _ _ _ _ h2
    rw [happ] at hmem
    have := hk _ (by simpa using hmem)
    norm_num at this

/-! ### Site equations, classification and accessors -/

/-- C11: for an `ArcSite` with center `(cx, cy)` and radius `r = |center - start|`,
every multiplier `kk` in `{+1, -1}` and all `x, y, t`: the equation `eqp(kk)` satisfies
`q (x² + y² - t²) + a x + b y + c + k t = 0` if and only if
`(x - cx)² + (y - cy)² = (r + kk t)²`. -/
theorem C11_arc_site_equation (sqrt : K → K) (startpt endpt centr : Point K) (dir : Bool)
    (kk x y t : K) (hk : kk = 1 ∨ kk = -1) :
    ((ArcSite sqrt startpt endpt centr dir).eqp kk).lhs x y t = 0 ↔
      (x - centr.x) ^ 2 + (y - centr.y) ^ 2
        = ((centr.sub startpt).norm sqrt + kk * t) ^ 2 := by
  have hk2 : kk * kk = 1 := by rcases hk with rfl | rfl <;> norm_num
  simp only [ArcSite, Site.eqp, Site.eq, Eq.lhs, if_true]
  constructor
  · intro h
    linear_combination h - t * t * hk2
  · intro h
    linear_combination h + t * t * hk2

/-- The hypothesis of C11 holds for `kk = -1`; the arc has center `(0,0)` and start
`(1,0)`. -/
theorem C11_arc_site_equation_witness :
    ((-1 : ℝ) = 1 ∨ (-1 : ℝ) = -1) ∧
    (((ArcSite Real.sqrt ⟨1, 0⟩ ⟨0, 1⟩ ⟨0, 0⟩ false).eqp (-1)).lhs (1 / 2) 0 (1 / 2) = 0 ↔
      ((1 / 2 : ℝ) - 0) ^ 2 + ((0 : ℝ) - 0) ^ 2
        = ((Point.sub (⟨0, 0⟩ : Point ℝ) ⟨1, 0⟩).norm Real.sqrt + -1 * (1 / 2)) ^ 2) :=
  ⟨Or.inr rfl, C11_arc_site_equation Real.sqrt ⟨1, 0⟩ ⟨0, 1⟩ ⟨0, 0⟩ false (-1) (1 / 2) 0 (1 / 2)
    (Or.inr rfl)⟩

/-- C17: for every site and every multiplier `kk`, `eqp(kk)` and `eqp_qd(kk)` return an
equation whose `q, a, b, c` are those of the stored equation and whose `k` is the stored
`k` multiplied by `kk`; the site is the same after the call, so a later `eqp()` returns
the same equation as before; and `eqp(1) = eqp()`. -/
theorem C17_eqp_scales_k_only (s : Site K) (kk : K) :
    ((s.eqp kk).q = s.eq.q ∧ (s.eqp kk).a = s.eq.a ∧ (s.eqp kk).b = s.eq.b ∧
      (s.eqp kk).c = s.eq.c ∧ (s.eqp kk).k = s.eq.k * kk) ∧
    ((s.eqp_qd kk).q = s.eq.q ∧ (s.eqp_qd kk).a = s.eq.a ∧ (s.eqp_qd kk).b = s.eq.b ∧
      (s.eqp_qd kk).c = s.eq.c ∧ (s.eqp_qd kk).k = s.eq.k * kk) ∧
    ((s.eqp_call kk).1 = s.eqp kk ∧ (s.eqp_call kk).2 = s ∧
      (s.eqp_call kk).2.eqp0 = s.eqp0) ∧
    ((s.eqp_qd_call kk).1 = s.eqp_qd kk ∧ (s.eqp_qd_call kk).2 = s ∧
      (s.eqp_qd_call kk).2.eqp0 = s.eqp0) ∧
    s.eqp 1 = s.eqp0 := by
  refine ⟨⟨rfl, rfl, rfl, rfl, rfl⟩, ⟨rfl, rfl, rfl, rfl, rfl⟩, ⟨rfl, rfl, rfl⟩,
    ⟨rfl, rfl, rfl⟩, ?_⟩
  simp [Site.eqp, Site.eqp0]

/-- C19, on the code: for the `ArcSite` with start `(1,0)`, end `(0,1)`, center `(0,0)`
the method `is_quadratic()` returns false (it returns `isPoint()`), and so does
`is_linear()`: neither classification holds for an arc site. -/
theorem C19_arc_site_not_quadratic :
    (ArcSite Real.sqrt ⟨1, 0⟩ ⟨0, 1⟩ ⟨0, 0⟩ false).is_quadratic = false ∧
    (ArcSite Real.sqrt ⟨1, 0⟩ ⟨0, 1⟩ ⟨0, 0⟩ false).is_linear = false ∧
    (ArcSite Real.sqrt ⟨1, 0⟩ ⟨0, 1⟩ ⟨0, 0⟩ false).isArc = true :=
  ⟨rfl, rfl, rfl⟩

/-- C20: the type-specific accessors fail exactly on a mismatched variant and otherwise
return the stored geometry: `position()` succeeds only on a `PointSite`; `start()` and
`end()` only on a `LineSite` and an `ArcSite`; `a()`, `b()`, `c()` only on a `LineSite`
(the coefficients of its equation); `x()`, `y()`, `r()` only on a `PointSite` (position,
`r = 0`) and an `ArcSite` (center, radius). -/
theorem C20_accessors (e : Eq K) (f : Nat) (p st en cen : Point K) (dir : Bool)
    (rad k : K) :
    ((Site.point e f p).position = some p ∧
      (Site.point e f p).start = none ∧ (Site.point e f p).end_ = none ∧
      (Site.point e f p).a = none ∧ (Site.point e f p).b = none ∧
      (Site.point e f p).c = none ∧
      (Site.point e f p).x = some p.x ∧ (Site.point e f p).y = some p.y ∧
      (Site.point e f p).r = some 0) ∧
    ((Site.line e f st en).position = none ∧
      (Site.line e f st en).start = some st ∧ (Site.line e f st en).end_ = some en ∧
      (Site.line e f st en).a = some e.a ∧ (Site.line e f st en).b = some e.b ∧
      (Site.line e f st en).c = some e.c ∧
      (Site.line e f st en).x = none ∧ (Site.line e f st en).y = none ∧
      (Site.line e f st en).r = none) ∧
    ((Site.arc e f st en cen dir rad k).position = none ∧
      (Site.arc e f st en cen dir rad k).start = some st ∧
      (Site.arc e f st en cen dir rad k).end_ = some en ∧
      (Site.arc e f st en cen dir rad k).a = none ∧
      (Site.arc e f st en cen dir rad k).b = none ∧
      (Site.arc e f st en cen dir rad k).c = none ∧
      (Site.arc e f st en cen dir rad k).x = some cen.x ∧
      (Site.arc e f st en cen dir rad k).y = some cen.y ∧
      (Site.arc e f st en cen dir rad k).r = some rad) :=
  ⟨⟨rfl, rfl, rfl, rfl, rfl, rfl, rfl, rfl, rfl⟩, ⟨rfl, rfl, rfl, rfl, rfl, rfl, rfl, rfl, rfl⟩,
    ⟨rfl, rfl, rfl, rfl, rfl, rfl, rfl, rfl, rfl⟩⟩

/-! ### Line sites -/

/-- Distinct points have a positive squared distance. -/
theorem Point.sq_dist_pos (st en : Point K) (h : st ≠ en) :
    0 < (en.y - st.y) * (en.y - st.y) + (st.x - en.x) * (st.x - en.x) := by
  by_contra hn
  have h1 : (en.y - st.y) * (en.y - st.y) = 0 := by
    nlinarith [mul_self_nonneg (en.y - st.y), mul_self_nonneg (st.x - en.x)]
  have h2 : (st.x - en.x) * (st.x - en.x) = 0 := by
    nlinarith [mul_self_nonneg (en.y - st.y), mul_self_nonneg (st.x - en.x)]
  have hy : en.y = st.y := by
    have := mul_self_eq_zero.1 h1
    linarith
  have hx : st.x = en.x := by
    have := mul_self_eq_zero.1 h2
    linarith
  apply h
  cases st
  cases en
  simp_all

/-- The `LineSite` constructor over the reals, for distinct end points: the assertion
holds and the coefficients are those of the segment divided by its length. -/
theorem LineSite_of_ne (st en : Point ℝ) (koff : ℝ) (f : Nat) (h : st ≠ en) :
    0 < (en.sub st).norm Real.sqrt ∧
    (en.sub st).norm Real.sqrt * (en.sub st).norm Real.sqrt
      = (en.y - st.y) * (en.y - st.y) + (st.x - en.x) * (st.x - en.x) ∧
    LineSite Real.sqrt st en koff f =
      some (Site.line ⟨false, (en.y - st.y) / (en.sub st).norm Real.sqrt,
        (st.x - en.x) / (en.sub st).norm Real.sqrt,
        (en.x * st.y - st.x * en.y) / (en.sub st).norm Real.sqrt, koff⟩ f st en) := by
  have hpos := Point.sq_dist_pos st en h
  have hn : (en.sub st).norm Real.sqrt
      = Real.sqrt ((en.y - st.y) * (en.y - st.y) + (st.x - en.x) * (st.x - en.x)) := by
    simp only [Point.norm, Point.sub]
    congr 1
    ring
  have hd : 0 < (en.sub st).norm Real.sqrt := by
    rw [hn]
    exact Real.sqrt_pos.2 hpos
  have hdd : (en.sub st).norm Real.sqrt * (en.sub st).norm Real.sqrt
      = (en.y - st.y) * (en.y - st.y) + (st.x - en.x) * (st.x - en.x) := by
    rw [hn]
    exact Real.mul_self_sqrt hpos.le
  exact ⟨hd, hdd, LineSite_of_length st en koff f _ hd hdd⟩

/-- The squared value of the normalized line form is a lower bound of the squared
distance to each point of the line, attained at the foot of the perpendicular. -/
theorem LineSite.sq_distance (sx sy ex ey x y d l w : ℝ) (hd : 0 < d)
    (hdd : d * d = (ey - sy) * (ey - sy) + (sx - ex) * (sx - ex))
    (hl : l * d = -((ex - sx) * (y - sy) - (ey - sy) * (x - sx)))
    (hw : w * (d * d) = (x - sx) * (ex - sx) + (y - sy) * (ey - sy)) :
    (∀ u : ℝ, l ^ 2 ≤ (x - (sx + u * (ex - sx))) * (x - (sx + u * (ex - sx)))
        + (y - (sy + u * (ey - sy))) * (y - (sy + u * (ey - sy)))) ∧
    (x - (sx + w * (ex - sx))) * (x - (sx + w * (ex - sx)))
      + (y - (sy + w * (ey - sy))) * (y - (sy + w * (ey - sy))) = l ^ 2 ∧
    (x - (sx + w * (ex - sx))) * (ex - sx) + (y - (sy + w * (ey - sy))) * (ey - sy) = 0 := by
  have hN : 0 < d * d := mul_pos hd hd
  have hl2 : l ^ 2 * (d * d) = ((ex - sx) * (y - sy) - (ey - sy) * (x - sx)) ^ 2 := by
    have e : l ^ 2 * (d * d) = (l * d) ^ 2 := by ring
    rw [e, hl]
    ring
  refine ⟨?_, ?_, ?_⟩
  · intro u
    have id : ((x - (sx + u * (ex - sx))) * (x - (sx + u * (ex - sx)))
        + (y - (sy + u * (ey - sy))) * (y - (sy + u * (ey - sy)))) * (d * d)
        = l ^ 2 * (d * d) + (u * (d * d) - ((x - sx) * (ex - sx) + (y - sy) * (ey - sy))) ^ 2 := by
      rw [hl2]
      linear_combination ((x - sx) ^ 2 + (y - sy) ^ 2 - u ^ 2 * (d * d)) * hdd
    have key : l ^ 2 * (d * d) ≤ ((x - (sx + u * (ex - sx))) * (x - (sx + u * (ex - sx)))
        + (y - (sy + u * (ey - sy))) * (y - (sy + u * (ey - sy)))) * (d * d) := by
      rw [id]
      exact le_add_of_nonneg_right (pow_two_nonneg _)
    exact le_of_mul_le_mul_right key hN
  · apply mul_right_cancel₀ hN.ne'
    linear_combination ((x - sx) ^ 2 + (y - sy) ^ 2 - w ^ 2 * (d * d)) * hdd - hl2
      + (w * (d * d) - ((x - sx) * (ex - sx) + (y - sy) * (ey - sy))) * hw
  · linear_combination w * hdd - hw

/-- The offset equations of a normalized line form: with `+t` the point is on the left
at distance `t`, with `-t` on the right. -/
theorem LineSite.offset_side (d l cr t : ℝ) (hd : 0 < d) (hl : l * d = -cr) (ht : 0 < t) :
    (l + 1 * t = 0 ↔ 0 < cr ∧ |l| = t) ∧ (l + -1 * t = 0 ↔ 0 < -cr ∧ |l| = t) := by
  constructor
  · constructor
    · intro e
      have hneg : l = -t := by linarith
      refine ⟨?_, ?_⟩
      · rw [hneg] at hl
        nlinarith
      · rw [hneg, abs_neg, abs_of_pos ht]
    · rintro ⟨hc, ha⟩
      have hneg : l < 0 := by
        by_contra hn
        have := mul_nonneg (not_lt.1 hn) hd.le
        linarith
      rw [abs_of_neg hneg] at ha
      linarith
  · constructor
    · intro e
      have hpos : l = t := by linarith
      refine ⟨?_, ?_⟩
      · rw [hpos] at hl
        nlinarith
      · rw [hpos, abs_of_pos ht]
    · rintro ⟨hc, ha⟩
      have hpos : 0 < l := by
        by_contra hn
        have := mul_nonpos_of_nonpos_of_nonneg (not_lt.1 hn) hd.le
        linarith
      rw [abs_of_pos hpos] at ha
      linarith

/-- C12: for a `LineSite` with distinct start `s` and end `e` and every point
`p = (x, y)`: `a x + b y + c = -((e.x-s.x)(y-s.y) - (e.y-s.y)(x-s.x)) / |e-s|`; both end
points satisfy `a x + b y + c = 0`; `|a x + b y + c|` is the distance from `p` to the
infinite line (a lower bound of the distance to every point of the line, attained at
the foot of the perpendicular); with `k = +1` and `t > 0` the offset equation
`a x + b y + c + k t = 0` holds exactly for the points at distance `t` on the left of
the direction `s -> e`, with `k = -1` for those on the right. -/
theorem C12_line_site_signed_distance (st en : Point ℝ) (koff : ℝ) (f : Nat) (x y : ℝ)
    (h : st ≠ en) :
    ∃ s : Site ℝ, LineSite Real.sqrt st en koff f = some s ∧
      s.eq.a * x + s.eq.b * y + s.eq.c
        = -((en.x - st.x) * (y - st.y) - (en.y - st.y) * (x - st.x))
            / (en.sub st).norm Real.sqrt ∧
      s.eq.a * st.x + s.eq.b * st.y + s.eq.c = 0 ∧
      s.eq.a * en.x + s.eq.b * en.y + s.eq.c = 0 ∧
      (∀ u : ℝ, |s.eq.a * x + s.eq.b * y + s.eq.c|
        ≤ (Point.sub ⟨x, y⟩ (st.add (Point.smul u (en.sub st)))).norm Real.sqrt) ∧
      (∃ u : ℝ, (Point.sub ⟨x, y⟩ (st.add (Point.smul u (en.sub st)))).norm Real.sqrt
          = |s.eq.a * x + s.eq.b * y + s.eq.c| ∧
        (Point.sub ⟨x, y⟩ (st.add (Point.smul u (en.sub st)))).dot (en.sub st) = 0) ∧
      (∀ t : ℝ, 0 < t → (s.eq.a * x + s.eq.b * y + s.eq.c + 1 * t = 0 ↔
        0 < (en.x - st.x) * (y - st.y) - (en.y - st.y) * (x - st.x) ∧
          |s.eq.a * x + s.eq.b * y + s.eq.c| = t)) ∧
      (∀ t : ℝ, 0 < t → (s.eq.a * x + s.eq.b * y + s.eq.c + -1 * t = 0 ↔
        Point.is_right ⟨x, y⟩ st en = true ∧
          |s.eq.a * x + s.eq.b * y + s.eq.c| = t)) := by
  obtain ⟨hd, hdd, hs⟩ := LineSite_of_ne st en koff f h
  have hd0 : (en.sub st).norm Real.sqrt ≠ 0 := hd.ne'
  generalize (en.sub st).norm Real.sqrt = d at hd hdd hs hd0
  have hlin : (en.y - st.y) / d * x + (st.x - en.x) / d * y + (en.x * st.y - st.x * en.y) / d
      = -((en.x - st.x) * (y - st.y) - (en.y - st.y) * (x - st.x)) / d := by
    field_simp
    ring
  have hcross : ((en.y - st.y) / d * x + (st.x - en.x) / d * y
      + (en.x * st.y - st.x * en.y) / d) * d
      = -((en.x - st.x) * (y - st.y) - (en.y - st.y) * (x - st.x)) := by
    rw [hlin]
    field_simp
  obtain ⟨hmin, hfoot, hperp⟩ := LineSite.sq_distance st.x st.y en.x en.y x y d _
    (((x - st.x) * (en.x - st.x) + (y - st.y) * (en.y - st.y)) / (d * d)) hd hdd hcross
    (by field_simp)
  refine ⟨Site.line ⟨false, (en.y - st.y) / d, (st.x - en.x) / d,
    (en.x * st.y - st.x * en.y) / d, koff⟩ f st en, hs, hlin, ?_, ?_, ?_, ?_, ?_, ?_⟩
  · simp only [Site.eq]
    field_simp
    ring
  · simp only [Site.eq]
    field_simp
    ring
  · intro u
    simp only [Site.eq, Point.norm, Point.sub, Point.add, Point.smul]
    exact Real.abs_le_sqrt (hmin u)
  · refine ⟨((x - st.x) * (en.x - st.x) + (y - st.y) * (en.y - st.y)) / (d * d), ?_, ?_⟩
    · simp only [Site.eq, Point.norm, Point.sub, Point.add, Point.smul]
      rw [hfoot]
      exact Real.sqrt_sq_eq_abs _
    · simp only [Point.sub, Point.add, Point.smul, Point.dot]
      exact hperp
  · intro t ht
    exact (LineSite.offset_side d _ _ t hd hcross ht).1
  · intro t ht
    have e := (LineSite.offset_side d _ _ t hd hcross ht).2
    simp only [Site.eq, Point.is_right, decide_eq_true_eq]
    rw [e]
    constructor
    · rintro ⟨h1, h2⟩
      exact ⟨by linarith, h2⟩
    · rintro ⟨h1, h2⟩
      exact ⟨by linarith, h2⟩

/-- The hypothesis of C12 holds for the segment `(0,0)-(3,4)` and the point `(0,5)`. -/
theorem C12_line_site_signed_distance_witness :
    (⟨0, 0⟩ : Point ℝ) ≠ ⟨3, 4⟩ ∧
    ∃ s : Site ℝ, LineSite Real.sqrt ⟨0, 0⟩ ⟨3, 4⟩ 1 0 = some s ∧
      s.eq.a * 0 + s.eq.b * 5 + s.eq.c
        = -(((3 : ℝ) - 0) * (5 - 0) - (4 - 0) * (0 - 0))
            / (Point.sub (⟨3, 4⟩ : Point ℝ) ⟨0, 0⟩).norm Real.sqrt :=
  ⟨by simp,
   (C12_line_site_signed_distance ⟨0, 0⟩ ⟨3, 4⟩ 1 0 0 5 (by simp)).imp
     fun _ hs => ⟨hs.1, hs.2.1⟩⟩

/-- The squared length of a segment with distinct end points is not zero. -/
theorem Point.dot_self_pos (st en : Point K) (h : st ≠ en) :
    0 < (en.sub st).dot (en.sub st) := by
  have hp := Point.sq_dist_pos st en h
  simp only [Point.dot, Point.sub]
  nlinarith

/-- C16: for a `LineSite` with distinct end points and every point `p`, with
`raw = in_region_t_raw(p)`: `in_region_t(p)` is 0 when `|raw| < 1e-7`, 1 when
`|raw - 1| < 1e-7` and `raw` otherwise; `in_region(p)` is true if and only if
`-1e-7 < raw < 1 + 1e-7`; `in_region_t(start) = 0` and `in_region_t(end) = 1`. Here
`1e-7` is the value of the literal in the source, the double `944473296573929 / 2^73`,
which is below `10⁻⁷`: a `raw` equal to it is not set to 0. -/
theorem C16_line_in_region (st en p : Point K) (h : st ≠ en) :
    LineSite.in_region_t_raw st en p
      = (p.sub st).dot (en.sub st) / (en.sub st).dot (en.sub st) ∧
    (|LineSite.in_region_t_raw st en p| < 944473296573929 / 2 ^ 73 → LineSite.in_region_t st en p = 0) ∧
    (|LineSite.in_region_t_raw st en p - 1| < 944473296573929 / 2 ^ 73 →
      LineSite.in_region_t st en p = 1) ∧
    (¬ |LineSite.in_region_t_raw st en p| < 944473296573929 / 2 ^ 73 →
      ¬ |LineSite.in_region_t_raw st en p - 1| < 944473296573929 / 2 ^ 73 →
      LineSite.in_region_t st en p = LineSite.in_region_t_raw st en p) ∧
    (LineSite.in_region st en p = true ↔
      -(944473296573929 / 2 ^ 73) < LineSite.in_region_t_raw st en p ∧
        LineSite.in_region_t_raw st en p < 1 + 944473296573929 / 2 ^ 73) ∧
    LineSite.in_region_t st en st = 0 ∧ LineSite.in_region_t st en en = 1 ∧
    (944473296573929 : K) / 2 ^ 73 < 1 / 10 ^ 7 := by
  have hL := Point.dot_self_pos st en h
  have heps : (0 : K) < 944473296573929 / 2 ^ 73 := by positivity
  have hsmall : (944473296573929 : K) / 2 ^ 73 < 1 / 2 := by norm_num
  refine ⟨rfl, ?_, ?_, ?_, ?_, ?_, ?_, by norm_num⟩
  · intro h0
    simp only [LineSite.in_region_t_raw] at h0
    simp only [LineSite.in_region_t, h0, if_true]
  · intro h1
    simp only [LineSite.in_region_t_raw] at h1
    have h0 : ¬ |(p.sub st).dot (en.sub st) / (en.sub st).dot (en.sub st)| < 944473296573929 / 2 ^ 73 := by
      intro h0
      rw [abs_lt] at h0 h1
      linarith [h0.2, h1.1]
    simp only [LineSite.in_region_t, h0, h1, if_true, if_false]
  · intro h0 h1
    simp only [LineSite.in_region_t_raw] at h0 h1 ⊢
    simp only [LineSite.in_region_t, h0, h1, if_false]
  · simp only [LineSite.in_region, LineSite.in_region_t, LineSite.in_region_t_raw,
      Bool.and_eq_true, decide_eq_true_eq]
    generalize (p.sub st).dot (en.sub st) / (en.sub st).dot (en.sub st) = raw
    by_cases h0 : |raw| < 944473296573929 / 2 ^ 73
    · simp only [h0, if_true]
      rw [abs_lt] at h0
      constructor
      · intro _
        exact ⟨h0.1, by linarith [h0.2]⟩
      · intro _
        exact ⟨le_refl 0, zero_le_one⟩
    · by_cases h1 : |raw - 1| < 944473296573929 / 2 ^ 73
      · simp only [h0, h1, if_true, if_false]
        rw [abs_lt] at h1
        constructor
        · intro _
          exact ⟨by linarith [h1.1], by linarith [h1.2]⟩
        · intro _
          exact ⟨zero_le_one, le_refl 1⟩
      · simp only [h0, h1, if_false]
        rw [abs_lt, not_and_or, not_lt, not_lt] at h0 h1
        constructor
        · rintro ⟨a, b⟩
          exact ⟨by linarith, by linarith⟩
        · rintro ⟨a, b⟩
          constructor
          · rcases h0 with h0 | h0
            · linarith
            · linarith
          · rcases h1 with h1 | h1
            · linarith
            · linarith
  · have hz : (st.sub st).dot (en.sub st) / (en.sub st).dot (en.sub st) = 0 := by
      simp [Point.sub, Point.dot]
    simp only [LineSite.in_region_t, hz, abs_zero, heps, if_true]
  · have ho : (en.sub st).dot (en.sub st) / (en.sub st).dot (en.sub st) = 1 :=
      div_self hL.ne'
    have h0 : ¬ |(1 : K)| < 944473296573929 / 2 ^ 73 := by
      rw [abs_one]
      intro hh
      linarith
    simp only [LineSite.in_region_t, ho, h0, sub_self, abs_zero, heps, if_true, if_false]

/-- The hypothesis of C16 holds for the segment `(0,0)-(1,0)`; at the point
`(1e-7, 0)`, whose `raw` is the double `1e-7`, the value is not set to 0:
`in_region_t` returns `raw`. -/
theorem C16_line_in_region_witness :
    (⟨0, 0⟩ : Point ℚ) ≠ ⟨1, 0⟩ ∧
    LineSite.in_region_t (⟨0, 0⟩ : Point ℚ) ⟨1, 0⟩ ⟨944473296573929 / 2 ^ 73, 0⟩
      = LineSite.in_region_t_raw (⟨0, 0⟩ : Point ℚ) ⟨1, 0⟩ ⟨944473296573929 / 2 ^ 73, 0⟩ ∧
    LineSite.in_region_t_raw (⟨0, 0⟩ : Point ℚ) ⟨1, 0⟩ ⟨944473296573929 / 2 ^ 73, 0⟩
      = 944473296573929 / 2 ^ 73 :=
  ⟨by simp,
    (C16_line_in_region ⟨0, 0⟩ ⟨1, 0⟩ ⟨944473296573929 / 2 ^ 73, 0⟩ (by simp)).2.2.2.1
      (by norm_num [LineSite.in_region_t_raw, Point.sub, Point.dot, abs_lt])
      (by norm_num [LineSite.in_region_t_raw, Point.sub, Point.dot, abs_lt]),
    by norm_num [LineSite.in_region_t_raw, Point.sub, Point.dot]⟩

/-- C15 fails as stated: for the segment `(0,0)-(1,0)` and the point `(-2⁻²⁷, 0)`, about
`(-7.5e-9, 0)`, the projection falls before the start (`raw = -2⁻²⁷ < 0`), yet
`in_region_t` is 0, inside `[0,1]`, and `in_region` is true. Every operation of this
run is exact in binary64 as well. -/
theorem C15_line_in_region_t_counterexample :
    LineSite.in_region_t_raw (⟨0, 0⟩ : Point ℚ) ⟨1, 0⟩ ⟨-(1 / 2 ^ 27), 0⟩ < 0 ∧
    LineSite.in_region_t (⟨0, 0⟩ : Point ℚ) ⟨1, 0⟩ ⟨-(1 / 2 ^ 27), 0⟩ = 0 ∧
    LineSite.in_region (⟨0, 0⟩ : Point ℚ) ⟨1, 0⟩ ⟨-(1 / 2 ^ 27), 0⟩ = true := by
  have hr : LineSite.in_region_t_raw (⟨0, 0⟩ : Point ℚ) ⟨1, 0⟩ ⟨-(1 / 2 ^ 27), 0⟩
      = -(1 / 2 ^ 27) := by
    norm_num [LineSite.in_region_t_raw, Point.sub, Point.dot]
  have ht : LineSite.in_region_t (⟨0, 0⟩ : Point ℚ) ⟨1, 0⟩ ⟨-(1 / 2 ^ 27), 0⟩ = 0 := by
    norm_num [LineSite.in_region_t, Point.sub, Point.dot, abs_lt]
  refine ⟨?_, ht, ?_⟩
  · rw [hr]
    norm_num
  · simp only [LineSite.in_region, ht]
    decide

/-- C15, as amended: for a `LineSite` with distinct end points and every point `p`, with
`raw` the projection parameter: if the projection falls on the segment
(`0 ≤ raw ≤ 1`) then `in_region_t(p)` is in `[0,1]`; if it falls beyond an end point by
at least `eps` (`raw ≤ -eps` or `raw ≥ 1 + eps`) then `in_region_t(p) = raw` is
outside `[0,1]`; within `eps` beyond an end point `in_region_t(p)` is that end point's
value, 0 or 1. Here `eps` is the value of the literal `1e-7` in the source, the double
`944473296573929 / 2^73`. -/
theorem C15_line_in_region_t (st en p : Point K) (h : st ≠ en) :
    (0 ≤ LineSite.in_region_t_raw st en p ∧ LineSite.in_region_t_raw st en p ≤ 1 →
      0 ≤ LineSite.in_region_t st en p ∧ LineSite.in_region_t st en p ≤ 1) ∧
    (LineSite.in_region_t_raw st en p ≤ -(944473296573929 / 2 ^ 73) →
      LineSite.in_region_t st en p = LineSite.in_region_t_raw st en p ∧
        LineSite.in_region_t st en p < 0) ∧
    (1 + 944473296573929 / 2 ^ 73 ≤ LineSite.in_region_t_raw st en p →
      LineSite.in_region_t st en p = LineSite.in_region_t_raw st en p ∧
        1 < LineSite.in_region_t st en p) ∧
    (-(944473296573929 / 2 ^ 73) < LineSite.in_region_t_raw st en p ∧ LineSite.in_region_t_raw st en p < 0 →
      LineSite.in_region_t st en p = 0) ∧
    (1 < LineSite.in_region_t_raw st en p ∧ LineSite.in_region_t_raw st en p < 1 + 944473296573929 / 2 ^ 73 →
      LineSite.in_region_t st en p = 1) := by
  have _hL := Point.dot_self_pos st en h
  have heps : (0 : K) < 944473296573929 / 2 ^ 73 := by positivity
  have hsmall : (944473296573929 : K) / 2 ^ 73 < 1 / 2 := by norm_num
  simp only [LineSite.in_region_t, LineSite.in_region_t_raw]
  generalize (p.sub st).dot (en.sub st) / (en.sub st).dot (en.sub st) = raw
  refine ⟨?_, ?_, ?_, ?_, ?_⟩
  · rintro ⟨a, b⟩
    split_ifs
    · exact ⟨le_refl 0, zero_le_one⟩
    · exact ⟨zero_le_one, le_refl 1⟩
    · exact ⟨a, b⟩
  · intro a
    have h0 : ¬ |raw| < 944473296573929 / 2 ^ 73 := by
      rw [abs_lt]
      intro hh
      linarith [hh.1]
    have h1 : ¬ |raw - 1| < 944473296573929 / 2 ^ 73 := by
      rw [abs_lt]
      intro hh
      linarith [hh.1]
    simp only [h0, h1, if_false]
    exact ⟨trivial, by linarith⟩
  · intro a
    have h0 : ¬ |raw| < 944473296573929 / 2 ^ 73 := by
      rw [abs_lt]
      intro hh
      linarith [hh.2]
    have h1 : ¬ |raw - 1| < 944473296573929 / 2 ^ 73 := by
      rw [abs_lt]
      intro hh
      linarith [hh.2]
    simp only [h0, h1, if_false]
    exact ⟨trivial, by linarith⟩
  · rintro ⟨a, b⟩
    have h0 : |raw| < 944473296573929 / 2 ^ 73 := by
      rw [abs_lt]
      exact ⟨a, by linarith⟩
    simp only [h0, if_true]
  · rintro ⟨a, b⟩
    have h0 : ¬ |raw| < 944473296573929 / 2 ^ 73 := by
      rw [abs_lt]
      intro hh
      linarith [hh.2]
    have h1 : |raw - 1| < 944473296573929 / 2 ^ 73 := by
      rw [abs_lt]
      exact ⟨by linarith, by linarith⟩
    simp only [h0, h1, if_true, if_false]

/-- The hypothesis of the amended C15 holds for the segment `(0,0)-(1,0)`; at the point
`(-1e-7, 0)`, whose `raw` is minus the double `1e-7`, the value is not set to 0:
`in_region_t` returns `raw`, outside `[0,1]`. -/
theorem C15_line_in_region_t_witness :
    (⟨0, 0⟩ : Point ℚ) ≠ ⟨1, 0⟩ ∧
    LineSite.in_region_t_raw (⟨0, 0⟩ : Point ℚ) ⟨1, 0⟩ ⟨-(944473296573929 / 2 ^ 73), 0⟩
      ≤ -(944473296573929 / 2 ^ 73) ∧
    LineSite.in_region_t (⟨0, 0⟩ : Point ℚ) ⟨1, 0⟩ ⟨-(944473296573929 / 2 ^ 73), 0⟩
      = LineSite.in_region_t_raw (⟨0, 0⟩ : Point ℚ) ⟨1, 0⟩ ⟨-(944473296573929 / 2 ^ 73), 0⟩ ∧
    LineSite.in_region_t (⟨0, 0⟩ : Point ℚ) ⟨1, 0⟩ ⟨-(944473296573929 / 2 ^ 73), 0⟩ < 0 :=
  ⟨by simp,
    by norm_num [LineSite.in_region_t_raw, Point.sub, Point.dot],
    (C15_line_in_region_t ⟨0, 0⟩ ⟨1, 0⟩ ⟨-(944473296573929 / 2 ^ 73), 0⟩ (by simp)).2.1
      (by norm_num [LineSite.in_region_t_raw, Point.sub, Point.dot])⟩

/-- On a segment the squared distance to a point is least at the clamped projection
parameter. -/
theorem LineSite.clamp_min (A B P Q raw u us : ℝ) (hL : 0 < P * P + Q * Q)
    (hraw : raw * (P * P + Q * Q) = A * P + B * Q) (hu0 : 0 ≤ u) (hu1 : u ≤ 1)
    (hc : (raw < 0 ∧ us = 0) ∨ (1 < raw ∧ us = 1) ∨ (0 ≤ raw ∧ raw ≤ 1 ∧ us = raw)) :
    (A - us * P) * (A - us * P) + (B - us * Q) * (B - us * Q)
      ≤ (A - u * P) * (A - u * P) + (B - u * Q) * (B - u * Q) := by
  have id : (A - u * P) * (A - u * P) + (B - u * Q) * (B - u * Q)
      - ((A - us * P) * (A - us * P) + (B - us * Q) * (B - us * Q))
      = (u - us) * (u + us - 2 * raw) * (P * P + Q * Q) := by
    linear_combination 2 * (u - us) * hraw
  have hn : 0 ≤ (u - us) * (u + us - 2 * raw) := by
    rcases hc with ⟨h1, rfl⟩ | ⟨h1, rfl⟩ | ⟨_, _, rfl⟩
    · exact mul_nonneg (by linarith) (by linarith)
    · exact mul_nonneg_of_nonpos_of_nonpos (by linarith) (by linarith)
    · have e : (u - us) * (u + us - 2 * us) = (u - us) * (u - us) := by ring
      rw [e]
      exact mul_self_nonneg _
  have := mul_nonneg hn hL.le
  linarith

/-- C14: for a `LineSite` with distinct end points and every query point `p`,
`apex_point(p)` lies on the closed segment start-end and is a closest point of the
segment to `p`; when the projection parameter lies in `[0,1]` it is the orthogonal
projection of `p` on the line, otherwise it is the start (parameter `< 0`) or the end
(parameter `> 1`). -/
theorem C14_line_apex_point (st en p : Point ℝ) (h : st ≠ en) :
    (∃ u : ℝ, 0 ≤ u ∧ u ≤ 1 ∧
      LineSite.apex_point st en p = st.add (Point.smul u (en.sub st))) ∧
    (∀ u : ℝ, 0 ≤ u → u ≤ 1 →
      (p.sub (LineSite.apex_point st en p)).norm Real.sqrt
        ≤ (p.sub (st.add (Point.smul u (en.sub st)))).norm Real.sqrt) ∧
    (0 ≤ LineSite.in_region_t_raw st en p → LineSite.in_region_t_raw st en p ≤ 1 →
      LineSite.apex_point st en p
          = st.add (Point.smul (LineSite.in_region_t_raw st en p) (en.sub st)) ∧
        (p.sub (LineSite.apex_point st en p)).dot (en.sub st) = 0) ∧
    (LineSite.in_region_t_raw st en p < 0 → LineSite.apex_point st en p = st) ∧
    (1 < LineSite.in_region_t_raw st en p → LineSite.apex_point st en p = en) := by
  have hL := Point.dot_self_pos st en h
  have hraw : LineSite.in_region_t_raw st en p * ((en.sub st).dot (en.sub st))
      = (p.sub st).dot (en.sub st) := by
    simp only [LineSite.in_region_t_raw]
    exact div_mul_cancel₀ _ hL.ne'
  have hst : st.add (Point.smul 0 (en.sub st)) = st := by
    cases st
    simp [Point.add, Point.smul]
  have hen : st.add (Point.smul 1 (en.sub st)) = en := by
    cases st
    cases en
    simp [Point.add, Point.smul, Point.sub]
  have hap : ∃ us : ℝ, LineSite.apex_point st en p = st.add (Point.smul us (en.sub st)) ∧
      ((LineSite.in_region_t_raw st en p < 0 ∧ us = 0) ∨
        (1 < LineSite.in_region_t_raw st en p ∧ us = 1) ∨
        (0 ≤ LineSite.in_region_t_raw st en p ∧ LineSite.in_region_t_raw st en p ≤ 1 ∧
          us = LineSite.in_region_t_raw st en p)) := by
    by_cases h0 : LineSite.in_region_t_raw st en p < 0
    · refine ⟨0, ?_, Or.inl ⟨h0, rfl⟩⟩
      rw [hst]
      simp only [LineSite.in_region_t_raw] at h0
      simp only [LineSite.apex_point, h0, if_true]
    · by_cases h1 : 1 < LineSite.in_region_t_raw st en p
      · refine ⟨1, ?_, Or.inr (Or.inl ⟨h1, rfl⟩)⟩
        rw [hen]
        simp only [LineSite.in_region_t_raw] at h0 h1
        simp only [LineSite.apex_point, h0, gt_iff_lt, h1, if_true, if_false]
      · refine ⟨_, ?_, Or.inr (Or.inr ⟨not_lt.1 h0, not_lt.1 h1, rfl⟩)⟩
        simp only [LineSite.in_region_t_raw] at h0 h1 ⊢
        simp only [LineSite.apex_point, h0, gt_iff_lt, h1, if_false]
  obtain ⟨us, hus, hc⟩ := hap
  refine ⟨?_, ?_, ?_, ?_, ?_⟩
  · refine ⟨us, ?_, ?_, hus⟩
    · rcases hc with ⟨_, rfl⟩ | ⟨_, rfl⟩ | ⟨a, _, rfl⟩
      · exact le_refl 0
      · exact zero_le_one
      · exact a
    · rcases hc with ⟨_, rfl⟩ | ⟨_, rfl⟩ | ⟨_, b, rfl⟩
      · exact zero_le_one
      · exact le_refl 1
      · exact b
  · intro u hu0 hu1
    rw [hus]
    simp only [Point.norm, Point.sub, Point.add, Point.smul]
    apply Real.sqrt_le_sqrt
    have key := LineSite.clamp_min (p.x - st.x) (p.y - st.y) (en.x - st.x) (en.y - st.y)
      (LineSite.in_region_t_raw st en p) u us
      (by simpa [Point.dot, Point.sub] using hL)
      (by simpa [Point.dot, Point.sub] using hraw) hu0 hu1 hc
    have e1 : (p.x - (st.x + us * (en.x - st.x))) * (p.x - (st.x + us * (en.x - st.x)))
        + (p.y - (st.y + us * (en.y - st.y))) * (p.y - (st.y + us * (en.y - st.y)))
        = (p.x - st.x - us * (en.x - st.x)) * (p.x - st.x - us * (en.x - st.x))
          + (p.y - st.y - us * (en.y - st.y)) * (p.y - st.y - us * (en.y - st.y)) := by ring
    have e2 : (p.x - (st.x + u * (en.x - st.x))) * (p.x - (st.x + u * (en.x - st.x)))
        + (p.y - (st.y + u * (en.y - st.y))) * (p.y - (st.y + u * (en.y - st.y)))
        = (p.x - st.x - u * (en.x - st.x)) * (p.x - st.x - u * (en.x - st.x))
          + (p.y - st.y - u * (en.y - st.y)) * (p.y - st.y - u * (en.y - st.y)) := by ring
    rw [e1, e2]
    exact key
  · intro a b
    have hr : us = LineSite.in_region_t_raw st en p := by
      rcases hc with ⟨c, _⟩ | ⟨c, _⟩ | ⟨_, _, c⟩
      · exact absurd a (not_le.2 c)
      · exact absurd b (not_le.2 c)
      · exact c
    rw [hus, hr]
    refine ⟨rfl, ?_⟩
    simp only [Point.dot, Point.sub, Point.add, Point.smul] at hraw ⊢
    linear_combination -hraw
  · intro a
    rcases hc with ⟨_, c⟩ | ⟨b, _⟩ | ⟨b, _, _⟩
    · rw [hus, c, hst]
    · exact absurd a (not_lt.2 (by linarith))
    · exact absurd a (not_lt.2 b)
  · intro a
    rcases hc with ⟨b, _⟩ | ⟨_, c⟩ | ⟨_, b, _⟩
    · exact absurd a (not_lt.2 (by linarith))
    · rw [hus, c, hen]
    · exact absurd a (not_lt.2 b)

/-- The hypothesis of C14 holds for the segment `(0,0)-(1,0)`; the point `(2, 1)`
projects beyond the end, and its apex point is the end. -/
theorem C14_line_apex_point_witness :
    (⟨0, 0⟩ : Point ℝ) ≠ ⟨1, 0⟩ ∧
    (1 < LineSite.in_region_t_raw (⟨0, 0⟩ : Point ℝ) ⟨1, 0⟩ ⟨2, 1⟩ →
      LineSite.apex_point (⟨0, 0⟩ : Point ℝ) ⟨1, 0⟩ ⟨2, 1⟩ = ⟨1, 0⟩) :=
  ⟨by simp, (C14_line_apex_point ⟨0, 0⟩ ⟨1, 0⟩ ⟨2, 1⟩ (by simp)).2.2.2.2⟩

/-! ### The pass-through of `k3` -/

/-- C18: every `Solution` appended by the Cramer's-rule branch of `LLLSolver::solve`
(the chopped determinant exceeds `1e-6`) and every `Solution` appended by
`QLLSolver::solve` carries `k` equal to the caller's third multiplier `k3`. -/
theorem C18_k3_pass_through (chop : K → K) (qr : K → K → K → List K)
    (para_solve : Site K → K → Site K → K → Site K → K → List (Solution K) →
      Option (Int × List (Solution K)))
    (s1 s2 s3 : Site K) (k1 k2 k3 : K) (slns : List (Solution K)) :
    (|LLLSolver.detA chop (s1.eqp_qd k1) (s2.eqp_qd k2) (s3.eqp_qd k3)| > 1 / 10 ^ 6 →
      ∀ n out, LLLSolver.solve chop para_solve s1 k1 s2 k2 s3 k3 slns = some (n, out) →
        ∃ app, out = slns ++ app ∧ ∀ sol ∈ app, sol.k3 = k3) ∧
    (∀ n out, QLLSolver.solve chop qr s1 k1 s2 k2 s3 k3 slns = some (n, out) →
      ∃ app, out = slns ++ app ∧ ∀ sol ∈ app, sol.k3 = k3) := by
  refine ⟨?_, fun n out h => QLLSolver.solve_k3 chop qr s1 s2 s3 k1 k2 k3 slns n out h⟩
  intro hdet n out hs
  have hdet' : |LLLSolver.detA chop (s1.eqp_qd k1) (s2.eqp_qd k2) (s3.eqp_qd k3)|
      > LLLSolver.det_eps := hdet
  simp only [LLLSolver.solve, hdet', if_true] at hs
  split_ifs at hs
  · simp only [Option.some.injEq, Prod.mk.injEq] at hs
    refine ⟨_, hs.2.symm, ?_⟩
    intro sol hsol
    simp only [List.mem_singleton] at hsol
    rw [hsol]
  · simp only [Option.some.injEq, Prod.mk.injEq] at hs
    exact ⟨[], by simp [hs.2], by simp⟩

/-- An instance of C18 in the Cramer's-rule branch: the lines `(0,0)-(1,0)`, `(1,0)-(1,1)`
and `(0,3)-(4,0)` with the multipliers `1, 1, -1` give `detA = -6/5` and the solution
`(-1/2, 3/2)`, `t = 3/2`, which carries `k = -1`. -/
theorem C18_k3_pass_through_witness :
    |LLLSolver.detA (fun x : ℚ => x)
        ((Site.line ⟨false, 0, -1, 0, 1⟩ 0 ⟨0, 0⟩ ⟨1, 0⟩).eqp_qd 1)
        ((Site.line ⟨false, 1, 0, -1, 1⟩ 0 ⟨1, 0⟩ ⟨1, 1⟩).eqp_qd 1)
        ((Site.line ⟨false, -3 / 5, -4 / 5, 12 / 5, 1⟩ 0 ⟨0, 3⟩ ⟨4, 0⟩).eqp_qd (-1))|
      > 1 / 10 ^ 6 ∧
    ∃ app : List (Solution ℚ), [(⟨⟨-1 / 2, 3 / 2⟩, 3 / 2, -1⟩ : Solution ℚ)] = [] ++ app ∧
      ∀ sol ∈ app, sol.k3 = -1 :=
  ⟨by norm_num [LLLSolver.detA, determinant, Site.eqp_qd, Site.eq, lt_abs],
   (C18_k3_pass_through (fun x : ℚ => x) (fun _ _ _ => []) (fun _ _ _ _ _ _ _ => none)
      (Site.line ⟨false, 0, -1, 0, 1⟩ 0 ⟨0, 0⟩ ⟨1, 0⟩) (Site.line ⟨false, 1, 0, -1, 1⟩ 0 ⟨1, 0⟩ ⟨1, 1⟩)
      (Site.line ⟨false, -3 / 5, -4 / 5, 12 / 5, 1⟩ 0 ⟨0, 3⟩ ⟨4, 0⟩) 1 1 (-1) []).1
     (by norm_num [LLLSolver.detA, determinant, Site.eqp_qd, Site.eq, lt_abs]) 1 _
     (by norm_num [LLLSolver.solve, LLLSolver.detA, LLLSolver.det_eps, LLLSolver.sol_t,
        LLLSolver.sol_x, LLLSolver.sol_y, determinant, Site.eqp_qd, Site.eq, Site.isLine,
        lt_abs])⟩

/-! ### Site kinds, the arc center, equation subtraction, offset elements -/

/-- C21: for every site exactly one of `isPoint()`, `isLine()`, `isArc()` is true; a
constructed `PointSite` gives (true, false, false), a constructed `LineSite` (false,
true, false) and a constructed `ArcSite` (false, false, true). -/
theorem C21_site_kind (sqrt : K → K) (s : Site K) (p st en cen : Point K) (koff : K)
    (f : Nat) (dir : Bool) :
    ((s.isPoint = true ∧ s.isLine = false ∧ s.isArc = false) ∨
      (s.isPoint = false ∧ s.isLine = true ∧ s.isArc = false) ∨
      (s.isPoint = false ∧ s.isLine = false ∧ s.isArc = true)) ∧
    ((PointSite p f).isPoint = true ∧ (PointSite p f).isLine = false ∧
      (PointSite p f).isArc = false) ∧
    (∀ l, LineSite sqrt st en koff f = some l →
      l.isPoint = false ∧ l.isLine = true ∧ l.isArc = false) ∧
    ((ArcSite sqrt st en cen dir).isPoint = false ∧
      (ArcSite sqrt st en cen dir).isLine = false ∧
      (ArcSite sqrt st en cen dir).isArc = true) := by
  refine ⟨?_, ⟨rfl, rfl, rfl⟩, ?_, ⟨rfl, rfl, rfl⟩⟩
  · cases s
    · exact Or.inl ⟨rfl, rfl, rfl⟩
    · exact Or.inr (Or.inl ⟨rfl, rfl, rfl⟩)
    · exact Or.inr (Or.inr ⟨rfl, rfl, rfl⟩)
  · intro l hl
    unfold LineSite at hl
    dsimp only at hl
    split_ifs at hl
    cases hl
    exact ⟨rfl, rfl, rfl⟩

/-- An instance of C21 on a constructed line site: the segment `(0,0)-(3,4)` gives a
site with the flags (false, true, false). -/
theorem C21_site_kind_witness :
    ∃ l : Site ℝ, LineSite Real.sqrt ⟨0, 0⟩ ⟨3, 4⟩ 1 0 = some l ∧
      l.isPoint = false ∧ l.isLine = true ∧ l.isArc = false :=
  ⟨_, LineSite_of_length ⟨0, 0⟩ ⟨3, 4⟩ 1 0 5 (by norm_num) (by norm_num),
    (C21_site_kind Real.sqrt (PointSite ⟨0, 0⟩ 0) ⟨0, 0⟩ ⟨0, 0⟩ ⟨3, 4⟩ ⟨0, 0⟩ 1 0 false).2.2.1 _
      (LineSite_of_length ⟨0, 0⟩ ⟨3, 4⟩ 1 0 5 (by norm_num) (by norm_num))⟩

/-- A point equals itself. -/
theorem Point.equals_self (p : Point K) : p.equals p = true := by
  simp [Point.equals]

/-- C22: for every `ArcSite` (any start, end, center, direction) the center is
in-region, whatever `diangle` is (the angular parameter is not evaluated), and
`apex_point(center)` is the start point of the arc, whatever `diangle` and
`normalize` are. -/
theorem C22_arc_center_in_region (sqrt : K → K) (diangle : K → K → K)
    (normalize : Point K → Point K) (startpt endpt centr : Point K) (dir : Bool) :
    (ArcSite sqrt startpt endpt centr dir).in_region diangle centr = true ∧
    (ArcSite sqrt startpt endpt centr dir).apex_point sqrt diangle normalize centr
      = startpt ∧
    ((fun d : K → K → K => ArcSite.in_region d startpt endpt centr dir centr)
      = fun _ => true) := by
  refine ⟨?_, ?_, ?_⟩
  · simp [ArcSite, Site.in_region, ArcSite.in_region, Point.equals_self]
  · simp [ArcSite, Site.apex_point, ArcSite.apex_point, ArcSite.in_region,
      ArcSite.projection_point, Point.equals_self]
  · funext d
    simp [ArcSite.in_region, Point.equals_self]

/-- C25: for quadratic equations `e1`, `e2` (`q = 1`) the difference `e2 - e1` has `a`,
`b`, `c`, `k` equal to the componentwise differences, and for all `x, y, t` the point
`(x, y, t)` satisfies both `e1` and `e2` if and only if it satisfies `e1` and the linear
equation `a x + b y + c + k t = 0` with the coefficients of `e2 - e1`. -/
theorem C25_eq_sub_eliminates (e1 e2 : Eq K) (x y t : K) (h1 : e1.q = true)
    (h2 : e2.q = true) :
    ((e2.sub e1).a = e2.a - e1.a ∧ (e2.sub e1).b = e2.b - e1.b ∧
      (e2.sub e1).c = e2.c - e1.c ∧ (e2.sub e1).k = e2.k - e1.k) ∧
    ((e1.lhs x y t = 0 ∧ e2.lhs x y t = 0) ↔
      (e1.lhs x y t = 0 ∧
        (e2.sub e1).a * x + (e2.sub e1).b * y + (e2.sub e1).c + (e2.sub e1).k * t = 0)) := by
  refine ⟨⟨rfl, rfl, rfl, rfl⟩, ?_⟩
  simp only [Eq.lhs, Eq.sub, h1, h2, if_true]
  constructor
  · rintro ⟨ha, hb⟩
    exact ⟨ha, by linear_combination hb - ha⟩
  · rintro ⟨ha, hb⟩
    exact ⟨ha, by linear_combination hb + ha⟩

/-- The hypotheses of C25 hold for the equations of the point sites at `(0,0)` and
`(2,0)`, at the point `(1, 0)` with `t = 1`. -/
theorem C25_eq_sub_eliminates_witness :
    ((PointSite (⟨0, 0⟩ : Point ℚ) 0).eq.q = true ∧
      (PointSite (⟨2, 0⟩ : Point ℚ) 0).eq.q = true) ∧
    (((PointSite (⟨0, 0⟩ : Point ℚ) 0).eq.lhs 1 0 1 = 0 ∧
        (PointSite (⟨2, 0⟩ : Point ℚ) 0).eq.lhs 1 0 1 = 0) ↔
      ((PointSite (⟨0, 0⟩ : Point ℚ) 0).eq.lhs 1 0 1 = 0 ∧
        ((PointSite (⟨2, 0⟩ : Point ℚ) 0).eq.sub (PointSite ⟨0, 0⟩ 0).eq).a * 1
          + ((PointSite (⟨2, 0⟩ : Point ℚ) 0).eq.sub (PointSite ⟨0, 0⟩ 0).eq).b * 0
          + ((PointSite (⟨2, 0⟩ : Point ℚ) 0).eq.sub (PointSite ⟨0, 0⟩ 0).eq).c
          + ((PointSite (⟨2, 0⟩ : Point ℚ) 0).eq.sub (PointSite ⟨0, 0⟩ 0).eq).k * 1 = 0)) :=
  ⟨⟨rfl, rfl⟩,
    (C25_eq_sub_eliminates (PointSite (⟨0, 0⟩ : Point ℚ) 0).eq (PointSite ⟨2, 0⟩ 0).eq 1 0 1
      rfl rfl).2⟩

/-- C26: for all points `p1`, `p2`: `LineSite::offset(p1,p2)` is a `LineOfs` with start
`p1`, end `p2` and radius -1; `PointSite::offset(p1,p2)` is an `ArcOfs` with start `p1`,
end `p2`, center the position of the site and radius `|p1 - position|`;
`ArcSite::offset(p1,p2)` is an `ArcOfs` with start `p1`, end `p2` and center the center
of the arc; the site is the same after each of the calls. -/
theorem C26_offset_elements (sqrt : K → K) (e : Eq K) (f : Nat)
    (p st en cen p1 p2 : Point K) (dir : Bool) (rad k : K) (s : Site K) :
    ((Site.line e f st en).offset sqrt p1 p2 = LineOfs p1 p2 ∧
      ((Site.line e f st en).offset sqrt p1 p2).start = p1 ∧
      ((Site.line e f st en).offset sqrt p1 p2).end_ = p2 ∧
      ((Site.line e f st en).offset sqrt p1 p2).radius = -1) ∧
    ((Site.point e f p).offset sqrt p1 p2 = ArcOfs p1 p2 p ((p1.sub p).norm sqrt) ∧
      ((Site.point e f p).offset sqrt p1 p2).start = p1 ∧
      ((Site.point e f p).offset sqrt p1 p2).end_ = p2 ∧
      ((Site.point e f p).offset sqrt p1 p2).center = p ∧
      ((Site.point e f p).offset sqrt p1 p2).radius = (p1.sub p).norm sqrt) ∧
    ((∃ r, (Site.arc e f st en cen dir rad k).offset sqrt p1 p2 = ArcOfs p1 p2 cen r) ∧
      ((Site.arc e f st en cen dir rad k).offset sqrt p1 p2).start = p1 ∧
      ((Site.arc e f st en cen dir rad k).offset sqrt p1 p2).end_ = p2 ∧
      ((Site.arc e f st en cen dir rad k).offset sqrt p1 p2).center = cen) ∧
    ((s.offset_call sqrt p1 p2).1 = s.offset sqrt p1 p2 ∧ (s.offset_call sqrt p1 p2).2 = s) :=
  ⟨⟨rfl, rfl, rfl, rfl⟩, ⟨rfl, rfl, rfl, rfl, rfl⟩, ⟨⟨-1, rfl⟩, rfl, rfl, rfl⟩, rfl, rfl⟩

/-! ### The fallback scan of `LLLSolver`, the buckets of `QLLSolver`, the ordering of `PPPSolver` -/

/-- C29: for a site triple in which at least one site is not a line site the assertions
of `QLLSolver::solve` hold: the quadratic bucket is not empty, its first equation is
kept as the reference, each other quadratic equation minus the first one is added to
the linear bucket, and exactly two linear equations remain (as many synthesized as
there are quadratic equations after the first); the call returns. With three line sites
the first assertion fails. -/
theorem C29_qll_buckets (chop : K → K) (qr : K → K → K → List K)
    (s1 s2 s3 : Site K) (k1 k2 k3 : K) (slns : List (Solution K)) :
    (¬ (s1.isLine = true ∧ s2.isLine = true ∧ s3.isLine = true) →
      ∃ quad0 rest,
        (([(s1, k1), (s2, k2), (s3, k3)].filter fun sk => !sk.1.is_linear).map
          fun sk => sk.1.eqp_qd sk.2) = quad0 :: rest ∧
        QLLSolver.equations s1 k1 s2 k2 s3 k3
          = some ((([(s1, k1), (s2, k2), (s3, k3)].filter fun sk => sk.1.is_linear).map
              fun sk => sk.1.eqp_qd sk.2) ++ rest.map fun q => q.sub quad0, quad0) ∧
        (([(s1, k1), (s2, k2), (s3, k3)].filter fun sk => sk.1.is_linear).map
          fun sk => sk.1.eqp_qd sk.2).length + rest.length = 2 ∧
        ((([(s1, k1), (s2, k2), (s3, k3)].filter fun sk => sk.1.is_linear).map
          fun sk => sk.1.eqp_qd sk.2) ++ rest.map fun q => q.sub quad0).length = 2 ∧
        (QLLSolver.solve chop qr s1 k1 s2 k2 s3 k3 slns).isSome = true) ∧
    (s1.isLine = true ∧ s2.isLine = true ∧ s3.isLine = true →
      (([(s1, k1), (s2, k2), (s3, k3)].filter fun sk => !sk.1.is_linear).map
          fun sk => sk.1.eqp_qd sk.2) = [] ∧
        QLLSolver.equations s1 k1 s2 k2 s3 k3 = none ∧
        QLLSolver.solve chop qr s1 k1 s2 k2 s3 k3 slns = none) := by
  constructor
  · intro hq
    have hsome : (QLLSolver.solve chop qr s1 k1 s2 k2 s3 k3 slns).isSome = true := by
      rcases QLLSolver.equations_cases s1 s2 s3 k1 k2 k3 hq with
        h | h | h | h | h | h | h
      all_goals rw [QLLSolver.solve_of_equations chop qr s1 s2 s3 k1 k2 k3 slns _ _ _ h.2.2.2]
      all_goals rfl
    cases h1 : s1.isLine <;> cases h2 : s2.isLine <;> cases h3 : s3.isLine
    all_goals first
      | exact absurd ⟨by assumption, by assumption, by assumption⟩ hq
      | (simp only [List.filter, List.map, Site.is_linear, h1, h2, h3, Bool.not_true,
          Bool.not_false]
         exact ⟨_, _, rfl, by simp [QLLSolver.equations, Site.is_linear, h1, h2, h3],
          by simp, by simp, hsome⟩)
  · rintro ⟨h1, h2, h3⟩
    have he : QLLSolver.equations s1 k1 s2 k2 s3 k3 = none := by
      simp [QLLSolver.equations, Site.is_linear, h1, h2, h3]
    refine ⟨by simp [Site.is_linear, h1, h2, h3], he, ?_⟩
    simp [QLLSolver.solve, he]

/-- The square root of one half. -/
theorem sqrt_one_half : Real.sqrt (1 / 2) = Real.sqrt 2 / 2 := by
  have h2 : Real.sqrt 2 * Real.sqrt 2 = 2 := Real.mul_self_sqrt (by norm_num)
  rw [Real.sqrt_eq_iff_mul_self_eq (by norm_num) (by positivity)]
  linear_combination (-1 / 4 : ℝ) * h2

/-- The solver on a rearrangement of the points `(0,0)`, `(1,0)`, `(0,1)`. -/
theorem PPPSolver.solve_unit_triangle (s1 s2 s3 : Site ℝ) (k1 k2 k3 : ℝ)
    (slns : List (Solution ℝ)) (p1 p2 p3 : Point ℝ)
    (h1 : s1.position = some p1) (h2 : s2.position = some p2)
    (h3 : s3.position = some p3)
    (hp : (p1, p2, p3) = (⟨0, 0⟩, ⟨1, 0⟩, ⟨0, 1⟩) ∨ (p1, p2, p3) = (⟨1, 0⟩, ⟨0, 1⟩, ⟨0, 0⟩) ∨
      (p1, p2, p3) = (⟨0, 1⟩, ⟨0, 0⟩, ⟨1, 0⟩) ∨ (p1, p2, p3) = (⟨1, 0⟩, ⟨0, 0⟩, ⟨0, 1⟩) ∨
      (p1, p2, p3) = (⟨0, 0⟩, ⟨0, 1⟩, ⟨1, 0⟩) ∨ (p1, p2, p3) = (⟨0, 1⟩, ⟨1, 0⟩, ⟨0, 0⟩)) :
    PPPSolver.solve Real.sqrt s1 k1 s2 k2 s3 k3 slns
      = some (1, slns ++ [⟨⟨1 / 2, 1 / 2⟩, Real.sqrt 2 / 2, 1⟩]) := by
  obtain ⟨a, b, c, ho, hq⟩ := PPPSolver.ordered_perm Real.sqrt p1 p2 p3
  rw [PPPSolver.solve_of_ordered Real.sqrt s1 s2 s3 k1 k2 k3 slns p1 p2 p3 a b c h1 h2 h3 ho]
  simp only [Prod.mk.injEq] at hp hq
  rcases hp with hp | hp | hp | hp | hp | hp
  all_goals obtain ⟨rfl, rfl, rfl⟩ := hp
  all_goals rcases hq with hq | hq | hq | hq | hq | hq
  all_goals obtain ⟨rfl, rfl, rfl⟩ := hq
  all_goals norm_num [PPPSolver.J2, PPPSolver.J3, PPPSolver.J4, sq, Point.sub, Point.norm]
  all_goals rw [← sqrt_one_half]
  all_goals norm_num

/-- C23: for the three point sites at `(0,0)`, `(1,0)`, `(0,1)`, in each of the six
argument orders and with any `k` values, `PPPSolver::solve` returns 1 and appends
exactly one solution, with position `(1/2, 1/2)`, `t = sqrt(2)/2` (between 0.7071 and
0.7072) and `k = +1`. -/
theorem C23_ppp_unit_triangle (k1 k2 k3 : ℝ) (f1 f2 f3 : Nat) (slns : List (Solution ℝ)) :
    PPPSolver.solve Real.sqrt (PointSite ⟨0, 0⟩ f1) k1 (PointSite ⟨1, 0⟩ f2) k2
        (PointSite ⟨0, 1⟩ f3) k3 slns
      = some (1, slns ++ [⟨⟨1 / 2, 1 / 2⟩, Real.sqrt 2 / 2, 1⟩]) ∧
    PPPSolver.solve Real.sqrt (PointSite ⟨1, 0⟩ f1) k1 (PointSite ⟨0, 1⟩ f2) k2
        (PointSite ⟨0, 0⟩ f3) k3 slns
      = some (1, slns ++ [⟨⟨1 / 2, 1 / 2⟩, Real.sqrt 2 / 2, 1⟩]) ∧
    PPPSolver.solve Real.sqrt (PointSite ⟨0, 1⟩ f1) k1 (PointSite ⟨0, 0⟩ f2) k2
        (PointSite ⟨1, 0⟩ f3) k3 slns
      = some (1, slns ++ [⟨⟨1 / 2, 1 / 2⟩, Real.sqrt 2 / 2, 1⟩]) ∧
    PPPSolver.solve Real.sqrt (PointSite ⟨1, 0⟩ f1) k1 (PointSite ⟨0, 0⟩ f2) k2
        (PointSite ⟨0, 1⟩ f3) k3 slns
      = some (1, slns ++ [⟨⟨1 / 2, 1 / 2⟩, Real.sqrt 2 / 2, 1⟩]) ∧
    PPPSolver.solve Real.sqrt (PointSite ⟨0, 0⟩ f1) k1 (PointSite ⟨0, 1⟩ f2) k2
        (PointSite ⟨1, 0⟩ f3) k3 slns
      = some (1, slns ++ [⟨⟨1 / 2, 1 / 2⟩, Real.sqrt 2 / 2, 1⟩]) ∧
    PPPSolver.solve Real.sqrt (PointSite ⟨0, 1⟩ f1) k1 (PointSite ⟨1, 0⟩ f2) k2
        (PointSite ⟨0, 0⟩ f3) k3 slns
      = some (1, slns ++ [⟨⟨1 / 2, 1 / 2⟩, Real.sqrt 2 / 2, 1⟩]) ∧
    (7071 / 10000 < Real.sqrt 2 / 2 ∧ Real.sqrt 2 / 2 < 7072 / 10000) := by
  refine ⟨?_, ?_, ?_, ?_, ?_, ?_, ?_, ?_⟩
  · exact PPPSolver.solve_unit_triangle _ _ _ k1 k2 k3 slns _ _ _ rfl rfl rfl (Or.inl rfl)
  · exact PPPSolver.solve_unit_triangle _ _ _ k1 k2 k3 slns _ _ _ rfl rfl rfl
      (Or.inr (Or.inl rfl))
  · exact PPPSolver.solve_unit_triangle _ _ _ k1 k2 k3 slns _ _ _ rfl rfl rfl
      (Or.inr (Or.inr (Or.inl rfl)))
  · exact PPPSolver.solve_unit_triangle _ _ _ k1 k2 k3 slns _ _ _ rfl rfl rfl
      (Or.inr (Or.inr (Or.inr (Or.inl rfl))))
  · exact PPPSolver.solve_unit_triangle _ _ _ k1 k2 k3 slns _ _ _ rfl rfl rfl
      (Or.inr (Or.inr (Or.inr (Or.inr (Or.inl rfl)))))
  · exact PPPSolver.solve_unit_triangle _ _ _ k1 k2 k3 slns _ _ _ rfl rfl rfl
      (Or.inr (Or.inr (Or.inr (Or.inr (Or.inr rfl)))))
  · have h : (7071 / 5000 : ℝ) < Real.sqrt 2 := by
      rw [Real.lt_sqrt (by norm_num)]
      norm_num
    linarith
  · have h : Real.sqrt 2 < (7072 / 5000 : ℝ) := by
      rw [Real.sqrt_lt' (by norm_num)]
      norm_num
    linarith

/-- C24: for the line sites `(0,0)-(1,0)`, `(1,0)-(1,1)` and `(1,1)-(0,0)`, each with
offset sign `+1`, and the multipliers `k1 = k2 = k3 = +1`, `LLLSolver::solve` returns 1 and
appends exactly one solution, with `x = sqrt(2)/2` and `y = t = 1 - sqrt(2)/2 ≥ 0`: the
point at the signed distance `t` from each of the three lines (the incenter and the
inradius of the triangle). Here `chop` leaves every value of magnitude at least 1 as it
is. -/
theorem C24_lll_right_angle (chop : ℝ → ℝ)
    (para_solve : Site ℝ → ℝ → Site ℝ → ℝ → Site ℝ → ℝ → List (Solution ℝ) →
      Option (Int × List (Solution ℝ)))
    (slns : List (Solution ℝ)) (hchop : ∀ x : ℝ, 1 ≤ |x| → chop x = x) :
    ∃ s1 s2 s3 : Site ℝ,
      LineSite Real.sqrt ⟨0, 0⟩ ⟨1, 0⟩ 1 0 = some s1 ∧
      LineSite Real.sqrt ⟨1, 0⟩ ⟨1, 1⟩ 1 0 = some s2 ∧
      LineSite Real.sqrt ⟨1, 1⟩ ⟨0, 0⟩ 1 0 = some s3 ∧
      LLLSolver.solve chop para_solve s1 1 s2 1 s3 1 slns
        = some (1, slns ++
            [⟨⟨Real.sqrt 2 / 2, 1 - Real.sqrt 2 / 2⟩, 1 - Real.sqrt 2 / 2, 1⟩]) ∧
      0 ≤ 1 - Real.sqrt 2 / 2 ∧
      s1.eq.a * (Real.sqrt 2 / 2) + s1.eq.b * (1 - Real.sqrt 2 / 2) + s1.eq.c
        = -(1 - Real.sqrt 2 / 2) ∧
      s2.eq.a * (Real.sqrt 2 / 2) + s2.eq.b * (1 - Real.sqrt 2 / 2) + s2.eq.c
        = -(1 - Real.sqrt 2 / 2) ∧
      s3.eq.a * (Real.sqrt 2 / 2) + s3.eq.b * (1 - Real.sqrt 2 / 2) + s3.eq.c
        = -(1 - Real.sqrt 2 / 2) := by
  have hr : Real.sqrt 2 * Real.sqrt 2 = 2 := Real.mul_self_sqrt (by norm_num)
  have hr0 : 0 < Real.sqrt 2 := Real.sqrt_pos.mpr (by norm_num)
  have hr2 : Real.sqrt 2 ≤ 2 := by nlinarith
  generalize Real.sqrt 2 = r at hr hr0 hr2
  have hrne : r ≠ 0 := ne_of_gt hr0
  have hdet : determinant (0 : ℝ) (-1) (1 * 1) 1 0 (1 * 1) (-1 / r) (1 / r) (1 * 1) = 1 + r := by
    simp only [determinant]
    field_simp
    linear_combination -hr
  have hA : LLLSolver.detA chop
      ⟨false, (0 : ℝ), -1, 0, 1 * 1⟩ ⟨false, 1, 0, -1, 1 * 1⟩
      ⟨false, -1 / r, 1 / r, 0 / r, 1 * 1⟩ = 1 + r := by
    simp only [LLLSolver.detA]
    rw [hdet]
    exact hchop _ (by rw [abs_of_pos (by linarith)]; linarith)
  have ht : LLLSolver.sol_t chop
      ⟨false, (0 : ℝ), -1, 0, 1 * 1⟩ ⟨false, 1, 0, -1, 1 * 1⟩
      ⟨false, -1 / r, 1 / r, 0 / r, 1 * 1⟩ = 1 - r / 2 := by
    rw [LLLSolver.sol_t, hA]
    simp only [determinant]
    field_simp
    linear_combination (r - 1) * hr
  have hx : LLLSolver.sol_x chop
      ⟨false, (0 : ℝ), -1, 0, 1 * 1⟩ ⟨false, 1, 0, -1, 1 * 1⟩
      ⟨false, -1 / r, 1 / r, 0 / r, 1 * 1⟩ = r / 2 := by
    rw [LLLSolver.sol_x, hA]
    simp only [determinant]
    field_simp
    linear_combination (-r - 1) * hr
  have hy : LLLSolver.sol_y chop
      ⟨false, (0 : ℝ), -1, 0, 1 * 1⟩ ⟨false, 1, 0, -1, 1 * 1⟩
      ⟨false, -1 / r, 1 / r, 0 / r, 1 * 1⟩ = 1 - r / 2 := by
    rw [LLLSolver.sol_y, hA]
    simp only [determinant]
    field_simp
    linear_combination (r - 1) * hr
  refine ⟨Site.line ⟨false, 0, -1, 0, 1⟩ 0 ⟨0, 0⟩ ⟨1, 0⟩,
    Site.line ⟨false, 1, 0, -1, 1⟩ 0 ⟨1, 0⟩ ⟨1, 1⟩,
    Site.line ⟨false, -1 / r, 1 / r, 0 / r, 1⟩ 0 ⟨1, 1⟩ ⟨0, 0⟩, ?_, ?_, ?_, ?_, ?_, ?_, ?_, ?_⟩
  · rw [LineSite_of_length _ _ 1 0 1 (by norm_num) (by norm_num)]
    norm_num
  · rw [LineSite_of_length _ _ 1 0 1 (by norm_num) (by norm_num)]
    norm_num
  · rw [LineSite_of_length _ _ 1 0 r hr0 (by rw [hr]; norm_num)]
    norm_num
  · simp only [LLLSolver.solve, Site.isLine, Site.eqp_qd, Site.eq, hA, ht, hx, hy,
      LLLSolver.det_eps]
    have h1 : |1 + r| > 1 / 10 ^ 6 := by
      rw [abs_of_pos (by linarith)]
      norm_num
      linarith
    have h2 : 1 - r / 2 ≥ 0 := by linarith
    rw [if_neg (by simp), if_pos h1, if_pos h2]
  · linarith
  · simp only [Site.eq]; ring
  · simp only [Site.eq]; ring
  · simp only [Site.eq]
    field_simp
    linear_combination (-4 : ℝ) * hr

/-- The hypothesis of C24 holds for the identity as `chop`. -/
theorem C24_lll_right_angle_witness :
    (∀ x : ℝ, 1 ≤ |x| → (fun y : ℝ => y) x = x) ∧
    ∃ s1 s2 s3 : Site ℝ,
      LineSite Real.sqrt ⟨0, 0⟩ ⟨1, 0⟩ 1 0 = some s1 ∧
      LineSite Real.sqrt ⟨1, 0⟩ ⟨1, 1⟩ 1 0 = some s2 ∧
      LineSite Real.sqrt ⟨1, 1⟩ ⟨0, 0⟩ 1 0 = some s3 ∧
      LLLSolver.solve (fun y : ℝ => y) (fun _ _ _ _ _ _ _ => none) s1 1 s2 1 s3 1 []
        = some (1, [] ++
            [⟨⟨Real.sqrt 2 / 2, 1 - Real.sqrt 2 / 2⟩, 1 - Real.sqrt 2 / 2, 1⟩]) ∧
      0 ≤ 1 - Real.sqrt 2 / 2 ∧
      s1.eq.a * (Real.sqrt 2 / 2) + s1.eq.b * (1 - Real.sqrt 2 / 2) + s1.eq.c
        = -(1 - Real.sqrt 2 / 2) ∧
      s2.eq.a * (Real.sqrt 2 / 2) + s2.eq.b * (1 - Real.sqrt 2 / 2) + s2.eq.c
        = -(1 - Real.sqrt 2 / 2) ∧
      s3.eq.a * (Real.sqrt 2 / 2) + s3.eq.b * (1 - Real.sqrt 2 / 2) + s3.eq.c
        = -(1 - Real.sqrt 2 / 2) :=
  ⟨fun _ _ => rfl,
    C24_lll_right_angle (fun y : ℝ => y) (fun _ _ _ _ _ _ _ => none) [] (fun _ _ => rfl)⟩

/-! ### Completeness of `QLLSolver` -/

/-- The modelled `quadratic_roots` over the reals returns every root of a quadratic
that is not identically zero. -/
theorem numeric.quadratic_roots_complete (a b c w : ℝ) (hne : a ≠ 0 ∨ b ≠ 0 ∨ c ≠ 0)
    (h : a * w ^ 2 + b * w + c = 0) : w ∈ numeric.quadratic_roots Real.sqrt a b c := by
  unfold numeric.quadratic_roots
  by_cases ha : a = 0
  · subst ha
    rw [if_pos rfl]
    by_cases hb : b = 0
    · subst hb
      exfalso
      have hc : c = 0 := by linarith
      rcases hne with h' | h' | h'
      · exact h' rfl
      · exact h' rfl
      · exact h' hc
    · rw [if_neg hb]
      simp only [List.mem_singleton]
      field_simp
      linarith
  · rw [if_neg ha]
    dsimp only
    have key : (2 * a * w + b) * (2 * a * w + b) = b * b - 4 * a * c := by
      linear_combination 4 * a * h
    have h2a : (2 * a) ≠ 0 := by
      intro h0
      apply ha
      linarith
    by_cases hd : b * b - 4 * a * c > 0
    · rw [if_pos hd]
      have hs : Real.sqrt (b * b - 4 * a * c) * Real.sqrt (b * b - 4 * a * c)
          = b * b - 4 * a * c := Real.mul_self_sqrt (le_of_lt hd)
      generalize Real.sqrt (b * b - 4 * a * c) = s at hs
      have hfac : (2 * a * w + b - s) * (2 * a * w + b + s) = 0 := by
        linear_combination key - hs
      rcases mul_eq_zero.mp hfac with h1 | h1
      · refine List.mem_cons.mpr (Or.inl ?_)
        field_simp
        linarith
      · refine List.mem_cons.mpr (Or.inr (List.mem_singleton.mpr ?_))
        field_simp
        linarith
    · rw [if_neg hd]
      by_cases hz : b * b - 4 * a * c = 0
      · rw [if_pos hz]
        rw [hz] at key
        have h1 : 2 * a * w + b = 0 := mul_self_eq_zero.mp key
        simp only [List.mem_singleton]
        field_simp
        linarith
      · exfalso
        have : 0 ≤ (2 * a * w + b) * (2 * a * w + b) := mul_self_nonneg _
        rw [key] at this
        rcases lt_or_eq_of_le this with h1 | h1
        · exact hd h1
        · exact hz h1.symm

/-- The rows of a shuffle contain every `(u, v, w)` that solves the two linear equations
and the quadratic one, when the determinant is not zero, the quadratic in `w` is not
identically zero, `chop` is the identity and `quadratic_roots` returns all roots. -/
theorem QLLSolver.rows_complete (chop : K → K) (qr : K → K → K → List K)
    (hchop : ∀ x, chop x = x)
    (hqr : ∀ a b c w, (a ≠ 0 ∨ b ≠ 0 ∨ c ≠ 0) → a * w ^ 2 + b * w + c = 0 → w ∈ qr a b c)
    (ai bi ki ci aj bj kj cj a0 b0 c0 d0 e0 f0 g0 u v w : K)
    (hd : ai * bj - aj * bi ≠ 0)
    (hi : ai * u + bi * v + ci + ki * w = 0) (hj : aj * u + bj * v + cj + kj * w = 0)
    (hquad : a0 * (u * u) + b0 * u + c0 * (v * v) + d0 * v + e0 * (w * w) + f0 * w + g0 = 0)
    (hne : (QLLSolver.qll_coeffs chop a0 b0 c0 d0 e0 f0 g0
          ((bi * kj - bj * ki) / chop (ai * bj - aj * bi))
          ((bi * cj - bj * ci) / chop (ai * bj - aj * bi))
          (-(ai * kj - aj * ki) / chop (ai * bj - aj * bi))
          (-(ai * cj - aj * ci) / chop (ai * bj - aj * bi))).1 ≠ 0 ∨
        (QLLSolver.qll_coeffs chop a0 b0 c0 d0 e0 f0 g0
          ((bi * kj - bj * ki) / chop (ai * bj - aj * bi))
          ((bi * cj - bj * ci) / chop (ai * bj - aj * bi))
          (-(ai * kj - aj * ki) / chop (ai * bj - aj * bi))
          (-(ai * cj - aj * ci) / chop (ai * bj - aj * bi))).2.1 ≠ 0 ∨
        (QLLSolver.qll_coeffs chop a0 b0 c0 d0 e0 f0 g0
          ((bi * kj - bj * ki) / chop (ai * bj - aj * bi))
          ((bi * cj - bj * ci) / chop (ai * bj - aj * bi))
          (-(ai * kj - aj * ki) / chop (ai * bj - aj * bi))
          (-(ai * cj - aj * ci) / chop (ai * bj - aj * bi))).2.2 ≠ 0) :
    (u, v, w) ∈ QLLSolver.rows chop qr ai bi ki ci aj bj kj cj a0 b0 c0 d0 e0 f0 g0 := by
  have hu : u = (bi * kj - bj * ki) / (ai * bj - aj * bi) * w
      + (bi * cj - bj * ci) / (ai * bj - aj * bi) := by
    field_simp
    linear_combination bj * hi - bi * hj
  have hv : v = -(ai * kj - aj * ki) / (ai * bj - aj * bi) * w
      + -(ai * cj - aj * ci) / (ai * bj - aj * bi) := by
    field_simp
    linear_combination ai * hj - aj * hi
  simp only [QLLSolver.qll_coeffs, hchop] at hne
  simp only [QLLSolver.rows, QLLSolver.qll_solve, hchop, if_neg hd, List.mem_map]
  generalize (bi * kj - bj * ki) / (ai * bj - aj * bi) = A1 at hu hne ⊢
  generalize (bi * cj - bj * ci) / (ai * bj - aj * bi) = B1 at hu hne ⊢
  generalize -(ai * kj - aj * ki) / (ai * bj - aj * bi) = A2 at hv hne ⊢
  generalize -(ai * cj - aj * ci) / (ai * bj - aj * bi) = B2 at hv hne ⊢
  refine ⟨w, hqr _ _ _ w hne ?_, ?_⟩
  · rw [hu, hv] at hquad
    linear_combination hquad
  · rw [hu, hv]

/-- A point that solves the offset equation of each of the three sites solves the two
linear equations and the quadratic equation built by `QLLSolver::solve`, when the flag
`q` of each site's equation says whether the site is a line. -/
theorem QLLSolver.equations_complete (s1 s2 s3 : Site K) (k1 k2 k3 : K)
    (hq : ¬ (s1.isLine = true ∧ s2.isLine = true ∧ s3.isLine = true))
    (hw1 : s1.eq.q = !s1.isLine) (hw2 : s2.eq.q = !s2.isLine) (hw3 : s3.eq.q = !s3.isLine)
    (l0 l1 quad0 : Eq K)
    (he : QLLSolver.equations s1 k1 s2 k2 s3 k3 = some ([l0, l1], quad0))
    (x y t : K) (h1 : (s1.eqp_qd k1).lhs x y t = 0) (h2 : (s2.eqp_qd k2).lhs x y t = 0)
    (h3 : (s3.eqp_qd k3).lhs x y t = 0) :
    l0.lin x y t = 0 ∧ l1.lin x y t = 0 ∧
      (x * x + y * y - t * t) + quad0.lin x y t = 0 := by
  rcases QLLSolver.equations_cases s1 s2 s3 k1 k2 k3 hq with
    ⟨g1, g2, g3, e⟩ | ⟨g1, g2, g3, e⟩ | ⟨g1, g2, g3, e⟩ | ⟨g1, g2, g3, e⟩ |
    ⟨g1, g2, g3, e⟩ | ⟨g1, g2, g3, e⟩ | ⟨g1, g2, g3, e⟩
  all_goals
    rw [e] at he
    simp only [Option.some.injEq, Prod.mk.injEq, List.cons.injEq, and_true] at he
    obtain ⟨⟨rfl, rfl⟩, rfl⟩ := he
    simp only [Eq.lhs, Site.eqp_qd, hw1, hw2, hw3, g1, g2, g3, Bool.not_false, Bool.not_true,
      if_true, if_false, Bool.false_eq_true] at h1 h2 h3
    simp only [Eq.lin, Eq.sub, Site.eqp_qd]
    refine ⟨?_, ?_, ?_⟩ <;> linarith

/-- The quadratic of each of the three shuffles, from the coefficients of the
equations. -/
theorem QLLSolver.poly_shuffles (chop : K → K) (l0 l1 quad : Eq K) :
    QLLSolver.poly chop [l0, l1] 0 1 2 quad
      = (if chop (l0.a * l1.b - l1.a * l0.b) = 0 then none
         else some (QLLSolver.qll_coeffs chop 1 quad.a 1 quad.b (-1) quad.k quad.c
          ((l0.b * l1.k - l1.b * l0.k) / chop (l0.a * l1.b - l1.a * l0.b))
          ((l0.b * l1.c - l1.b * l0.c) / chop (l0.a * l1.b - l1.a * l0.b))
          (-(l0.a * l1.k - l1.a * l0.k) / chop (l0.a * l1.b - l1.a * l0.b))
          (-(l0.a * l1.c - l1.a * l0.c) / chop (l0.a * l1.b - l1.a * l0.b)))) ∧
    QLLSolver.poly chop [l0, l1] 2 0 1 quad
      = (if chop (l0.k * l1.a - l1.k * l0.a) = 0 then none
         else some (QLLSolver.qll_coeffs chop (-1) quad.k 1 quad.a 1 quad.b quad.c
          ((l0.a * l1.b - l1.a * l0.b) / chop (l0.k * l1.a - l1.k * l0.a))
          ((l0.a * l1.c - l1.a * l0.c) / chop (l0.k * l1.a - l1.k * l0.a))
          (-(l0.k * l1.b - l1.k * l0.b) / chop (l0.k * l1.a - l1.k * l0.a))
          (-(l0.k * l1.c - l1.k * l0.c) / chop (l0.k * l1.a - l1.k * l0.a)))) ∧
    QLLSolver.poly chop [l0, l1] 1 2 0 quad
      = (if chop (l0.b * l1.k - l1.b * l0.k) = 0 then none
         else some (QLLSolver.qll_coeffs chop 1 quad.b (-1) quad.k 1 quad.a quad.c
          ((l0.k * l1.a - l1.k * l0.a) / chop (l0.b * l1.k - l1.b * l0.k))
          ((l0.k * l1.c - l1.k * l0.c) / chop (l0.b * l1.k - l1.b * l0.k))
          (-(l0.b * l1.a - l1.b * l0.a) / chop (l0.b * l1.k - l1.b * l0.k))
          (-(l0.b * l1.c - l1.b * l0.c) / chop (l0.b * l1.k - l1.b * l0.k)))) := by
  refine ⟨?_, ?_, ?_⟩ <;> simp only [QLLSolver.poly, Eq.index, QLLSolver.aargs]

/-- Each shuffle whose determinant is not zero and whose quadratic is not identically
zero appends every common solution of the two linear equations and the quadratic one
(`chop` the identity, `quadratic_roots` returning all roots). -/
theorem QLLSolver.appended_complete (chop : K → K) (qr : K → K → K → List K)
    (hchop : ∀ x, chop x = x)
    (hqr : ∀ a b c w, (a ≠ 0 ∨ b ≠ 0 ∨ c ≠ 0) → a * w ^ 2 + b * w + c = 0 → w ∈ qr a b c)
    (l0 l1 quad : Eq K) (k3 : K) (xi yi ti : Nat)
    (h : (xi, yi, ti) = (0, 1, 2) ∨ (xi, yi, ti) = (2, 0, 1) ∨ (xi, yi, ti) = (1, 2, 0))
    (a b c : K) (hpoly : QLLSolver.poly chop [l0, l1] xi yi ti quad = some (a, b, c))
    (hne : a ≠ 0 ∨ b ≠ 0 ∨ c ≠ 0)
    (x y t : K) (h0 : l0.lin x y t = 0) (h1 : l1.lin x y t = 0)
    (h2 : (x * x + y * y - t * t) + quad.lin x y t = 0) :
    (x, y, t) ∈ (QLLSolver.appended chop qr [l0, l1] xi yi ti quad k3).map Solution.xyt := by
  obtain ⟨p0, p1, p2⟩ := QLLSolver.poly_shuffles chop l0 l1 quad
  obtain ⟨r0, r1, r2⟩ := QLLSolver.xyt_rows chop qr l0 l1 quad k3
  simp only [Eq.lin] at h0 h1 h2
  simp only [Prod.mk.injEq] at h
  rcases h with h | h | h
  all_goals obtain ⟨rfl, rfl, rfl⟩ := h
  · rw [p0] at hpoly
    split_ifs at hpoly with hd
    simp only [Option.some.injEq] at hpoly
    rw [r0]
    rw [hchop] at hd
    have hm := QLLSolver.rows_complete chop qr hchop hqr l0.a l0.b l0.k l0.c l1.a l1.b l1.k l1.c
      1 quad.a 1 quad.b (-1) quad.k quad.c x y t hd (by linarith) (by linarith) (by linarith)
      (by rw [hpoly]; exact hne)
    exact List.mem_map.mpr ⟨_, hm, rfl⟩
  · rw [p1] at hpoly
    split_ifs at hpoly with hd
    simp only [Option.some.injEq] at hpoly
    rw [r1]
    rw [hchop] at hd
    have hm := QLLSolver.rows_complete chop qr hchop hqr l0.k l0.a l0.b l0.c l1.k l1.a l1.b l1.c
      (-1) quad.k 1 quad.a 1 quad.b quad.c t x y hd (by linarith) (by linarith) (by linarith)
      (by rw [hpoly]; exact hne)
    exact List.mem_map.mpr ⟨_, hm, rfl⟩
  · rw [p2] at hpoly
    split_ifs at hpoly with hd
    simp only [Option.some.injEq] at hpoly
    rw [r2]
    rw [hchop] at hd
    have hm := QLLSolver.rows_complete chop qr hchop hqr l0.b l0.k l0.a l0.c l1.b l1.k l1.a l1.c
      1 quad.b (-1) quad.k 1 quad.a quad.c y t x hd (by linarith) (by linarith) (by linarith)
      (by rw [hpoly]; exact hne)
    exact List.mem_map.mpr ⟨_, hm, rfl⟩

/-- C28: completeness of `QLLSolver::solve`. For a site triple with at least one non-line
site, if `(x, y, t)` satisfies the offset equations of the three sites and, for one of
the three shuffles, the elimination determinant `d` is not zero and the quadratic
`a w² + b w + c` that results from the substitution is not identically zero, then
`(x, y, t)` is among the solutions that the call appends, with `k3`. Here the arithmetic
is exact, `chop` is the identity and `quadratic_roots` returns every root. -/
theorem C28_qll_complete (qr : K → K → K → List K)
    (hqr : ∀ a b c w, (a ≠ 0 ∨ b ≠ 0 ∨ c ≠ 0) → a * w ^ 2 + b * w + c = 0 → w ∈ qr a b c)
    (s1 s2 s3 : Site K) (k1 k2 k3 : K) (slns : List (Solution K)) (x y t : K)
    (hq : ¬ (s1.isLine = true ∧ s2.isLine = true ∧ s3.isLine = true))
    (hw1 : s1.eq.q = !s1.isLine) (hw2 : s2.eq.q = !s2.isLine) (hw3 : s3.eq.q = !s3.isLine)
    (h1 : (s1.eqp_qd k1).lhs x y t = 0) (h2 : (s2.eqp_qd k2).lhs x y t = 0)
    (h3 : (s3.eqp_qd k3).lhs x y t = 0)
    (lins : List (Eq K)) (quad0 : Eq K)
    (he : QLLSolver.equations s1 k1 s2 k2 s3 k3 = some (lins, quad0))
    (xi yi ti : Nat)
    (hperm : (xi, yi, ti) = (0, 1, 2) ∨ (xi, yi, ti) = (2, 0, 1) ∨ (xi, yi, ti) = (1, 2, 0))
    (a b c : K)
    (hpoly : QLLSolver.poly (fun v => v) lins xi yi ti quad0 = some (a, b, c))
    (hne : a ≠ 0 ∨ b ≠ 0 ∨ c ≠ 0) :
    ∃ app : List (Solution K),
      QLLSolver.solve (fun v => v) qr s1 k1 s2 k2 s3 k3 slns
        = some (((slns ++ app).length : Int), slns ++ app) ∧
      ∃ sol ∈ app, sol.p.x = x ∧ sol.p.y = y ∧ sol.t = t ∧ sol.k3 = k3 := by
  have hl : ∃ l0 l1, lins = [l0, l1] := by
    rcases QLLSolver.equations_cases s1 s2 s3 k1 k2 k3 hq with
      g | g | g | g | g | g | g
    all_goals
      rw [g.2.2.2] at he
      simp only [Option.some.injEq, Prod.mk.injEq] at he
      exact ⟨_, _, he.1.symm⟩
  obtain ⟨l0, l1, rfl⟩ := hl
  obtain ⟨g0, g1, g2⟩ := QLLSolver.equations_complete s1 s2 s3 k1 k2 k3 hq hw1 hw2 hw3
    l0 l1 quad0 he x y t h1 h2 h3
  have hm := QLLSolver.appended_complete (fun v => v) qr (fun _ => rfl) hqr l0 l1 quad0 k3
    xi yi ti hperm a b c hpoly hne x y t g0 g1 g2
  obtain ⟨sol, hsol, hxyt⟩ := List.mem_map.mp hm
  simp only [Solution.xyt, Prod.mk.injEq] at hxyt
  refine ⟨QLLSolver.appended (fun v => v) qr [l0, l1] 0 1 2 quad0 k3
      ++ QLLSolver.appended (fun v => v) qr [l0, l1] 2 0 1 quad0 k3
      ++ QLLSolver.appended (fun v => v) qr [l0, l1] 1 2 0 quad0 k3, ?_,
    sol, ?_, hxyt.1, hxyt.2.1, hxyt.2.2,
    QLLSolver.appended_k3 (fun v => v) qr l0 l1 quad0 k3 xi yi ti sol hsol⟩
  · rw [QLLSolver.solve_of_equations (fun v => v) qr s1 s2 s3 k1 k2 k3 slns l0 l1 quad0 he]
    simp only [List.append_assoc]
  · simp only [Prod.mk.injEq] at hperm
    simp only [List.mem_append]
    rcases hperm with h | h | h
    all_goals obtain ⟨rfl, rfl, rfl⟩ := h
    · exact Or.inl (Or.inl hsol)
    · exact Or.inl (Or.inr hsol)
    · exact Or.inr hsol

/-- The hypotheses of C28 hold for the point site at the origin with the lines
`(0,1)-(1,1)` and `(-2,0)-(-2,1)` and the multipliers `1, -1, -1`, at the point `(-1, 0)`
with `t = 1`: the shuffle (0,1,2) has `d = 1` and the quadratic `w² - 6 w + 5`. -/
theorem C28_qll_complete_witness :
    (∀ a b c w : ℝ, (a ≠ 0 ∨ b ≠ 0 ∨ c ≠ 0) → a * w ^ 2 + b * w + c = 0 →
      w ∈ numeric.quadratic_roots Real.sqrt a b c) ∧
    ((PointSite (⟨0, 0⟩ : Point ℝ) 0).eqp_qd 1).lhs (-1) 0 1 = 0 ∧
    ((Site.line ⟨false, 0, -1, 1, 1⟩ 0 ⟨0, 1⟩ ⟨1, 1⟩ : Site ℝ).eqp_qd (-1)).lhs (-1) 0 1 = 0 ∧
    ((Site.line ⟨false, 1, 0, 2, 1⟩ 0 ⟨-2, 0⟩ ⟨-2, 1⟩ : Site ℝ).eqp_qd (-1)).lhs (-1) 0 1 = 0 ∧
    QLLSolver.poly (fun v : ℝ => v)
        [(Site.line ⟨false, 0, -1, 1, 1⟩ 0 ⟨0, 1⟩ ⟨1, 1⟩ : Site ℝ).eqp_qd (-1),
          (Site.line ⟨false, 1, 0, 2, 1⟩ 0 ⟨-2, 0⟩ ⟨-2, 1⟩ : Site ℝ).eqp_qd (-1)]
        0 1 2 ((PointSite (⟨0, 0⟩ : Point ℝ) 0).eqp_qd 1) = some (1, -6, 5) ∧
    ∃ app : List (Solution ℝ),
      QLLSolver.solve (fun v => v) (numeric.quadratic_roots Real.sqrt)
          (PointSite ⟨0, 0⟩ 0) 1 (Site.line ⟨false, 0, -1, 1, 1⟩ 0 ⟨0, 1⟩ ⟨1, 1⟩) (-1)
          (Site.line ⟨false, 1, 0, 2, 1⟩ 0 ⟨-2, 0⟩ ⟨-2, 1⟩) (-1) []
        = some ((([] ++ app).length : Int), [] ++ app) ∧
      ∃ sol ∈ app, sol.p.x = -1 ∧ sol.p.y = 0 ∧ sol.t = 1 ∧ sol.k3 = -1 :=
  ⟨numeric.quadratic_roots_complete,
    by norm_num [Eq.lhs, Site.eqp_qd, Site.eq, PointSite],
    by norm_num [Eq.lhs, Site.eqp_qd, Site.eq],
    by norm_num [Eq.lhs, Site.eqp_qd, Site.eq],
    by norm_num [QLLSolver.poly, QLLSolver.qll_coeffs, QLLSolver.aargs, Eq.index,
      Site.eqp_qd, Site.eq, PointSite],
    C28_qll_complete (numeric.quadratic_roots Real.sqrt) numeric.quadratic_roots_complete
      (PointSite ⟨0, 0⟩ 0) (Site.line ⟨false, 0, -1, 1, 1⟩ 0 ⟨0, 1⟩ ⟨1, 1⟩)
      (Site.line ⟨false, 1, 0, 2, 1⟩ 0 ⟨-2, 0⟩ ⟨-2, 1⟩) 1 (-1) (-1) [] (-1) 0 1
      (by simp [Site.isLine, PointSite]) rfl rfl rfl
      (by norm_num [Eq.lhs, Site.eqp_qd, Site.eq, PointSite])
      (by norm_num [Eq.lhs, Site.eqp_qd, Site.eq])
      (by norm_num [Eq.lhs, Site.eqp_qd, Site.eq])
      [(Site.line ⟨false, 0, -1, 1, 1⟩ 0 ⟨0, 1⟩ ⟨1, 1⟩ : Site ℝ).eqp_qd (-1),
        (Site.line ⟨false, 1, 0, 2, 1⟩ 0 ⟨-2, 0⟩ ⟨-2, 1⟩ : Site ℝ).eqp_qd (-1)]
      ((PointSite (⟨0, 0⟩ : Point ℝ) 0).eqp_qd 1)
      (by simp [QLLSolver.equations, Site.is_linear, Site.isLine, PointSite])
      0 1 2 (Or.inl rfl) 1 (-6) 5
      (by norm_num [QLLSolver.poly, QLLSolver.qll_coeffs, QLLSolver.aargs, Eq.index,
        Site.eqp_qd, Site.eq, PointSite])
      (Or.inl one_ne_zero)⟩

/-! ### The flag of a difference, symmetry of `PPPSolver`, the return value of `QLLSolver` -/

/-- C31, on the code: `Eq::operator-` keeps the flag `q` of its left operand. For the
equations of the point sites at `(3,0)` and `(1,0)` the difference has `q = true`; at the
common solution `(2, 0)`, `t = 1` of the two equations its linear part `a x + b y + c + k t`
is 0, while its left-hand side read with the flag, `q (x² + y² - t²) + a x + b y + c + k t`,
is 3. The two equations that `QLLSolver::solve` pushes into its linear bucket for the
point sites `(1,0)`, `(3,0)`, `(0,2)` carry `q = true` as well. -/
theorem C31_eq_sub_keeps_flag :
    (∀ e1 e2 : Eq ℚ, (e2.sub e1).q = e2.q) ∧
    ((PointSite (⟨3, 0⟩ : Point ℚ) 0).eq.sub (PointSite ⟨1, 0⟩ 0).eq).q = true ∧
    (PointSite (⟨1, 0⟩ : Point ℚ) 0).eq.lhs 2 0 1 = 0 ∧
    (PointSite (⟨3, 0⟩ : Point ℚ) 0).eq.lhs 2 0 1 = 0 ∧
    ((PointSite (⟨3, 0⟩ : Point ℚ) 0).eq.sub (PointSite ⟨1, 0⟩ 0).eq).lin 2 0 1 = 0 ∧
    ((PointSite (⟨3, 0⟩ : Point ℚ) 0).eq.sub (PointSite ⟨1, 0⟩ 0).eq).lhs 2 0 1 = 3 ∧
    ∃ l0 l1 quad0,
      QLLSolver.equations (PointSite (⟨1, 0⟩ : Point ℚ) 0) 1 (PointSite ⟨3, 0⟩ 0) 1
        (PointSite ⟨0, 2⟩ 0) 1 = some ([l0, l1], quad0) ∧
      l0.q = true ∧ l1.q = true := by
  refine ⟨fun _ _ => rfl, rfl, ?_, ?_, ?_, ?_, ?_⟩
  · norm_num [Eq.lhs, PointSite, Site.eq]
  · norm_num [Eq.lhs, PointSite, Site.eq]
  · norm_num [Eq.lin, Eq.sub, PointSite, Site.eq]
  · norm_num [Eq.lhs, Eq.sub, PointSite, Site.eq]
  · exact ⟨_, _, _, rfl, rfl, rfl⟩

/-- The center of the `J` formulas does not depend on the order of the three points. -/
theorem PPPSolver.center_perm (p1 p2 p3 a b c : Point K)
    (hp : (a, b, c) = (p1, p2, p3) ∨ (a, b, c) = (p2, p3, p1) ∨ (a, b, c) = (p3, p1, p2) ∨
       (a, b, c) = (p2, p1, p3) ∨ (a, b, c) = (p1, p3, p2) ∨ (a, b, c) = (p3, p2, p1))
    (hnc : ¬ Point.collinear p1 p2 p3) :
    -PPPSolver.J2 a b c / PPPSolver.J4 a b c + c.x
        = -PPPSolver.J2 p1 p2 p3 / PPPSolver.J4 p1 p2 p3 + p3.x ∧
      PPPSolver.J3 a b c / PPPSolver.J4 a b c + c.y
        = PPPSolver.J3 p1 p2 p3 / PPPSolver.J4 p1 p2 p3 + p3.y := by
  have h0 : PPPSolver.J4 p1 p2 p3 ≠ 0 := fun h =>
    hnc ((PPPSolver.J4_eq_zero_iff p1 p2 p3 p1 p2 p3 (Or.inl rfl)).mp h)
  have h1 : PPPSolver.J4 a b c ≠ 0 := fun h =>
    hnc ((PPPSolver.J4_eq_zero_iff p1 p2 p3 a b c hp).mp h)
  simp only [Prod.mk.injEq] at hp
  rcases hp with hp | hp | hp | hp | hp | hp
  all_goals obtain ⟨rfl, rfl, rfl⟩ := hp
  all_goals simp only [PPPSolver.J2, PPPSolver.J3, PPPSolver.J4, ovd.sq] at h0 h1 ⊢
  all_goals constructor
  all_goals field_simp
  all_goals ring

/-- What `PPPSolver::solve` returns for three point sites whose positions are a
rearrangement of the non-collinear points `p1`, `p2`, `p3`: the center of the `J`
formulas of `p1`, `p2`, `p3`, with its distance to `p1`. -/
theorem PPPSolver.solve_of_perm (sqrt : K → K) (s1 s2 s3 : Site K) (k1 k2 k3 : K)
    (slns : List (Solution K)) (p1 p2 p3 q1 q2 q3 : Point K)
    (h1 : s1.position = some q1) (h2 : s2.position = some q2)
    (h3 : s3.position = some q3)
    (hp : (q1, q2, q3) = (p1, p2, p3) ∨ (q1, q2, q3) = (p2, p3, p1) ∨
      (q1, q2, q3) = (p3, p1, p2) ∨ (q1, q2, q3) = (p2, p1, p3) ∨
      (q1, q2, q3) = (p1, p3, p2) ∨ (q1, q2, q3) = (p3, p2, p1))
    (hnc : ¬ Point.collinear p1 p2 p3) :
    PPPSolver.solve sqrt s1 k1 s2 k2 s3 k3 slns =
      some (1, slns ++ [⟨⟨-PPPSolver.J2 p1 p2 p3 / PPPSolver.J4 p1 p2 p3 + p3.x,
        PPPSolver.J3 p1 p2 p3 / PPPSolver.J4 p1 p2 p3 + p3.y⟩,
        sqrt ((-PPPSolver.J2 p1 p2 p3 / PPPSolver.J4 p1 p2 p3 + p3.x - p1.x)
            * (-PPPSolver.J2 p1 p2 p3 / PPPSolver.J4 p1 p2 p3 + p3.x - p1.x)
          + (PPPSolver.J3 p1 p2 p3 / PPPSolver.J4 p1 p2 p3 + p3.y - p1.y)
            * (PPPSolver.J3 p1 p2 p3 / PPPSolver.J4 p1 p2 p3 + p3.y - p1.y)), 1⟩]) := by
  obtain ⟨a, b, c, ho, hq⟩ := PPPSolver.ordered_perm sqrt q1 q2 q3
  have habc : (a, b, c) = (p1, p2, p3) ∨ (a, b, c) = (p2, p3, p1) ∨
      (a, b, c) = (p3, p1, p2) ∨ (a, b, c) = (p2, p1, p3) ∨
      (a, b, c) = (p1, p3, p2) ∨ (a, b, c) = (p3, p2, p1) := by
    simp only [Prod.mk.injEq] at hp hq ⊢
    rcases hp with hp | hp | hp | hp | hp | hp
    all_goals obtain ⟨rfl, rfl, rfl⟩ := hp
    all_goals rcases hq with hq | hq | hq | hq | hq | hq
    all_goals obtain ⟨rfl, rfl, rfl⟩ := hq
    all_goals simp
  have h0 : PPPSolver.J4 p1 p2 p3 ≠ 0 := fun h =>
    hnc ((PPPSolver.J4_eq_zero_iff p1 p2 p3 p1 p2 p3 (Or.inl rfl)).mp h)
  have hJ : PPPSolver.J4 a b c ≠ 0 := fun h =>
    hnc ((PPPSolver.J4_eq_zero_iff p1 p2 p3 a b c habc).mp h)
  obtain ⟨hx, hy⟩ := PPPSolver.center_perm p1 p2 p3 a b c habc hnc
  obtain ⟨e1, e2⟩ := PPPSolver.center_equidistant p1 p2 p3 h0
  rw [PPPSolver.solve_of_ordered sqrt s1 s2 s3 k1 k2 k3 slns q1 q2 q3 a b c h1 h2 h3 ho,
    if_neg hJ, hx, hy]
  simp only [Point.norm, Point.sub]
  generalize -PPPSolver.J2 p1 p2 p3 / PPPSolver.J4 p1 p2 p3 + p3.x = X at e1 e2 ⊢
  generalize PPPSolver.J3 p1 p2 p3 / PPPSolver.J4 p1 p2 p3 + p3.y = Y at e1 e2 ⊢
  have hd : (X - a.x) * (X - a.x) + (Y - a.y) * (Y - a.y)
      = (X - p1.x) * (X - p1.x) + (Y - p1.y) * (Y - p1.y) := by
    simp only [Prod.mk.injEq] at habc
    rcases habc with h | h | h | h | h | h
    all_goals obtain ⟨rfl, rfl, rfl⟩ := h
    all_goals first | rfl | exact e2.trans e1.symm | exact e1.symm
  rw [hd]

/-- C32: `PPPSolver::solve` is symmetric in its sites. For three point sites whose
positions are not collinear, each of the six orders of the three site arguments (with any
`k` values) gives the same result: 1 is returned and the same solution is appended, with
the same position and the same `t`. -/
theorem C32_ppp_symmetric (sqrt : K → K) (s1 s2 s3 : Site K) (k1 k2 k3 j1 j2 j3 : K)
    (slns : List (Solution K)) (p1 p2 p3 : Point K)
    (h1 : s1.position = some p1) (h2 : s2.position = some p2)
    (h3 : s3.position = some p3) (hnc : ¬ Point.collinear p1 p2 p3) :
    ∃ sol : Solution K,
      PPPSolver.solve sqrt s1 k1 s2 k2 s3 k3 slns = some (1, slns ++ [sol]) ∧
      PPPSolver.solve sqrt s2 j1 s3 j2 s1 j3 slns = some (1, slns ++ [sol]) ∧
      PPPSolver.solve sqrt s3 j1 s1 j2 s2 j3 slns = some (1, slns ++ [sol]) ∧
      PPPSolver.solve sqrt s2 j1 s1 j2 s3 j3 slns = some (1, slns ++ [sol]) ∧
      PPPSolver.solve sqrt s1 j1 s3 j2 s2 j3 slns = some (1, slns ++ [sol]) ∧
      PPPSolver.solve sqrt s3 j1 s2 j2 s1 j3 slns = some (1, slns ++ [sol]) :=
  ⟨_, PPPSolver.solve_of_perm sqrt s1 s2 s3 k1 k2 k3 slns p1 p2 p3 p1 p2 p3 h1 h2 h3
      (Or.inl rfl) hnc,
    PPPSolver.solve_of_perm sqrt s2 s3 s1 j1 j2 j3 slns p1 p2 p3 p2 p3 p1 h2 h3 h1
      (Or.inr (Or.inl rfl)) hnc,
    PPPSolver.solve_of_perm sqrt s3 s1 s2 j1 j2 j3 slns p1 p2 p3 p3 p1 p2 h3 h1 h2
      (Or.inr (Or.inr (Or.inl rfl))) hnc,
    PPPSolver.solve_of_perm sqrt s2 s1 s3 j1 j2 j3 slns p1 p2 p3 p2 p1 p3 h2 h1 h3
      (Or.inr (Or.inr (Or.inr (Or.inl rfl)))) hnc,
    PPPSolver.solve_of_perm sqrt s1 s3 s2 j1 j2 j3 slns p1 p2 p3 p1 p3 p2 h1 h3 h2
      (Or.inr (Or.inr (Or.inr (Or.inr (Or.inl rfl))))) hnc,
    PPPSolver.solve_of_perm sqrt s3 s2 s1 j1 j2 j3 slns p1 p2 p3 p3 p2 p1 h3 h2 h1
      (Or.inr (Or.inr (Or.inr (Or.inr (Or.inr rfl))))) hnc⟩

/-- The hypotheses of C32 hold for the point sites at `(0,0)`, `(4,0)`, `(0,3)` over the
reals, which are not collinear. -/
theorem C32_ppp_symmetric_witness :
    ¬ Point.collinear (⟨0, 0⟩ : Point ℝ) ⟨4, 0⟩ ⟨0, 3⟩ ∧
    ∃ sol : Solution ℝ,
      PPPSolver.solve Real.sqrt (PointSite ⟨0, 0⟩ 0) 1 (PointSite ⟨4, 0⟩ 0) 1
        (PointSite ⟨0, 3⟩ 0) 1 [] = some (1, [] ++ [sol]) ∧
      PPPSolver.solve Real.sqrt (PointSite ⟨4, 0⟩ 0) 1 (PointSite ⟨0, 3⟩ 0) (-1)
        (PointSite ⟨0, 0⟩ 0) 1 [] = some (1, [] ++ [sol]) ∧
      PPPSolver.solve Real.sqrt (PointSite ⟨0, 3⟩ 0) 1 (PointSite ⟨0, 0⟩ 0) (-1)
        (PointSite ⟨4, 0⟩ 0) 1 [] = some (1, [] ++ [sol]) ∧
      PPPSolver.solve Real.sqrt (PointSite ⟨4, 0⟩ 0) 1 (PointSite ⟨0, 0⟩ 0) (-1)
        (PointSite ⟨0, 3⟩ 0) 1 [] = some (1, [] ++ [sol]) ∧
      PPPSolver.solve Real.sqrt (PointSite ⟨0, 0⟩ 0) 1 (PointSite ⟨0, 3⟩ 0) (-1)
        (PointSite ⟨4, 0⟩ 0) 1 [] = some (1, [] ++ [sol]) ∧
      PPPSolver.solve Real.sqrt (PointSite ⟨0, 3⟩ 0) 1 (PointSite ⟨4, 0⟩ 0) (-1)
        (PointSite ⟨0, 0⟩ 0) 1 [] = some (1, [] ++ [sol]) :=
  ⟨by norm_num [Point.collinear],
    C32_ppp_symmetric Real.sqrt (PointSite ⟨0, 0⟩ 0) (PointSite ⟨4, 0⟩ 0) (PointSite ⟨0, 3⟩ 0)
      1 1 1 1 (-1) 1 [] ⟨0, 0⟩ ⟨4, 0⟩ ⟨0, 3⟩ rfl rfl rfl (by norm_num [Point.collinear])⟩

/-- C33: on a site triple with a non-line site `QLLSolver::solve` only appends to the
output sequence: the entries present on entry are kept, in order, as a prefix, the
appended solutions are those of a call on an empty sequence, and the return value is the
length of the whole sequence after the call, (length on entry) + (number appended); it is
the number of solutions appended by this call exactly when the sequence was empty on
entry. -/
theorem C33_qll_appends_returns_size (chop : K → K) (qr : K → K → K → List K)
    (s1 s2 s3 : Site K) (k1 k2 k3 : K) (slns : List (Solution K))
    (hq : ¬ (s1.isLine = true ∧ s2.isLine = true ∧ s3.isLine = true)) :
    ∃ app : List (Solution K),
      QLLSolver.solve chop qr s1 k1 s2 k2 s3 k3 [] = some ((app.length : Int), app) ∧
      QLLSolver.solve chop qr s1 k1 s2 k2 s3 k3 slns
        = some ((slns.length : Int) + (app.length : Int), slns ++ app) ∧
      (slns ++ app).length = slns.length + app.length ∧
      ((slns.length : Int) + (app.length : Int) = (app.length : Int) ↔ slns = []) := by
  have hl : ∃ l0 l1 quad0, QLLSolver.equations s1 k1 s2 k2 s3 k3 = some ([l0, l1], quad0) := by
    rcases QLLSolver.equations_cases s1 s2 s3 k1 k2 k3 hq with
      g | g | g | g | g | g | g
    all_goals exact ⟨_, _, _, g.2.2.2⟩
  obtain ⟨l0, l1, quad0, he⟩ := hl
  refine ⟨QLLSolver.appended chop qr [l0, l1] 0 1 2 quad0 k3
      ++ QLLSolver.appended chop qr [l0, l1] 2 0 1 quad0 k3
      ++ QLLSolver.appended chop qr [l0, l1] 1 2 0 quad0 k3, ?_, ?_, ?_, ?_⟩
  · rw [QLLSolver.solve_of_equations chop qr s1 s2 s3 k1 k2 k3 [] l0 l1 quad0 he]
    simp only [List.nil_append]
  · rw [QLLSolver.solve_of_equations chop qr s1 s2 s3 k1 k2 k3 slns l0 l1 quad0 he]
    simp only [List.append_assoc, List.length_append, Nat.cast_add]
  · exact List.length_append _ _
  · constructor
    · intro h
      have h0 : (slns.length : Int) = 0 := by linarith
      exact List.length_eq_zero.mp (by exact_mod_cast h0)
    · rintro rfl
      simp

/-- The hypothesis of C33 holds for the point site at the origin with the lines
`(0,1)-(1,1)` and `(-2,0)-(-2,1)`, called on a sequence that holds one solution. -/
theorem C33_qll_appends_returns_size_witness :
    ¬ ((PointSite (⟨0, 0⟩ : Point ℝ) 0).isLine = true ∧
      (Site.line ⟨false, 0, -1, 1, 1⟩ 0 ⟨0, 1⟩ ⟨1, 1⟩ : Site ℝ).isLine = true ∧
      (Site.line ⟨false, 1, 0, 2, 1⟩ 0 ⟨-2, 0⟩ ⟨-2, 1⟩ : Site ℝ).isLine = true) ∧
    ∃ app : List (Solution ℝ),
      QLLSolver.solve (fun v => v) (numeric.quadratic_roots Real.sqrt)
          (PointSite ⟨0, 0⟩ 0) 1 (Site.line ⟨false, 0, -1, 1, 1⟩ 0 ⟨0, 1⟩ ⟨1, 1⟩) (-1)
          (Site.line ⟨false, 1, 0, 2, 1⟩ 0 ⟨-2, 0⟩ ⟨-2, 1⟩) (-1) []
        = some ((app.length : Int), app) ∧
      QLLSolver.solve (fun v => v) (numeric.quadratic_roots Real.sqrt)
          (PointSite ⟨0, 0⟩ 0) 1 (Site.line ⟨false, 0, -1, 1, 1⟩ 0 ⟨0, 1⟩ ⟨1, 1⟩) (-1)
          (Site.line ⟨false, 1, 0, 2, 1⟩ 0 ⟨-2, 0⟩ ⟨-2, 1⟩) (-1) [⟨⟨7, 7⟩, 7, 1⟩]
        = some ((([⟨⟨7, 7⟩, 7, 1⟩] : List (Solution ℝ)).length : Int) + (app.length : Int),
            [⟨⟨7, 7⟩, 7, 1⟩] ++ app) ∧
      (([⟨⟨7, 7⟩, 7, 1⟩] : List (Solution ℝ)) ++ app).length
        = ([⟨⟨7, 7⟩, 7, 1⟩] : List (Solution ℝ)).length + app.length ∧
      ((([⟨⟨7, 7⟩, 7, 1⟩] : List (Solution ℝ)).length : Int) + (app.length : Int)
          = (app.length : Int) ↔ ([⟨⟨7, 7⟩, 7, 1⟩] : List (Solution ℝ)) = []) :=
  ⟨by simp [Site.isLine, PointSite],
    C33_qll_appends_returns_size (fun v => v) (numeric.quadratic_roots Real.sqrt)
      (PointSite ⟨0, 0⟩ 0) (Site.line ⟨false, 0, -1, 1, 1⟩ 0 ⟨0, 1⟩ ⟨1, 1⟩)
      (Site.line ⟨false, 1, 0, 2, 1⟩ 0 ⟨-2, 0⟩ ⟨-2, 1⟩) 1 (-1) (-1)
      ([⟨⟨7, 7⟩, 7, 1⟩] : List (Solution ℝ))
      (by simp [Site.isLine, PointSite])⟩

/-! ### The replay in binary64 -/

/-- Rounding to binary64 at a few values: a tie goes to the even significand, a double
is left as it is, a value below half of the least subnormal becomes zero and a
value beyond the largest double is not finite. -/
theorem binary64.round_values :
    binary64.round (1 + 1 / 2 ^ 53) = some 1 ∧
    binary64.round (1 + 3 / 2 ^ 53) = some (1 + 1 / 2 ^ 51) ∧
    binary64.round (1 / 10) = some (3602879701896397 / 2 ^ 55) ∧
    binary64.round (3602879701896397 / 2 ^ 55) = some (3602879701896397 / 2 ^ 55) ∧
    binary64.round (1 / 2 ^ 1076) = some 0 ∧
    binary64.round (3 / 2 ^ 1075) = some (1 / 2 ^ 1073) ∧
    binary64.round (2 ^ 1024) = none := by
  refine ⟨by decide!, by decide!, by decide!, by decide!, by decide!, by decide!, by decide!⟩

/-- The rounded square root at a few values: `sqrt(2.0)` is the double
`6369051672525773 / 2^52`, the root of a square is exact, the root of a negative number
is not a number. -/
theorem binary64.sqrt_values :
    binary64.sqrt 2 = some (6369051672525773 / 2 ^ 52) ∧
    binary64.sqrt (9 / 4) = some (3 / 2) ∧
    binary64.sqrt 0 = some 0 ∧
    binary64.sqrt (-1) = none := by
  refine ⟨by decide!, by decide!, by decide!, by decide!⟩

/-- The replay of `PPPSolver::solve` at the point sites `(0,0)`, `(1,0)`, `(0,1)`: one
solution at `(1/2, 1/2)` whose `t` is the double nearest to `sqrt(2)/2`. -/
theorem binary64.PPPSolver.solve_at_unit_triangle :
    (binary64.PPPSolver.solve (PointSite ⟨0, 0⟩ 0) 1 (PointSite ⟨1, 0⟩ 0) 1
        (PointSite ⟨0, 1⟩ 0) 1 []).map (fun r => (r.1, r.2.map fun s => (s.p.x, s.p.y, s.t, s.k3)))
      = some (1, [(1 / 2, 1 / 2, 6369051672525773 / 2 ^ 53, 1)]) := by
  decide!

/-- The replay of the `LineSite` constructor at the segment `(0,0)-(3,4)`: the
normalized coefficients are the doubles nearest to `4/5` and `-3/5`, the value
`fabs(eq.a*eq.a + eq.b*eq.b - 1.0)` is `0.0` and the assertion passes. -/
theorem binary64.LineSite_at_3_4 :
    binary64.LineSite.normalized ⟨0, 0⟩ ⟨3, 4⟩
      = some (3602879701896397 / 2 ^ 52, -5404319552844595 / 2 ^ 53, 0, 0) ∧
    (binary64.LineSite ⟨0, 0⟩ ⟨3, 4⟩ 1 0).isSome = true := by
  refine ⟨by decide!, by decide!⟩

/-- C4 fails as stated, in the `double` arithmetic of the source (`Scalar = double`):
the positions `A = ((1 + 2^-52)/4, 1/4)`, `B = (-1/4, -(1 - 2^-52)/4)` and `O = (0,0)`
have coordinates that are doubles and are not collinear. The reordering leaves them in
the order `A, B, O` (no swap, `longest_side = 0`; `O` is opposite the longest side in
every order of the arguments), and the `J4` computed from `A, B, O`, as from
`B, A, O`, is `0.0`: the two products round to the same double. So `assert( J4 != 0.0 )`
fails where the claim has one solution. -/
theorem C4_ppp_fails_iff_collinear_counterexample :
    binary64.round (4503599627370497 / 2 ^ 54) = some (4503599627370497 / 2 ^ 54) ∧
    binary64.round (4503599627370495 / 2 ^ 54) = some (4503599627370495 / 2 ^ 54) ∧
    ¬ Point.collinear (⟨4503599627370497 / 2 ^ 54, 1 / 4⟩ : Point ℚ)
        ⟨-1 / 4, -4503599627370495 / 2 ^ 54⟩ ⟨0, 0⟩ ∧
    binary64.Point.is_right ⟨4503599627370497 / 2 ^ 54, 1 / 4⟩
        ⟨-1 / 4, -4503599627370495 / 2 ^ 54⟩ ⟨0, 0⟩ = some false ∧
    binary64.PPPSolver.longest_side ⟨4503599627370497 / 2 ^ 54, 1 / 4⟩
        ⟨-1 / 4, -4503599627370495 / 2 ^ 54⟩ ⟨0, 0⟩ = some 0 ∧
    binary64.PPPSolver.J4 ⟨4503599627370497 / 2 ^ 54, 1 / 4⟩
        ⟨-1 / 4, -4503599627370495 / 2 ^ 54⟩ ⟨0, 0⟩ = some 0 ∧
    binary64.PPPSolver.J4 ⟨-1 / 4, -4503599627370495 / 2 ^ 54⟩
        ⟨4503599627370497 / 2 ^ 54, 1 / 4⟩ ⟨0, 0⟩ = some 0 ∧
    binary64.PPPSolver.solve (PointSite ⟨4503599627370497 / 2 ^ 54, 1 / 4⟩ 0) 1
        (PointSite ⟨-1 / 4, -4503599627370495 / 2 ^ 54⟩ 0) 1 (PointSite ⟨0, 0⟩ 0) 1 []
      = none := by
  refine ⟨by decide!, by decide!, ?_, by decide!, by decide!, by decide!, by decide!,
    Option.isNone_iff_eq_none.1 (by decide!)⟩
  norm_num [Point.collinear]

end ovd
